import Mathlib

/-!
# smart-study-planner: the request handlers of `backend/index.js`

A shallow embedding of the four Express handlers
(`/api/syllabus/parse`, `/api/syllabus/plan`, `/api/questions`,
`/api/tracker/analyze`) and of the helper `generateJsonFromGemini`, followed by
the three event handlers of the browser client `public/script.js`, each up to
its first `await`.

* A JavaScript string is its sequence of UTF-16 code units.
* A JavaScript value is a JSON-shaped value (what `express.json()`,
  `express.urlencoded()` and `JSON.parse` produce) or `undefined`.
* The Number type is kept abstract (class `JSNumber`): the handlers only
  convert numbers to and from strings and test them for truthiness.
* `ai.models.generateContent` is an external service: it is a parameter of every
  handler, and every handler returns, next to the HTTP response, the list of the
  calls it made to that service and what it wrote with `console.error`.
* `req.body` is an object or `undefined`: Express 4 always sets it to an object,
  Express 5 leaves it `undefined` on a request that no body parser read.
* `res.json(value)` sends `JSON.stringify(value)`, which throws a RangeError on a
  value nested deeper than the engine's stack allows (class `StackLimit`).
-/

namespace StudyPlanner

/-! ## Strings -/

/-- A JavaScript string: a sequence of UTF-16 code units. -/
abbrev JSString := List Nat

/-- UTF-16 code units of one Unicode scalar value. -/
def utf16Char (c : Char) : List Nat :=
  if c.toNat < 0x10000 then [c.toNat]
  else [0xD800 + (c.toNat - 0x10000) / 0x400, 0xDC00 + (c.toNat - 0x10000) % 0x400]

/-- The JavaScript string written by a source literal. -/
def utf16 (s : String) : JSString :=
  s.toList.flatMap utf16Char

/-! ## Numbers -/

/-- The operations of the ECMAScript Number type used by the program. -/
class JSNumber (ν : Type) where
  /-- The value of a non-negative integer literal such as `0`, `1`, `3`. -/
  ofNat : Nat → ν
  /-- The value `NaN`. -/
  nan : ν
  /-- ToBoolean on a number: false exactly for `+0`, `-0` and `NaN`. -/
  toBoolean : ν → Bool
  /-- True for every number other than `NaN`, `Infinity` and `-Infinity`. -/
  isFinite : ν → Bool
  /-- Number::toString in radix 10. -/
  toString : ν → JSString
  /-- StringToNumber: `NaN` when the string is no numeric literal. -/
  ofString : JSString → ν

/-! ## Values -/

/-- A JavaScript value of the kinds a parsed request body or a parsed JSON text
can hold, plus `undefined` (the value of an absent property). The fields of an
object are its own properties in enumeration order. -/
inductive JSValue (ν : Type) where
  | undefined : JSValue ν
  | null : JSValue ν
  | bool (b : Bool) : JSValue ν
  | number (n : ν) : JSValue ν
  | string (s : JSString) : JSValue ν
  | array (items : List (JSValue ν)) : JSValue ν
  | object (fields : List (JSString × JSValue ν)) : JSValue ν

/-- A thrown `Error`; only its `message` is ever read by the program. -/
structure JSError where
  message : JSString
deriving DecidableEq, Repr

namespace JSValue

variable {ν : Type}

/-- String-valued value from a source literal. -/
def str (s : String) : JSValue ν := JSValue.string (utf16 s)

/-- The properties of an object literal with literal property names. -/
def props (fields : List (String × JSValue ν)) : List (JSString × JSValue ν) :=
  fields.map fun kv => (utf16 kv.1, kv.2)

/-- Object literal with literal property names. -/
def obj (fields : List (String × JSValue ν)) : JSValue ν :=
  JSValue.object (props fields)

/-- Own-property lookup in a list of properties. -/
def lookup (key : JSString) : List (JSString × JSValue ν) → JSValue ν
  | [] => JSValue.undefined
  | (k, v) :: rest => if k = key then v else lookup key rest

/-- Property read `o.key` for the property names the handlers read (none of
which is defined on `Object.prototype` or `Array.prototype`). -/
def get (o : JSValue ν) (key : String) : JSValue ν :=
  match o with
  | JSValue.object fields => lookup (utf16 key) fields
  | _ => JSValue.undefined

/-- Whether a list of properties has an own property `key`. -/
def hasOwn (key : JSString) (fields : List (JSString × JSValue ν)) : Bool :=
  fields.any fun kv => kv.1 == key

/-- ToBoolean. -/
def toBoolean [JSNumber ν] : JSValue ν → Bool
  | undefined => false
  | null => false
  | bool b => b
  | number n => JSNumber.toBoolean n
  | string s => !s.isEmpty
  | array _ => true
  | object _ => true

/-- The operator `a || b`. -/
def or [JSNumber ν] (a b : JSValue ν) : JSValue ν :=
  if a.toBoolean then a else b

/-- The `TypeError` raised by OrdinaryToPrimitive when neither `toString` nor
`valueOf` yields a primitive. -/
def cannotConvert : JSError :=
  ⟨utf16 "Cannot convert object to primitive value"⟩

/-- Joins strings with a separator, as `Array.prototype.join` does. -/
def joinWith (sep : JSString) : List JSString → JSString
  | [] => []
  | [s] => s
  | s :: rest => s ++ sep ++ joinWith sep rest

mutual
/-- ToString, as applied by template literals and by `+` with a string operand.
An array is converted by `Array.prototype.join`. A plain object has the
inherited `Object.prototype.toString` unless it carries an own property
`toString`: that property, read from JSON, is never callable, and the inherited
`valueOf` returns the object itself, so the conversion throws. -/
def toJSString [JSNumber ν] : JSValue ν → Except JSError JSString
  | undefined => .ok (utf16 "undefined")
  | null => .ok (utf16 "null")
  | bool true => .ok (utf16 "true")
  | bool false => .ok (utf16 "false")
  | number n => .ok (JSNumber.toString n)
  | string s => .ok s
  | array items =>
    match joinItems items with
    | .ok parts => .ok (joinWith (utf16 ",") parts)
    | .error e => .error e
  | object fields =>
    if hasOwn (utf16 "toString") fields then .error cannotConvert
    else .ok (utf16 "[object Object]")
/-- The strings joined by `Array.prototype.join`: the empty string for an
element that is `undefined` or `null`, ToString of the element otherwise. -/
def joinItems [JSNumber ν] : List (JSValue ν) → Except JSError (List JSString)
  | [] => .ok []
  | undefined :: rest =>
    match joinItems rest with
    | .ok ss => .ok ([] :: ss)
    | .error e => .error e
  | null :: rest =>
    match joinItems rest with
    | .ok ss => .ok ([] :: ss)
    | .error e => .error e
  | item :: rest =>
    match toJSString item with
    | .error e => .error e
    | .ok s =>
      match joinItems rest with
      | .ok ss => .ok (s :: ss)
      | .error e => .error e
end

/-- The conversion `Number(v)`: ToNumber, objects going through ToPrimitive. -/
def toNumber [JSNumber ν] : JSValue ν → Except JSError ν
  | undefined => .ok JSNumber.nan
  | null => .ok (JSNumber.ofNat 0)
  | bool true => .ok (JSNumber.ofNat 1)
  | bool false => .ok (JSNumber.ofNat 0)
  | number n => .ok n
  | string s => .ok (JSNumber.ofString s)
  | v =>
    match toJSString v with
    | .ok s => .ok (JSNumber.ofString s)
    | .error e => .error e

mutual
/-- Nesting depth of a value: `0` for a primitive, and for an array or object
one more than the deepest of its elements or property values. -/
def depth : JSValue ν → Nat
  | JSValue.array items => depthItems items + 1
  | JSValue.object fields => depthFields fields + 1
  | _ => 0
/-- The largest depth among the elements of an array. -/
def depthItems : List (JSValue ν) → Nat
  | [] => 0
  | v :: rest => max (depth v) (depthItems rest)
/-- The largest depth among the property values of an object. -/
def depthFields : List (JSString × JSValue ν) → Nat
  | [] => 0
  | (_, v) :: rest => max (depth v) (depthFields rest)
end

end JSValue

/-! ## JSON.stringify(value, null, 2) -/

namespace JSON

variable {ν : Type}

/-- Lower-case hexadecimal digit of a number below 16. -/
def hexDigit (n : Nat) : Nat :=
  if n < 10 then 0x30 + n else 0x61 + (n - 10)

/-- UnicodeEscape: a backslash, `u` and four lower-case hexadecimal digits. -/
def unicodeEscape (u : Nat) : JSString :=
  [0x5C, 0x75, hexDigit (u / 0x1000 % 16), hexDigit (u / 0x100 % 16),
    hexDigit (u / 0x10 % 16), hexDigit (u % 16)]

/-- Leading surrogate code unit. -/
def isHighSurrogate (u : Nat) : Bool := decide (0xD800 ≤ u) && decide (u ≤ 0xDBFF)

/-- Trailing surrogate code unit. -/
def isLowSurrogate (u : Nat) : Bool := decide (0xDC00 ≤ u) && decide (u ≤ 0xDFFF)

/-- The text QuoteJSONString emits for a code unit that is not part of a
surrogate pair. -/
def escapeUnit (u : Nat) : JSString :=
  if u = 0x08 then [0x5C, 0x62]
  else if u = 0x09 then [0x5C, 0x74]
  else if u = 0x0A then [0x5C, 0x6E]
  else if u = 0x0C then [0x5C, 0x66]
  else if u = 0x0D then [0x5C, 0x72]
  else if u = 0x22 then [0x5C, 0x22]
  else if u = 0x5C then [0x5C, 0x5C]
  else if u < 0x20 then unicodeEscape u
  else if isHighSurrogate u || isLowSurrogate u then unicodeEscape u
  else [u]

/-- Whether a string starts with a trailing surrogate. -/
def startsWithLow : List Nat → Bool
  | [] => false
  | l :: _ => isLowSurrogate l

/-- The characters QuoteJSONString puts between the two quotes: a surrogate pair
is copied, every other code unit goes through `escapeUnit`. The flag says that
the head of the input is the second half of a pair whose first half has just
been copied. -/
def quoteUnits : Bool → List Nat → JSString
  | _, [] => []
  | true, l :: rest => l :: quoteUnits false rest
  | false, u :: rest =>
    if isHighSurrogate u && startsWithLow rest then u :: quoteUnits true rest
    else escapeUnit u ++ quoteUnits false rest

/-- QuoteJSONString. -/
def quote (s : JSString) : JSString :=
  [0x22] ++ quoteUnits false s ++ [0x22]

/-- The gap of `JSON.stringify(value, null, 2)`: two spaces. -/
def gap : JSString := [0x20, 0x20]

mutual
/-- SerializeJSONProperty with gap `"  "` at the current indentation; `none`
stands for the result `undefined`. No value read from JSON has a callable
`toJSON`, so that step is the identity. -/
def serializeProperty [JSNumber ν] (indent : JSString) : JSValue ν → Option JSString
  | JSValue.undefined => none
  | JSValue.null => some (utf16 "null")
  | JSValue.bool true => some (utf16 "true")
  | JSValue.bool false => some (utf16 "false")
  | JSValue.number n =>
    if JSNumber.isFinite n then some (JSNumber.toString n) else some (utf16 "null")
  | JSValue.string s => some (quote s)
  | JSValue.array items =>
    match serializeItems (indent ++ gap) items with
    | [] => some (utf16 "[]")
    | parts =>
      some ([0x5B, 0x0A] ++ (indent ++ gap)
        ++ JSValue.joinWith ([0x2C, 0x0A] ++ (indent ++ gap)) parts
        ++ [0x0A] ++ indent ++ [0x5D])
  | JSValue.object fields =>
    match serializeFields (indent ++ gap) fields with
    | [] => some (utf16 "\x7b\x7d")
    | members =>
      some ([0x7B, 0x0A] ++ (indent ++ gap)
        ++ JSValue.joinWith ([0x2C, 0x0A] ++ (indent ++ gap)) members
        ++ [0x0A] ++ indent ++ [0x7D])
/-- SerializeJSONArray, the list of element texts: `null` for an element whose
serialization is `undefined`. -/
def serializeItems [JSNumber ν] (indent : JSString) : List (JSValue ν) → List JSString
  | [] => []
  | v :: rest =>
    (match serializeProperty indent v with
     | some t => t
     | none => utf16 "null") :: serializeItems indent rest
/-- SerializeJSONObject, the list of member texts: a property whose
serialization is `undefined` is left out. -/
def serializeFields [JSNumber ν] (indent : JSString) :
    List (JSString × JSValue ν) → List JSString
  | [] => []
  | (k, v) :: rest =>
    match serializeProperty indent v with
    | some t => (quote k ++ [0x3A, 0x20] ++ t) :: serializeFields indent rest
    | none => serializeFields indent rest
end

/-- The call `JSON.stringify(value, null, 2)`; `none` is the result `undefined`. -/
def stringify [JSNumber ν] (value : JSValue ν) : Option JSString :=
  serializeProperty [] value

mutual
/-- SerializeJSONProperty with the empty gap, as in `JSON.stringify(value)`;
`none` stands for the result `undefined`. -/
def compactProperty [JSNumber ν] : JSValue ν → Option JSString
  | JSValue.undefined => none
  | JSValue.null => some (utf16 "null")
  | JSValue.bool true => some (utf16 "true")
  | JSValue.bool false => some (utf16 "false")
  | JSValue.number n =>
    if JSNumber.isFinite n then some (JSNumber.toString n) else some (utf16 "null")
  | JSValue.string s => some (quote s)
  | JSValue.array items =>
    some ([0x5B] ++ JSValue.joinWith [0x2C] (compactItems items) ++ [0x5D])
  | JSValue.object fields =>
    some ([0x7B] ++ JSValue.joinWith [0x2C] (compactFields fields) ++ [0x7D])
/-- SerializeJSONArray with the empty gap, the list of element texts. -/
def compactItems [JSNumber ν] : List (JSValue ν) → List JSString
  | [] => []
  | v :: rest =>
    (match compactProperty v with
     | some t => t
     | none => utf16 "null") :: compactItems rest
/-- SerializeJSONObject with the empty gap, the list of member texts. -/
def compactFields [JSNumber ν] : List (JSString × JSValue ν) → List JSString
  | [] => []
  | (k, v) :: rest =>
    match compactProperty v with
    | some t => (quote k ++ [0x3A] ++ t) :: compactFields rest
    | none => compactFields rest
end

/-- The call `JSON.stringify(value)`; `none` is the result `undefined`. -/
def stringifyCompact [JSNumber ν] (value : JSValue ν) : Option JSString :=
  compactProperty value

/-! ## JSON.parse -/

/-- JSON white space: space, tab, line feed, carriage return. -/
def isWs (c : Nat) : Bool :=
  c = 0x20 || c = 0x09 || c = 0x0A || c = 0x0D

/-- Drops leading white space. -/
def skipWs : List Nat → List Nat
  | [] => []
  | c :: rest => if isWs c then skipWs rest else c :: rest

/-- Value of a hexadecimal digit, upper or lower case. -/
def hexValue (c : Nat) : Option Nat :=
  if 0x30 ≤ c ∧ c ≤ 0x39 then some (c - 0x30)
  else if 0x61 ≤ c ∧ c ≤ 0x66 then some (c - 0x61 + 10)
  else if 0x41 ≤ c ∧ c ≤ 0x46 then some (c - 0x41 + 10)
  else none

/-- The code unit denoted by a one-character escape. -/
def simpleEscape (c : Nat) : Option Nat :=
  if c = 0x22 then some 0x22
  else if c = 0x5C then some 0x5C
  else if c = 0x2F then some 0x2F
  else if c = 0x62 then some 0x08
  else if c = 0x66 then some 0x0C
  else if c = 0x6E then some 0x0A
  else if c = 0x72 then some 0x0D
  else if c = 0x74 then some 0x09
  else none

/-- The code unit denoted by four hexadecimal digits. -/
def hex4 (a b c d : Nat) : Option Nat :=
  match hexValue a, hexValue b, hexValue c, hexValue d with
  | some x, some y, some z, some w => some (((x * 16 + y) * 16 + z) * 16 + w)
  | _, _, _, _ => none

/-- Reads a JSON string after its opening quote, up to and including the
closing quote. -/
def parseStringBody : List Nat → Option (JSString × List Nat)
  | [] => none
  | c :: rest =>
    if c = 0x22 then some ([], rest)
    else if c = 0x5C then
      match rest with
      | [] => none
      | e :: rest1 =>
        if e = 0x75 then
          match rest1 with
          | h1 :: h2 :: h3 :: h4 :: rest2 =>
            match hex4 h1 h2 h3 h4 with
            | some u =>
              match parseStringBody rest2 with
              | some (s, r) => some (u :: s, r)
              | none => none
            | none => none
          | _ => none
        else
          match simpleEscape e with
          | some u =>
            match parseStringBody rest1 with
            | some (s, r) => some (u :: s, r)
            | none => none
          | none => none
    else if c < 0x20 then none
    else
      match parseStringBody rest with
      | some (s, r) => some (c :: s, r)
      | none => none

/-- Decimal digit. -/
def isDigit (c : Nat) : Bool := decide (0x30 ≤ c) && decide (c ≤ 0x39)

/-- Splits off the longest prefix of decimal digits. -/
def scanDigits : List Nat → List Nat × List Nat
  | [] => ([], [])
  | c :: rest =>
    if isDigit c then ((scanDigits rest).1.cons c, (scanDigits rest).2)
    else ([], c :: rest)

/-- The integer part of a JSON number: `0`, or a non-zero digit and digits. -/
def scanInt : List Nat → Option (List Nat × List Nat)
  | [] => none
  | c :: rest =>
    if c = 0x30 then some ([c], rest)
    else if isDigit c then some (c :: (scanDigits rest).1, (scanDigits rest).2)
    else none

/-- The optional fraction of a JSON number: a dot and at least one digit. -/
def scanFrac : List Nat → Option (List Nat × List Nat)
  | [] => some ([], [])
  | c :: rest =>
    if c = 0x2E then
      match scanDigits rest with
      | ([], _) => none
      | (ds, r) => some (c :: ds, r)
    else some ([], c :: rest)

/-- The optional exponent of a JSON number: `e` or `E`, an optional sign and at
least one digit. -/
def scanExp : List Nat → Option (List Nat × List Nat)
  | [] => some ([], [])
  | c :: rest =>
    if c = 0x65 ∨ c = 0x45 then
      match rest with
      | [] => none
      | sgn :: rest1 =>
        if sgn = 0x2B ∨ sgn = 0x2D then
          match scanDigits rest1 with
          | ([], _) => none
          | (ds, r) => some (c :: sgn :: ds, r)
        else
          match scanDigits rest with
          | ([], _) => none
          | (ds, r) => some (c :: ds, r)
    else some ([], c :: rest)

/-- The unsigned part of a JSON number token. -/
def scanUnsigned (input : List Nat) : Option (List Nat × List Nat) :=
  match scanInt input with
  | none => none
  | some (i, r1) =>
    match scanFrac r1 with
    | none => none
    | some (f, r2) =>
      match scanExp r2 with
      | none => none
      | some (e, r3) => some (i ++ f ++ e, r3)

/-- Splits off a JSON number token. -/
def scanNumber : List Nat → Option (List Nat × List Nat)
  | [] => none
  | c :: rest =>
    if c = 0x2D then
      match scanUnsigned rest with
      | some (t, r) => some (c :: t, r)
      | none => none
    else scanUnsigned (c :: rest)

/-- The array index written by a property key, if it is one: a canonical
decimal numeral below `2^32 - 1`. -/
def isArrayIndex (k : JSString) : Option Nat :=
  match k with
  | [] => none
  | [c] => if isDigit c then some (c - 0x30) else none
  | c :: rest =>
    if isDigit c ∧ c ≠ 0x30 ∧ rest.all isDigit ∧ rest.length ≤ 9 then
      let n := (c :: rest).foldl (fun acc d => acc * 10 + (d - 0x30)) 0
      if n < 4294967295 then some n else none
    else none

/-- Insertion of a key that the object does not have yet. -/
def insertNew (k : JSString) (v : JSValue ν) :
    List (JSString × JSValue ν) → List (JSString × JSValue ν)
  | [] => [(k, v)]
  | (k1, v1) :: rest =>
    match isArrayIndex k, isArrayIndex k1 with
    | some i, some j =>
      if i < j then (k, v) :: (k1, v1) :: rest else (k1, v1) :: insertNew k v rest
    | some _, none => (k, v) :: (k1, v1) :: rest
    | none, _ => (k1, v1) :: insertNew k v rest

/-- Replacement of the value of an existing key. -/
def replaceValue (k : JSString) (v : JSValue ν) :
    List (JSString × JSValue ν) → List (JSString × JSValue ν)
  | [] => []
  | (k1, v1) :: rest =>
    if k1 = k then (k1, v) :: rest else (k1, v1) :: replaceValue k v rest

/-- CreateDataProperty on an ordinary object, on its list of own properties in
enumeration order: an existing key keeps its place and takes the new value; a
new key that is an array index goes before the first key that is no array index
or is a larger one; any other new key goes last. -/
def defineProperty (fields : List (JSString × JSValue ν)) (k : JSString) (v : JSValue ν) :
    List (JSString × JSValue ν) :=
  if JSValue.hasOwn k fields then replaceValue k v fields else insertNew k v fields

/-- The object built from the members of a JSON object text, in text order. -/
def objectOfMembers (members : List (JSString × JSValue ν)) : JSValue ν :=
  JSValue.object (members.foldl (fun acc kv => defineProperty acc kv.1 kv.2) [])

/-- The input after the given characters, if it starts with them. -/
def dropLiteral : List Nat → List Nat → Option (List Nat)
  | [], input => some input
  | _ :: _, [] => none
  | l :: ls, c :: rest => if c = l then dropLiteral ls rest else none

mutual
/-- Reads one JSON value at the head of the input (no leading white space). -/
def parseValue [JSNumber ν] : Nat → List Nat → Option (JSValue ν × List Nat)
  | 0, _ => none
  | _ + 1, [] => none
  | fuel + 1, c :: rest =>
    if c = 0x22 then
      match parseStringBody rest with
      | some (s, r) => some (JSValue.string s, r)
      | none => none
    else if c = 0x5B then
      match skipWs rest with
      | [] => none
      | d :: r =>
        if d = 0x5D then some (JSValue.array [], r)
        else
          match parseElements fuel (d :: r) with
          | some (items, r1) => some (JSValue.array items, r1)
          | none => none
    else if c = 0x7B then
      match skipWs rest with
      | [] => none
      | d :: r =>
        if d = 0x7D then some (JSValue.object [], r)
        else
          match parseMembers fuel (d :: r) with
          | some (members, r1) => some (objectOfMembers members, r1)
          | none => none
    else if c = 0x6E then
      match dropLiteral [0x75, 0x6C, 0x6C] rest with
      | some r => some (JSValue.null, r)
      | none => none
    else if c = 0x74 then
      match dropLiteral [0x72, 0x75, 0x65] rest with
      | some r => some (JSValue.bool true, r)
      | none => none
    else if c = 0x66 then
      match dropLiteral [0x61, 0x6C, 0x73, 0x65] rest with
      | some r => some (JSValue.bool false, r)
      | none => none
    else
      match scanNumber (c :: rest) with
      | some (t, r) => some (JSValue.number (JSNumber.ofString t), r)
      | none => none
/-- Reads the elements of an array after `[` and white space, up to and
including the closing bracket. -/
def parseElements [JSNumber ν] : Nat → List Nat → Option (List (JSValue ν) × List Nat)
  | 0, _ => none
  | fuel + 1, input =>
    match parseValue fuel input with
    | none => none
    | some (v, r) =>
      match skipWs r with
      | [] => none
      | d :: r1 =>
        if d = 0x2C then
          match parseElements fuel (skipWs r1) with
          | some (vs, r2) => some (v :: vs, r2)
          | none => none
        else if d = 0x5D then some ([v], r1)
        else none
/-- Reads the members of an object after the opening brace and white space, up
to and including the closing brace. -/
def parseMembers [JSNumber ν] : Nat → List Nat →
    Option (List (JSString × JSValue ν) × List Nat)
  | 0, _ => none
  | _ + 1, [] => none
  | fuel + 1, q :: rest =>
    if q = 0x22 then
      match parseStringBody rest with
      | none => none
      | some (k, r) =>
        match skipWs r with
        | [] => none
        | colon :: r1 =>
          if colon = 0x3A then
            match parseValue fuel (skipWs r1) with
            | none => none
            | some (v, r2) =>
              match skipWs r2 with
              | [] => none
              | d :: r3 =>
                if d = 0x2C then
                  match parseMembers fuel (skipWs r3) with
                  | some (ms, r4) => some ((k, v) :: ms, r4)
                  | none => none
                else if d = 0x7D then some ([(k, v)], r3)
                else none
          else none
    else none
end

/-- The call `JSON.parse(text)`: `none` when it throws a `SyntaxError`. -/
def parse [JSNumber ν] (text : JSString) : Option (JSValue ν) :=
  match parseValue (2 * text.length + 2) (skipWs text) with
  | some (v, r) => if skipWs r = [] then some v else none
  | none => none

end JSON

/-! ## Buffer.toString("base64") -/

/-- The character of a 6-bit group in the base64 alphabet. -/
def base64Char (n : Nat) : Nat :=
  if n < 26 then 0x41 + n
  else if n < 52 then 0x61 + (n - 26)
  else if n < 62 then 0x30 + (n - 52)
  else if n = 62 then 0x2B
  else 0x2F

/-- Base64 text of a sequence of bytes, padded with `=`. -/
def base64 : List Nat → JSString
  | [] => []
  | [a] => [base64Char (a / 4), base64Char (a % 4 * 16), 0x3D, 0x3D]
  | [a, b] =>
    [base64Char (a / 4), base64Char (a % 4 * 16 + b / 16), base64Char (b % 16 * 4), 0x3D]
  | a :: b :: c :: rest =>
    [base64Char (a / 4), base64Char (a % 4 * 16 + b / 16),
      base64Char (b % 16 * 4 + c / 64), base64Char (c % 64)] ++ base64 rest

/-! ## The external service and the handlers -/

variable {ν : Type}

/-- What one call of `ai.models.generateContent` does: it throws, or it resolves
to a response whose `text` is a string or `undefined`. -/
inductive UpstreamResult where
  | threw (err : JSError)
  | responded (text : Option JSString)
deriving DecidableEq, Repr

/-- The external generation service: from the argument of `generateContent` to
what the call does. -/
abbrev GenAI (ν : Type) := JSValue ν → UpstreamResult

/-- A line written by `console.error`. -/
inductive LogEntry where
  /-- The line `"Failed to parse JSON from Gemini:", e.message, text`: the text
  that failed to parse (the engine's own SyntaxError message is not modelled). -/
  | parseFailure (text : Option JSString)
  /-- The error logged by a handler's catch block. -/
  | caught (err : JSError)
deriving DecidableEq, Repr

/-- An HTTP response: status code and the value given to `res.json`. -/
structure Response (ν : Type) where
  status : Nat
  body : JSValue ν

/-- What handling one request does: the response, the calls made to the
external service in order, and the lines written to the error log. -/
structure Outcome (ν : Type) where
  response : Response ν
  calls : List (JSValue ν)
  log : List LogEntry

/-- The body text Express sends for a response: `res.json(value)` writes
`JSON.stringify(value)`. -/
def Response.text [JSNumber ν] (r : Response ν) : JSString :=
  (JSON.stringifyCompact r.body).getD []

/-- A request after the body parsers and multer have run. `body` is `req.body`:
the own properties of the object a parser left there, or `none` when `req.body`
is `undefined` because no parser read the request (Express 5; Express 4 sets an
empty object). `file` is, when a file was uploaded, the result of
`fs.readFileSync(req.file.path)`. -/
structure Request (ν : Type) where
  body : Option (List (JSString × JSValue ν))
  file : Option (Except JSError (List Nat))

/-- The value of the input `key` of a request: the property `req.body.key` (for
the property names the handlers read, none of which is defined on
`Object.prototype`), absent when there is no body. The handlers read it only
after `req.body` has been found to be an object. -/
def Request.field (req : Request ν) (key : String) : JSValue ν :=
  match req.body with
  | some fields => JSValue.lookup (utf16 key) fields
  | none => JSValue.undefined

/-- The joined text of the lines of a source template. -/
def segments (lines : List String) : JSString :=
  lines.flatMap utf16

/-- The argument `generateJsonFromGemini` passes to `ai.models.generateContent`. -/
def generateRequest [JSNumber ν] (contents schema : JSValue ν) : JSValue ν :=
  .obj
    [("model", .str "gemini-2.5-flash"),
     ("contents", contents),
     ("config",
      if schema.toBoolean then
        .obj [("responseMimeType", .str "application/json"), ("responseJsonSchema", schema)]
      else .obj [("responseMimeType", .str "application/json")])]

/-- The message of the error thrown when the response text is no JSON. -/
def invalidJsonMessage : JSString := utf16 "Gemini did not return valid JSON."

/-- The text `JSON.parse` works on: ToString of `response.text`. -/
def responseText : Option JSString → JSString
  | some t => t
  | none => utf16 "undefined"

/-- The function `generateJsonFromGemini`: one call of the service, then
`JSON.parse` of the text. Returns the parsed value or the thrown error, the
calls made and the lines logged. -/
def generateJsonFromGemini [JSNumber ν] (ai : GenAI ν) (contents schema : JSValue ν) :
    Except JSError (JSValue ν) × List (JSValue ν) × List LogEntry :=
  match ai (generateRequest contents schema) with
  | .threw err => (.error err, [generateRequest contents schema], [])
  | .responded text =>
    match JSON.parse (responseText text) with
    | some json => (.ok json, [generateRequest contents schema], [])
    | none =>
      (.error ⟨invalidJsonMessage⟩, [generateRequest contents schema],
        [LogEntry.parseFailure text])

/-- The four endpoints. -/
inductive Endpoint where
  | parse
  | plan
  | questions
  | tracker
deriving DecidableEq, Repr

/-- The `error` text of the catch block of each handler. -/
def failureMessage : Endpoint → String
  | .parse => "Failed to parse syllabus"
  | .plan => "Failed to generate plan"
  | .questions => "Failed to generate questions"
  | .tracker => "Failed to analyze assignments"

/-- The `error` text of the 400 response of each handler. -/
def missingMessage : Endpoint → String
  | .parse => "No syllabus text or file provided."
  | .plan => "Missing required fields (syllabus, startDate, examDate, hoursPerWeek)."
  | .questions => "Missing topic."
  | .tracker => "Missing rawText with your assignment list / grade info."

/-- The early return `res.status(400).json(...)` of an object with the single
field `error`. -/
def badRequest (ep : Endpoint) : Outcome ν :=
  ⟨⟨400, .obj [("error", .str (missingMessage ep))]⟩, [], []⟩

/-- The catch block: `console.error(err)` and `res.status(500).json(...)` of an
object with the fields `error` and `details`, the latter `err.message`. -/
def serverError (ep : Endpoint) (err : JSError) (calls : List (JSValue ν))
    (log : List LogEntry) : Outcome ν :=
  ⟨⟨500, .obj [("error", .str (failureMessage ep)), ("details", .string err.message)]⟩,
    calls, log ++ [LogEntry.caught err]⟩

/-- The depth of nesting up to which `res.json` serializes the value it is
given: `JSON.stringify` recurses once per level, and on a value nested deeper
than the engine's stack allows it throws a RangeError. The bound is positive, so
the flat objects the handlers build themselves are always sent. -/
class StackLimit where
  depth : Nat
  depth_pos : 0 < depth

/-- The RangeError of a recursion that exhausts the stack. -/
def stackOverflow : JSError := ⟨utf16 "Maximum call stack size exceeded"⟩

/-- The call `res.json(value)` up to the hand-over to `res.send`: the text
`JSON.stringify(value)`, or the RangeError thrown for a value nested too deep. -/
def resJson [JSNumber ν] [StackLimit] (value : JSValue ν) : Except JSError JSString :=
  if StackLimit.depth < value.depth then .error stackOverflow
  else .ok ((JSON.stringifyCompact value).getD [])

/-- The TypeError thrown by the first read of `req.body` when it is `undefined`
(wording of V8): the property read `req.body.text` of the parse handler, the
destructuring assignment of the other three. -/
def bodyUndefined : Endpoint → JSError
  | .parse => ⟨utf16 "Cannot read properties of undefined (reading \x27text\x27)"⟩
  | .plan =>
    ⟨utf16 "Cannot destructure property \x27syllabus\x27 of \x27req.body\x27 as it is undefined."⟩
  | .questions =>
    ⟨utf16 "Cannot destructure property \x27topic\x27 of \x27req.body\x27 as it is undefined."⟩
  | .tracker =>
    ⟨utf16 "Cannot destructure property \x27rawText\x27 of \x27req.body\x27 as it is undefined."⟩

/-- The tail of every handler: `generateJsonFromGemini`, then `res.json(json)`,
which answers 200 with the parsed value, or the catch block when either throws. -/
def callAndRespond [JSNumber ν] [StackLimit] (ep : Endpoint) (ai : GenAI ν)
    (contents schema : JSValue ν) : Outcome ν :=
  match generateJsonFromGemini ai contents schema with
  | (.ok json, calls, log) =>
    match resJson json with
    | .ok _ => ⟨⟨200, json⟩, calls, log⟩
    | .error err => serverError ep err calls log
  | (.error err, calls, log) => serverError ep err calls log

/-- The constant `syllabusSchema`. -/
def syllabusSchema : JSValue ν :=
  .obj
    [("type", .str "object"),
     ("properties", .obj
      [("course_title", .obj [("type", .str "string"), ("description", .str "Course title")]),
       ("instructor", .obj
        [("type", .str "string"),
         ("description", .str "Instructor name"),
         ("nullable", .bool true)]),
       ("term", .obj
        [("type", .str "string"),
         ("description", .str "Term or semester info"),
         ("nullable", .bool true)]),
       ("assessments", .obj
        [("type", .str "array"),
         ("description", .str "List of graded items"),
         ("items", .obj
          [("type", .str "object"),
           ("properties", .obj
            [("name", .obj [("type", .str "string")]),
             ("type", .obj [("type", .str "string")]),
             ("weight_percent", .obj [("type", .str "number"), ("nullable", .bool true)]),
             ("due_date", .obj
              [("type", .str "string"),
               ("description", .str "Due date in ISO format if possible"),
               ("nullable", .bool true)]),
             ("notes", .obj [("type", .str "string"), ("nullable", .bool true)])]),
           ("required", .array [.str "name"])])]),
       ("weekly_topics", .obj
        [("type", .str "array"),
         ("description", .str "List of week-by-week topics"),
         ("items", .obj
          [("type", .str "object"),
           ("properties", .obj
            [("week_number", .obj [("type", .str "integer")]),
             ("title", .obj [("type", .str "string")]),
             ("topics", .obj [("type", .str "string"), ("nullable", .bool true)]),
             ("readings", .obj [("type", .str "string"), ("nullable", .bool true)])]),
           ("required", .array [.str "week_number", .str "title"])])])]),
     ("required", .array [.str "course_title", .str "assessments", .str "weekly_topics"])]

/-- The constant `planSchema`. -/
def planSchema : JSValue ν :=
  .obj
    [("type", .str "object"),
     ("properties", .obj
      [("weeks", .obj
        [("type", .str "array"),
         ("items", .obj
          [("type", .str "object"),
           ("properties", .obj
            [("week_number", .obj [("type", .str "integer")]),
             ("date_range", .obj [("type", .str "string")]),
             ("topics_to_cover", .obj [("type", .str "string")]),
             ("tasks", .obj [("type", .str "array"), ("items", .obj [("type", .str "string")])]),
             ("estimated_time_hours", .obj [("type", .str "number")]),
             ("focus", .obj [("type", .str "string")])]),
           ("required", .array
            [.str "week_number", .str "topics_to_cover", .str "tasks",
             .str "estimated_time_hours"])])])]),
     ("required", .array [.str "weeks"])]

/-- The constant `qaSchema`. -/
def qaSchema : JSValue ν :=
  .obj
    [("type", .str "object"),
     ("properties", .obj
      [("topic", .obj [("type", .str "string")]),
       ("difficulty", .obj [("type", .str "string")]),
       ("questions", .obj
        [("type", .str "array"),
         ("items", .obj
          [("type", .str "object"),
           ("properties", .obj
            [("question", .obj [("type", .str "string")]),
             ("answer", .obj [("type", .str "string"), ("nullable", .bool true)])]),
           ("required", .array [.str "question"])])]),
       ("flashcards", .obj
        [("type", .str "array"),
         ("items", .obj
          [("type", .str "object"),
           ("properties", .obj
            [("front", .obj [("type", .str "string")]),
             ("back", .obj [("type", .str "string")])]),
           ("required", .array [.str "front", .str "back"])])])]),
     ("required", .array [.str "topic", .str "questions", .str "flashcards"])]

/-- The constant `trackerSchema`. -/
def trackerSchema : JSValue ν :=
  .obj
    [("type", .str "object"),
     ("properties", .obj
      [("summary", .obj [("type", .str "string")]),
       ("assignments", .obj
        [("type", .str "array"),
         ("items", .obj
          [("type", .str "object"),
           ("properties", .obj
            [("course", .obj [("type", .str "string"), ("nullable", .bool true)]),
             ("name", .obj [("type", .str "string")]),
             ("status", .obj
              [("type", .str "string"),
               ("description", .str "missing | submitted | upcoming | late")]),
             ("weight_percent", .obj [("type", .str "number"), ("nullable", .bool true)]),
             ("due_date", .obj [("type", .str "string"), ("nullable", .bool true)]),
             ("notes", .obj [("type", .str "string"), ("nullable", .bool true)]),
             ("priority_score", .obj
              [("type", .str "number"),
               ("description", .str "Higher = more urgent/important"),
               ("nullable", .bool true)]),
             ("recommended_action", .obj [("type", .str "string"), ("nullable", .bool true)])]),
           ("required", .array [.str "name", .str "status"])])]),
       ("today_focus", .obj [("type", .str "array"), ("items", .obj [("type", .str "string")])])]),
     ("required", .array [.str "summary", .str "assignments"])]

/-! ### POST /api/syllabus/parse -/

/-- The template `prompt` of the parse handler. -/
def parsePrompt : JSString :=
  segments
    ["\n",
     "You are a helpful university course assistant.\n",
     "\n",
     "From this course syllabus, extract the following as structured data:\n",
     "\n",
     "- course_title: full course title\n",
     "- instructor: instructor name if present\n",
     "- term: semester or term (e.g. \"Fall 2025\") if present\n",
     "- assessments: each graded item\n",
     "    - name (e.g. \"Midterm 1\", \"Assignment 2\")\n",
     "    - type (e.g. exam, quiz, essay, lab, project)\n",
     "    - weight_percent (number, if you can infer it)\n",
     "    - due_date (ISO 8601 date string if an exact date is present, otherwise null)\n",
     "    - notes (for extra details like \"2% per day late up to 5 days\")\n",
     "- weekly_topics: week-by-week outline\n",
     "    - week_number (integer, starting from 1)\n",
     "    - title (short name for the week\x27s topic)\n",
     "    - topics (short description)\n",
     "    - readings (chapter/page list if available)\n",
     "\n",
     "IMPORTANT:\n",
     "- Only use information that is clearly in the syllabus.\n",
     "- If something is missing, set it to null or an empty string.\n"]

/-- Truthiness of `base64Pdf`, which is `null` or a string. -/
def pdfPresent : Option JSString → Bool
  | some data => !data.isEmpty
  | none => false

/-- The value of `base64Pdf` after the `if (req.file)` block: `null` without an
upload, the base64 text of the file otherwise; `readFileSync` may throw. -/
def readUpload : Option (Except JSError (List Nat)) → Except JSError (Option JSString)
  | none => .ok none
  | some (.ok bytes) => .ok (some (base64 bytes))
  | some (.error err) => .error err

/-- The array `contents` of the parse handler. -/
def parseContents [JSNumber ν] (textInput : JSValue ν) (base64Pdf : Option JSString) :
    JSValue ν :=
  if pdfPresent base64Pdf then
    .array
      [.obj [("text", .string parsePrompt)],
       .obj [("inlineData",
          .obj [("mimeType", .str "application/pdf"), ("data", .string (base64Pdf.getD []))])]]
  else if textInput.toBoolean then
    .array [.obj [("text", .string parsePrompt)], .obj [("text", textInput)]]
  else .array [.obj [("text", .string parsePrompt)]]

/-- The handler of `POST /api/syllabus/parse`. -/
def parseHandler [JSNumber ν] [StackLimit] (ai : GenAI ν) (req : Request ν) : Outcome ν :=
  match req.body with
  | none => serverError .parse (bodyUndefined .parse) [] []
  | some _ =>
    let textInput := (req.field "text").or (.str "")
    match readUpload req.file with
    | .error err => serverError .parse err [] []
    | .ok base64Pdf =>
      if !textInput.toBoolean && !pdfPresent base64Pdf then badRequest .parse
      else callAndRespond .parse ai (parseContents textInput base64Pdf) syllabusSchema

/-! ### POST /api/syllabus/plan -/

/-- The template `prompt` of the plan handler. -/
def planPrompt : JSString :=
  segments
    ["\n",
     "You are a personal study coach for a university student.\n",
     "\n",
     "You are given:\n",
     "- course syllabus (JSON)\n",
     "- semester start date\n",
     "- final exam date\n",
     "- available study hours per week\n",
     "- difficulty mode\n",
     "\n",
     "Difficulties:\n",
     "- \"beginner\": more review, smaller chunks, simpler tasks.\n",
     "- \"normal\": balanced plan.\n",
     "- \"hardcore\": more challenging tasks, extra practice, and exam-style questions.\n",
     "\n",
     "Rules:\n",
     "- Use the weekly_topics and assessments from the syllabus.\n",
     "- Spread the work evenly from startDate to examDate.\n",
     "- Keep each week within the student\x27s hours_per_week budget.\n",
     "- Make sure tasks align with upcoming assignments and exams.\n",
     "\n",
     "Return JSON with:\n",
     "\x7b\n",
     "  \"weeks\": [\n",
     "    \x7b\n",
     "      \"week_number\": number,\n",
     "      \"date_range\": \"YYYY-MM-DD \u2192 YYYY-MM-DD\",\n",
     "      \"topics_to_cover\": \"short description\",\n",
     "      \"tasks\": [\"Read Ch 1\", \"Do 5 practice problems on recursion\", ...],\n",
     "      \"estimated_time_hours\": number,\n",
     "      \"focus\": \"e.g. Midterm prep / Final review / Project work\"\n",
     "    \x7d,\n",
     "    ...\n",
     "  ]\n",
     "\x7d\n"]

/-- The text `prefix + JSON.stringify(value, null, 2)`. -/
def withJson [JSNumber ν] (label : String) (value : JSValue ν) : JSString :=
  utf16 label ++ responseText (JSON.stringify value)

/-- The array `contents` of the plan handler; `Number(hoursPerWeek)` may throw. -/
def planContents [JSNumber ν] (syllabus startDate examDate hoursPerWeek difficulty : JSValue ν) :
    Except JSError (JSValue ν) :=
  match hoursPerWeek.toNumber with
  | .error err => .error err
  | .ok hours =>
    .ok (.array
      [.obj [("text", .string planPrompt)],
       .obj [("text", .string (withJson "Course syllabus JSON:\n" syllabus))],
       .obj [("text", .string (withJson "Student profile:\n"
          (.obj
            [("start_date", startDate),
             ("exam_date", examDate),
             ("hours_per_week", .number hours),
             ("difficulty", difficulty.or (.str "normal"))])))]])

/-- The handler of `POST /api/syllabus/plan`. -/
def planHandler [JSNumber ν] [StackLimit] (ai : GenAI ν) (req : Request ν) : Outcome ν :=
  match req.body with
  | none => serverError .plan (bodyUndefined .plan) [] []
  | some _ =>
    let syllabus := req.field "syllabus"
    let startDate := req.field "startDate"
    let examDate := req.field "examDate"
    let hoursPerWeek := req.field "hoursPerWeek"
    let difficulty := req.field "difficulty"
    if !syllabus.toBoolean || !startDate.toBoolean || !examDate.toBoolean
        || !hoursPerWeek.toBoolean then
      badRequest .plan
    else
      match planContents syllabus startDate examDate hoursPerWeek difficulty with
      | .error err => serverError .plan err [] []
      | .ok contents => callAndRespond .plan ai contents planSchema

/-! ### POST /api/questions -/

/-- The template `prompt` of the questions handler; each interpolation is a
ToString conversion and may throw. -/
def questionsPrompt [JSNumber ν] (topic difficulty : JSValue ν) : Except JSError JSString :=
  match topic.toJSString with
  | .error err => .error err
  | .ok topicText =>
    match (difficulty.or (.str "normal")).toJSString with
    | .error err => .error err
    | .ok difficultyText =>
      .ok (segments
          ["\n",
           "Generate practice material for the topic \""]
        ++ topicText ++ segments
          ["\" for a university-level course.\n",
           "\n",
           "Difficulty: "]
        ++ difficultyText ++ segments
          [".\n",
           "\n",
           "Output:\n",
           "- 5 practice questions (with short answers if appropriate).\n",
           "- 5 flashcards as (front, back) pairs.\n",
           "\n",
           "Return JSON with:\n",
           "\x7b\n",
           "  \"topic\": string,\n",
           "  \"difficulty\": string,\n",
           "  \"questions\": [\n",
           "    \x7b \"question\": \"...\", \"answer\": \"...\" \x7d,\n",
           "    ...\n",
           "  ],\n",
           "  \"flashcards\": [\n",
           "    \x7b \"front\": \"...\", \"back\": \"...\" \x7d,\n",
           "    ...\n",
           "  ]\n",
           "\x7d\n"])

/-- The handler of `POST /api/questions`. -/
def questionsHandler [JSNumber ν] [StackLimit] (ai : GenAI ν) (req : Request ν) :
    Outcome ν :=
  match req.body with
  | none => serverError .questions (bodyUndefined .questions) [] []
  | some _ =>
    let topic := req.field "topic"
    let difficulty := req.field "difficulty"
    if !topic.toBoolean then badRequest .questions
    else
      match questionsPrompt topic difficulty with
      | .error err => serverError .questions err [] []
      | .ok prompt =>
        callAndRespond .questions ai (.array [.obj [("text", .string prompt)]]) qaSchema

/-! ### POST /api/tracker/analyze -/

/-- The template `prompt` of the tracker handler. -/
def trackerPrompt [JSNumber ν] (hoursToday : JSValue ν) : Except JSError JSString :=
  match (hoursToday.or (.number (JSNumber.ofNat 3))).toJSString with
  | .error err => .error err
  | .ok hoursText =>
    .ok (segments
        ["\n",
         "You are a \"Missing Assignment Tracker\" assistant.\n",
         "\n",
         "User provides messy text copied from:\n",
         "- LMS gradebook\n",
         "- syllabus\n",
         "- to-do list\n",
         "\n",
         "Your job:\n",
         "1. Infer the list of assignments and their statuses.\n",
         "2. Mark each as:\n",
         "   - \"submitted\" (clearly done)\n",
         "   - \"missing\" (past due, no submission or 0)\n",
         "   - \"upcoming\" (due in future)\n",
         "   - \"late\" (past due but maybe still can be submitted).\n",
         "3. Estimate weight_percent if there is a percentage.\n",
         "4. Prioritize by: (weight * lateness / days remaining), or similar.\n",
         "5. Create human-style recommended_action for each assignment.\n",
         "6. Suggest what to focus on TODAY given ~"]
      ++ hoursText ++ segments
        [" hours.\n",
         "\n",
         "Return JSON like:\n",
         "\x7b\n",
         "  \"summary\": \"High level summary...\",\n",
         "  \"assignments\": [\n",
         "    \x7b\n",
         "      \"course\": \"EECS 2101\",\n",
         "      \"name\": \"Assignment 2\",\n",
         "      \"status\": \"missing\",\n",
         "      \"weight_percent\": 15,\n",
         "      \"due_date\": \"2025-10-12\",\n",
         "      \"notes\": \"Worth 15%, 2% per day late\",\n",
         "      \"priority_score\": 0.93,\n",
         "      \"recommended_action\": \"Start this TODAY, even if late \u2013 still worth many marks.\"\n",
         "    \x7d,\n",
         "    ...\n",
         "  ],\n",
         "  \"today_focus\": [\n",
         "    \"Finish Assignment 2 for EECS 2101\",\n",
         "    \"Email prof about late Lab 1\"\n",
         "  ]\n",
         "\x7d\n",
         "IMPORTANT:\n",
         "- Use today\x27s date from the context in the text if given. If not, reason approximately and still classify.\n",
         "- If you are unsure, add a note in \"notes\".\n"])

/-- The array `contents` of the tracker handler: the prompt, then the label
concatenated with `rawText`. -/
def trackerContents [JSNumber ν] (rawText hoursToday : JSValue ν) :
    Except JSError (JSValue ν) :=
  match trackerPrompt hoursToday with
  | .error err => .error err
  | .ok prompt =>
    match rawText.toJSString with
    | .error err => .error err
    | .ok raw =>
      .ok (.array
        [.obj [("text", .string prompt)],
         .obj [("text",
            .string (utf16 "Raw text from student (LMS / syllabus / notes):\n\n" ++ raw))]])

/-- The handler of `POST /api/tracker/analyze`. -/
def trackerHandler [JSNumber ν] [StackLimit] (ai : GenAI ν) (req : Request ν) : Outcome ν :=
  match req.body with
  | none => serverError .tracker (bodyUndefined .tracker) [] []
  | some _ =>
    let rawText := req.field "rawText"
    let hoursToday := req.field "hoursToday"
    if !rawText.toBoolean then badRequest .tracker
    else
      match trackerContents rawText hoursToday with
      | .error err => serverError .tracker err [] []
      | .ok contents => callAndRespond .tracker ai contents trackerSchema

/-- The handler of an endpoint. -/
def handle [JSNumber ν] [StackLimit] (ep : Endpoint) (ai : GenAI ν) (req : Request ν) : Outcome ν :=
  match ep with
  | .parse => parseHandler ai req
  | .plan => planHandler ai req
  | .questions => questionsHandler ai req
  | .tracker => trackerHandler ai req

/-! ## The browser client (`public/script.js`)

Each of the three event handlers is modelled up to its first `await`: the code
before it runs synchronously and decides whether a request is sent at all. Its
effects are listed in program order. The values of the form controls are
strings; the file input holds a file or nothing. -/

/-- The code units removed by `String.prototype.trim`: white space and line
terminators. -/
def isTrimSpace (c : Nat) : Bool :=
  c = 0x09 || c = 0x0A || c = 0x0B || c = 0x0C || c = 0x0D || c = 0x20 || c = 0xA0
    || c = 0x1680 || (decide (0x2000 ≤ c) && decide (c ≤ 0x200A)) || c = 0x2028
    || c = 0x2029 || c = 0x202F || c = 0x205F || c = 0x3000 || c = 0xFEFF

/-- The method `String.prototype.trim`. -/
def trim (s : JSString) : JSString :=
  ((s.dropWhile isTrimSpace).reverse.dropWhile isTrimSpace).reverse

/-- A file chosen in the file input. -/
structure ChosenFile where
  name : JSString
  bytes : List Nat
deriving DecidableEq, Repr

/-- An entry appended to a `FormData`. -/
inductive FormEntry where
  | file (name : JSString) (value : ChosenFile)
  | text (name : JSString) (value : JSString)
deriving DecidableEq, Repr

/-- The body of a `fetch` call: a `FormData` or a text. -/
inductive FetchBody where
  | formData (entries : List FormEntry)
  | text (value : JSString)
deriving DecidableEq, Repr

/-- The arguments of a `fetch` call. -/
structure FetchCall where
  url : JSString
  method : JSString
  headers : List (JSString × JSString)
  body : FetchBody
deriving DecidableEq, Repr

/-- The three status lines of the page. -/
inductive StatusLine where
  | plannerStatus
  | questionsStatus
  | trackerStatus
deriving DecidableEq, Repr

/-- What a handler does before its first `await`. -/
inductive ClientEffect where
  /-- The call `e.preventDefault()`. -/
  | preventDefault
  /-- An assignment to the `textContent` of a status line. -/
  | setStatus (line : StatusLine) (text : JSString)
  /-- A call of `fetch`. -/
  | fetch (call : FetchCall)
deriving DecidableEq, Repr

/-- The call `JSON.stringify(object)` without indentation, for an object literal
whose property values are strings. -/
def stringifyStrings (fields : List (String × JSString)) : JSString :=
  [0x7B]
    ++ JSValue.joinWith [0x2C]
        (fields.map fun kv => JSON.quote (utf16 kv.1) ++ [0x3A] ++ JSON.quote kv.2)
    ++ [0x7D]

/-- The header object of the JSON requests. -/
def jsonHeaders : List (JSString × JSString) :=
  [(utf16 "Content-Type", utf16 "application/json")]

/-- The controls read by the submit handler of `syllabusForm`. -/
structure PlannerForm where
  /-- The entry `fileInput.files[0]`. -/
  file : Option ChosenFile
  syllabusText : JSString
  startDate : JSString
  examDate : JSString
  hoursPerWeek : JSString
  difficulty : JSString
deriving DecidableEq, Repr

/-- The `FormData` built by the submit handler of `syllabusForm`. -/
def plannerFormData (form : PlannerForm) : List FormEntry :=
  (match form.file with
    | some f => [FormEntry.file (utf16 "syllabus") f]
    | none => [])
  ++ (if (trim form.syllabusText).isEmpty then []
      else [FormEntry.text (utf16 "text") (trim form.syllabusText)])

/-- The submit handler of `syllabusForm`, up to the `await fetch` of
`/api/syllabus/parse`. -/
def plannerSubmit (form : PlannerForm) : List ClientEffect :=
  [ClientEffect.preventDefault,
   ClientEffect.setStatus .plannerStatus
     (utf16 "Calling Gemini\u2026 extracting syllabus and building plan\u2026")]
  ++
  (if form.file.isNone && (trim form.syllabusText).isEmpty then
    [ClientEffect.setStatus .plannerStatus
      (utf16 "Please upload a PDF or paste syllabus text.")]
  else if form.startDate.isEmpty || form.examDate.isEmpty then
    [ClientEffect.setStatus .plannerStatus (utf16 "Please select start & exam dates.")]
  else
    [ClientEffect.fetch
      ⟨utf16 "/api/syllabus/parse", utf16 "POST", [],
        FetchBody.formData (plannerFormData form)⟩])

/-- The controls read by the click handler of `generateQuestionsBtn`. -/
structure QuestionsForm where
  topicInput : JSString
  topicDifficulty : JSString
deriving DecidableEq, Repr

/-- The click handler of `generateQuestionsBtn`, up to its `await fetch`. -/
def questionsClick (form : QuestionsForm) : List ClientEffect :=
  if (trim form.topicInput).isEmpty then
    [ClientEffect.setStatus .questionsStatus (utf16 "Please enter a topic.")]
  else
    [ClientEffect.setStatus .questionsStatus
      (utf16 "Generating questions and flashcards with Gemini\u2026"),
     ClientEffect.fetch
      ⟨utf16 "/api/questions", utf16 "POST", jsonHeaders,
        FetchBody.text
          (stringifyStrings
            [("topic", trim form.topicInput), ("difficulty", form.topicDifficulty)])⟩]

/-- The controls read by the submit handler of `trackerForm`. -/
structure TrackerForm where
  trackerRawText : JSString
  hoursToday : JSString
deriving DecidableEq, Repr

/-- The submit handler of `trackerForm`, up to its `await fetch`. -/
def trackerSubmit (form : TrackerForm) : List ClientEffect :=
  [ClientEffect.preventDefault]
  ++
  (if (trim form.trackerRawText).isEmpty then
    [ClientEffect.setStatus .trackerStatus (utf16 "Please paste some LMS / grade text.")]
  else
    [ClientEffect.setStatus .trackerStatus (utf16 "Analyzing with Gemini\u2026"),
     ClientEffect.fetch
      ⟨utf16 "/api/tracker/analyze", utf16 "POST", jsonHeaders,
        FetchBody.text
          (stringifyStrings
            [("rawText", trim form.trackerRawText), ("hoursToday", form.hoursToday)])⟩])

/-! ## A small Number implementation for running the handlers

The general theorems below hold for every implementation of `JSNumber`. To run
the handlers on concrete requests an implementation is needed, and for the
requests used below the integers together with `NaN` are enough.

`IntNumber` agrees with the ECMAScript Number type on the integers of magnitude
at most `2 ^ 53` and on the strings that are their plain decimal numerals, or
empty: there Number::toString is the decimal numeral and StringToNumber reads it
back. Outside that range it is not the ECMAScript Number type. It has no
fractions and no infinities, so `ofText` answers `NaN` for strings such as
`0.93`, `6.5` or `1e2`, which StringToNumber reads as numbers, and `toText`
writes a large integer in full, where Number::toString rounds to the nearest
double and writes an exponent from `1e21` on. The concrete requests and texts
below hold only small integers. -/

/-- An integer-valued number or `NaN`. -/
inductive IntNumber where
  | nan
  | int (i : Int)
deriving DecidableEq, Repr

namespace IntNumber

/-- The value of a string of decimal digits; `none` if the string is empty or
holds another character. -/
def readDigits : List Nat → Option Nat
  | [] => none
  | ds => if ds.all JSON.isDigit then some (ds.foldl (fun acc d => acc * 10 + (d - 0x30)) 0) else none

/-- Decimal numeral of a natural number. -/
def natText (n : Nat) : JSString :=
  (Nat.toDigits 10 n).map Char.toNat

/-- Number::toString on `NaN` and on the integers of magnitude at most `2 ^ 53`:
the decimal numeral. -/
def toText : IntNumber → JSString
  | nan => utf16 "NaN"
  | int (Int.ofNat n) => natText n
  | int (Int.negSucc n) => 0x2D :: natText (n + 1)

/-- StringToNumber on the empty string, which is `0`, and on plain integer
numerals with an optional minus sign. Every other string is answered with `NaN`:
that is ECMAScript's answer for a string that is no numeric literal, and it is
not for the numeric literals this type cannot hold (fractions, exponents, white
space around the digits, a plus sign, `Infinity`, hexadecimal). -/
def ofText : JSString → IntNumber
  | [] => int 0
  | c :: rest =>
    if c = 0x2D then
      match readDigits rest with
      | some n => int (-(n : Int))
      | none => nan
    else
      match readDigits (c :: rest) with
      | some n => int n
      | none => nan

instance : JSNumber IntNumber where
  ofNat n := int n
  nan := nan
  toBoolean
    | nan => false
    | int i => decide (i ≠ 0)
  isFinite
    | nan => false
    | int _ => true
  toString := toText
  ofString := ofText

end IntNumber

/-- The recursion bound under which the handlers are run on concrete requests: a
small one, so that a value nested too deep is at hand (the bound of an actual
engine depends on its stack size and is in the thousands). The general theorems
hold for every bound. -/
instance : StackLimit := ⟨100, by decide⟩

end StudyPlanner

/-! # Vocabulary of the specification

Predicates in which the claims are stated, and the concrete requests and gateway
stubs on which the handlers are run. -/

namespace StudyPlanner

namespace JSON

variable {ν : Type}

/-- A code unit that cannot continue a number token. -/
def stopsNumber (c : Nat) : Bool :=
  !isDigit c && c != 0x2E && c != 0x65 && c != 0x45 && c != 0x2B && c != 0x2D

/-- Appends text to the unread rest of a scan. -/
def extendRest (tail : List Nat) : Option (List Nat × List Nat) → Option (List Nat × List Nat)
  | some (t, r) => some (t, r ++ tail)
  | none => none

/-- The key `k1` may come before the key `k2` in the enumeration of the own
properties of an object: the keys differ, and if `k2` is an array index then so
is `k1`, with a smaller index. -/
def keyBefore (k1 k2 : JSString) : Prop :=
  k1 ≠ k2 ∧ ∀ b, isArrayIndex k2 = some b → ∃ a, isArrayIndex k1 = some a ∧ a < b

instance (k1 k2 : JSString) : Decidable (keyBefore k1 k2) := by
  unfold keyBefore
  cases h2 : isArrayIndex k2 with
  | none => exact decidable_of_iff (k1 ≠ k2) (by simp)
  | some b =>
    cases h1 : isArrayIndex k1 with
    | none => exact isFalse (by simp)
    | some a => exact decidable_of_iff (k1 ≠ k2 ∧ a < b) (by simp)

/-- The keys are those of an ordinary object in enumeration order: distinct,
array indices first and ascending. -/
def enumerationOrder (keys : List JSString) : Prop :=
  keys.Pairwise keyBefore

instance (keys : List JSString) : Decidable (enumerationOrder keys) := by
  unfold enumerationOrder; infer_instance

/-- The number is finite, its decimal text is a JSON number token, and the
token reads back as the same number. -/
def numberSurvives [JSNumber ν] (n : ν) : Prop :=
  JSNumber.isFinite n = true
    ∧ scanNumber (JSNumber.toString n) = some (JSNumber.toString n, [])
    ∧ JSNumber.ofString (JSNumber.toString n) = n

mutual
/-- A value that a JSON text can transport: no `undefined` inside, every
number one that survives, every object with its keys in enumeration order. -/
def transportable [JSNumber ν] : JSValue ν → Prop
  | .undefined => False
  | .null => True
  | .bool _ => True
  | .number n => numberSurvives n
  | .string _ => True
  | .array items => transportableItems items
  | .object fields => enumerationOrder (fields.map Prod.fst) ∧ transportableFields fields
/-- Every element is transportable. -/
def transportableItems [JSNumber ν] : List (JSValue ν) → Prop
  | [] => True
  | v :: rest => transportable v ∧ transportableItems rest
/-- Every property value is transportable. -/
def transportableFields [JSNumber ν] : List (JSString × JSValue ν) → Prop
  | [] => True
  | (_, v) :: rest => transportable v ∧ transportableFields rest
end

/-- The text after a value does not continue a number token. -/
def restStops : List Nat → Bool
  | [] => true
  | c :: _ => stopsNumber c

/-- An indentation: white space only. -/
def isIndent (ind : List Nat) : Prop :=
  ∀ c ∈ ind, isWs c = true

/-- The first code unit of a text: fails the predicate on an empty text. -/
def headIs (p : Nat → Bool) : List Nat → Bool
  | [] => false
  | c :: _ => p c

/-- A code unit that can start a value text. -/
def startsValue (c : Nat) : Bool :=
  !isWs c && c != 0x5D && c != 0x7D && c != 0x2C

end JSON

variable {ν : Type}

/-- A required input that is missing or empty: absent (`undefined`), `null` or
the empty string. -/
def isMissing (v : JSValue ν) : Prop :=
  v = .undefined ∨ v = .null ∨ v = .string []

/-- Some required input of the endpoint is missing or empty. -/
def missingRequired : Endpoint → Request ν → Prop
  | .parse, req => isMissing (req.field "text") ∧ req.file = none
  | .plan, req =>
    isMissing (req.field "syllabus") ∨ isMissing (req.field "startDate")
      ∨ isMissing (req.field "examDate") ∨ isMissing (req.field "hoursPerWeek")
  | .questions, req => isMissing (req.field "topic")
  | .tracker, req => isMissing (req.field "rawText")

/-- The request gets past the 400 guard of the endpoint: its inputs could be
read (`req.body` is an object and, for the parse endpoint, the uploaded file
could be read, both of which happen before the guard) and the guard does not
return. -/
def passesValidation [JSNumber ν] : Endpoint → Request ν → Bool
  | .parse, req =>
    req.body.isSome &&
      match readUpload req.file with
      | .ok pdf => ((req.field "text").or (.str "")).toBoolean || pdfPresent pdf
      | .error _ => false
  | .plan, req =>
    req.body.isSome && (req.field "syllabus").toBoolean && (req.field "startDate").toBoolean
      && (req.field "examDate").toBoolean && (req.field "hoursPerWeek").toBoolean
  | .questions, req => req.body.isSome && (req.field "topic").toBoolean
  | .tracker, req => req.body.isSome && (req.field "rawText").toBoolean

/-- The prompt segments of the endpoint are built without a conversion throwing. -/
def promptBuilds [JSNumber ν] : Endpoint → Request ν → Bool
  | .parse, _ => true
  | .plan, req =>
    (planContents (req.field "syllabus") (req.field "startDate") (req.field "examDate")
      (req.field "hoursPerWeek") (req.field "difficulty")).isOk
  | .questions, req => (questionsPrompt (req.field "topic") (req.field "difficulty")).isOk
  | .tracker, req => (trackerContents (req.field "rawText") (req.field "hoursToday")).isOk

/-- The call of the external service failed: it threw, or its text is no JSON. -/
def gatewayFailed [JSNumber ν] : UpstreamResult → Prop
  | .threw _ => True
  | .responded text => JSON.parse (ν := ν) (responseText text) = none

/-- The message of the error raised by a failed call: the upstream error's own
message, or the fixed message of the decoder. -/
def failureDetails : UpstreamResult → JSString
  | .threw err => err.message
  | .responded _ => invalidJsonMessage

/-- A gateway stub that answers every call with the same text. -/
def stubText (text : String) : GenAI IntNumber :=
  fun _ => .responded (some (utf16 text))

/-- The request body of the scenario `POST /api/questions` with topic
"recursion". -/
def recursionRequest : Request IntNumber :=
  ⟨some (JSValue.props [("topic", .str "recursion")]), none⟩

/-- The PracticeSet text of the scenario. -/
def practiceSetText : String :=
  "\x7b\"topic\":\"recursion\",\"difficulty\":\"normal\",\"questions\":[\x7b\"question\":\"What is recursion?\",\"answer\":\"A function calling itself\"\x7d],\"flashcards\":[\x7b\"front\":\"recursion\",\"back\":\"self-referential function call\"\x7d]\x7d"

/-- The PracticeSet object of the scenario. -/
def practiceSet : JSValue IntNumber :=
  .obj
    [("topic", .str "recursion"),
     ("difficulty", .str "normal"),
     ("questions", .array
        [.obj [("question", .str "What is recursion?"),
               ("answer", .str "A function calling itself")]]),
     ("flashcards", .array
        [.obj [("front", .str "recursion"), ("back", .str "self-referential function call")]])]

/-- The empty array nested in `n` further arrays. -/
def nested : Nat → JSValue IntNumber
  | 0 => .array []
  | n + 1 => .array [nested n]

/-- The JSON text of `nested n`: `n + 1` opening brackets, then as many closing
ones. -/
def nestedText (n : Nat) : JSString :=
  List.replicate (n + 1) 0x5B ++ List.replicate (n + 1) 0x5D

/-- A gateway stub that answers every call with the text of `nested 100`, valid
JSON for a value nested deeper than the bound of the concrete runs. -/
def stubNested : GenAI IntNumber :=
  fun _ => .responded (some (nestedText 100))

/-- A gateway stub whose every call throws an error with the given message. -/
def stubThrow (message : String) : GenAI IntNumber :=
  fun _ => .threw ⟨utf16 message⟩

/-- The call a handler made, if it made one. -/
def firstCall (out : Outcome ν) : JSValue ν :=
  out.calls.headD .undefined

/-- The syllabus record of the round-trip scenario: a nested assessment, a name
with quotes in it, a number, `null` and an empty list. -/
def planSyllabus : List (JSString × JSValue IntNumber) :=
  [(utf16 "course_title", .str "Algorithms"),
   (utf16 "instructor", .null),
   (utf16 "assessments", .array
      [.object [(utf16 "name", .str "Midterm \"1\""),
                (utf16 "weight_percent", .number (.int 30))]]),
   (utf16 "weekly_topics", .array [])]

/-- The plan request of the round-trip scenario: the syllabus record, dates and
a weekly budget of six hours. -/
def planRequest : Request IntNumber :=
  ⟨some
    [(utf16 "syllabus", .object planSyllabus),
     (utf16 "startDate", .str "2025-09-01"),
     (utf16 "examDate", .str "2025-12-10"),
     (utf16 "hoursPerWeek", .str "6")], none⟩

/-- A plan request whose `hoursPerWeek` is the number `0`. -/
def zeroHoursRequest : Request IntNumber :=
  ⟨some (JSValue.props [("syllabus", .obj [("course_title", .str "Algorithms")]),
     ("startDate", .str "2025-09-01"),
     ("examDate", .str "2025-12-10"),
     ("hoursPerWeek", .number (.int 0))]), none⟩

/-- A request body with the required inputs of the plan, questions and tracker
endpoints, and neither `difficulty` nor `hoursToday`. -/
def defaultsFields : List (JSString × JSValue IntNumber) :=
  [(utf16 "syllabus", .obj [("course_title", .str "Algorithms")]),
   (utf16 "startDate", .str "2025-09-01"),
   (utf16 "examDate", .str "2025-12-10"),
   (utf16 "hoursPerWeek", .number (.int 6)),
   (utf16 "topic", .str "recursion"),
   (utf16 "rawText", .str "Lab 1 due Friday")]

/-- A primitive value: anything but an array or an object. -/
def isPrimitive : JSValue ν → Bool
  | .array _ => false
  | .object _ => false
  | _ => true

/-- The effect is a call of `fetch`. -/
def ClientEffect.isFetch : ClientEffect → Bool
  | .fetch _ => true
  | _ => false

/-- The handler performs no `fetch`. -/
def noFetch (effects : List ClientEffect) : Bool :=
  effects.all fun e => !e.isFetch

/-- A planner form with pasted syllabus text and both dates, and an empty
`hoursPerWeek`. -/
def emptyHoursForm : PlannerForm :=
  { file := none
    syllabusText := utf16 "CS 101, week 1: recursion"
    startDate := utf16 "2025-09-01"
    examDate := utf16 "2025-12-10"
    hoursPerWeek := []
    difficulty := utf16 "normal" }

/-- The body of a parse request with pasted text. -/
def textAndFileBody : List (JSString × JSValue IntNumber) :=
  JSValue.props [("text", .str "Week 1: recursion")]

end StudyPlanner

/-! # Theorems -/

namespace StudyPlanner

namespace JSON

variable {ν : Type}

/-! ## JSON.parse reads back what JSON.stringify wrote -/

theorem hexValue_hexDigit (d : Nat) (h : d < 16) : hexValue (hexDigit d) = some d := by
  interval_cases d <;> rfl

theorem hex4_unicodeEscape (u : Nat) (h : u < 0x10000) :
    hex4 (hexDigit (u / 0x1000 % 16)) (hexDigit (u / 0x100 % 16)) (hexDigit (u / 0x10 % 16))
      (hexDigit (u % 16)) = some u := by
  unfold hex4
  rw [hexValue_hexDigit _ (Nat.mod_lt _ (by norm_num)),
    hexValue_hexDigit _ (Nat.mod_lt _ (by norm_num)),
    hexValue_hexDigit _ (Nat.mod_lt _ (by norm_num)),
    hexValue_hexDigit _ (Nat.mod_lt _ (by norm_num))]
  simp only [Option.some.injEq]
  omega

theorem parseStringBody_cons (c : Nat) (rest : List Nat) :
    parseStringBody (c :: rest) =
    if c = 0x22 then some ([], rest)
    else if c = 0x5C then
      match rest with
      | [] => none
      | e :: rest1 =>
        if e = 0x75 then
          match rest1 with
          | h1 :: h2 :: h3 :: h4 :: rest2 =>
            match hex4 h1 h2 h3 h4 with
            | some u =>
              match parseStringBody rest2 with
              | some (s, r) => some (u :: s, r)
              | none => none
            | none => none
          | _ => none
        else
          match simpleEscape e with
          | some u =>
            match parseStringBody rest1 with
            | some (s, r) => some (u :: s, r)
            | none => none
          | none => none
    else if c < 0x20 then none
    else
      match parseStringBody rest with
      | some (s, r) => some (c :: s, r)
      | none => none := by
  conv_lhs => rw [parseStringBody.eq_def]

theorem parseStringBody_closing (rest : List Nat) :
    parseStringBody (0x22 :: rest) = some ([], rest) := by
  rw [parseStringBody_cons]; rfl

theorem parseStringBody_simple (e u : Nat) (he : simpleEscape e = some u) (hu : e ≠ 0x75)
    (tail : List Nat) :
    parseStringBody (0x5C :: e :: tail)
      = match parseStringBody tail with
        | some (s, r) => some (u :: s, r)
        | none => none := by
  rw [parseStringBody_cons]
  simp only [Nat.reduceEqDiff, ↓reduceIte, hu, he]

theorem parseStringBody_hex (h1 h2 h3 h4 u : Nat) (hu : hex4 h1 h2 h3 h4 = some u)
    (tail : List Nat) :
    parseStringBody (0x5C :: 0x75 :: h1 :: h2 :: h3 :: h4 :: tail)
      = match parseStringBody tail with
        | some (s, r) => some (u :: s, r)
        | none => none := by
  rw [parseStringBody_cons]
  simp only [Nat.reduceEqDiff, ↓reduceIte, hu]

theorem parseStringBody_raw (u : Nat) (h1 : u ≠ 0x22) (h2 : u ≠ 0x5C) (h3 : ¬ u < 0x20)
    (tail : List Nat) :
    parseStringBody (u :: tail)
      = match parseStringBody tail with
        | some (s, r) => some (u :: s, r)
        | none => none := by
  rw [parseStringBody_cons]
  simp only [h1, h2, h3, ↓reduceIte]

theorem parseStringBody_unicodeEscape (u : Nat) (h : u < 0x10000) (tail : List Nat) :
    parseStringBody (unicodeEscape u ++ tail)
      = match parseStringBody tail with
        | some (s, r) => some (u :: s, r)
        | none => none :=
  parseStringBody_hex _ _ _ _ u (hex4_unicodeEscape u h) tail

theorem parseStringBody_escapeUnit (u : Nat) (tail : List Nat) :
    parseStringBody (escapeUnit u ++ tail)
      = match parseStringBody tail with
        | some (s, r) => some (u :: s, r)
        | none => none := by
  unfold escapeUnit
  split_ifs with h1 h2 h3 h4 h5 h6 h7 h8 h9
  · subst h1; exact parseStringBody_simple 0x62 0x08 (by decide) (by decide) tail
  · subst h2; exact parseStringBody_simple 0x74 0x09 (by decide) (by decide) tail
  · subst h3; exact parseStringBody_simple 0x6E 0x0A (by decide) (by decide) tail
  · subst h4; exact parseStringBody_simple 0x66 0x0C (by decide) (by decide) tail
  · subst h5; exact parseStringBody_simple 0x72 0x0D (by decide) (by decide) tail
  · subst h6; exact parseStringBody_simple 0x22 0x22 (by decide) (by decide) tail
  · subst h7; exact parseStringBody_simple 0x5C 0x5C (by decide) (by decide) tail
  · exact parseStringBody_unicodeEscape u (by omega) tail
  · refine parseStringBody_unicodeEscape u ?_ tail
    simp only [isHighSurrogate, isLowSurrogate, Bool.or_eq_true, Bool.and_eq_true,
      decide_eq_true_eq] at h9
    omega
  · exact parseStringBody_raw u h6 h7 h8 tail

theorem parseStringBody_quoteUnits (s : List Nat) :
    ∀ (flag : Bool) (rest : List Nat), (flag = true → startsWithLow s = true) →
      parseStringBody (quoteUnits flag s ++ 0x22 :: rest) = some (s, rest) := by
  induction s with
  | nil =>
    intro flag rest _
    cases flag <;> exact parseStringBody_closing rest
  | cons u tl ih =>
    intro flag rest hflag
    cases flag with
    | true =>
      have hl : isLowSurrogate u = true := hflag rfl
      simp only [isLowSurrogate, Bool.and_eq_true, decide_eq_true_eq] at hl
      simp only [quoteUnits, List.cons_append]
      rw [parseStringBody_raw u (by omega) (by omega) (by omega), ih false rest (by simp)]
    | false =>
      simp only [quoteUnits]
      split_ifs with hp
      · simp only [Bool.and_eq_true] at hp
        have hh := hp.1
        simp only [isHighSurrogate, Bool.and_eq_true, decide_eq_true_eq] at hh
        simp only [List.cons_append]
        rw [parseStringBody_raw u (by omega) (by omega) (by omega), ih true rest (fun _ => hp.2)]
      · rw [List.append_assoc, parseStringBody_escapeUnit, ih false rest (by simp)]

theorem parseStringBody_quote (s rest : List Nat) :
    parseStringBody (quoteUnits false s ++ 0x22 :: rest) = some (s, rest) :=
  parseStringBody_quoteUnits s false rest (by simp)

theorem scanDigits_append (xs : List Nat) (c : Nat) (tail : List Nat) (hc : isDigit c = false) :
    scanDigits (xs ++ c :: tail) = ((scanDigits xs).1, (scanDigits xs).2 ++ c :: tail) := by
  induction xs with
  | nil => simp [scanDigits, hc]
  | cons x xs ih =>
    simp only [List.cons_append, scanDigits]
    split_ifs with hx
    · simp [ih]
    · simp

theorem scanInt_append (xs : List Nat) (c : Nat) (tail : List Nat) (hc : isDigit c = false) :
    scanInt (xs ++ c :: tail) = extendRest (c :: tail) (scanInt xs) := by
  cases xs with
  | nil =>
    have h0 : c ≠ 0x30 := by
      intro h; subst h; simp [isDigit] at hc
    simp [scanInt, extendRest, hc, h0]
  | cons x xs =>
    simp only [List.cons_append, scanInt]
    split_ifs with h1 h2
    · simp [extendRest]
    · simp [extendRest, scanDigits_append xs c tail hc]
    · simp [extendRest]

theorem scanFrac_append (xs : List Nat) (c : Nat) (tail : List Nat)
    (hc : stopsNumber c = true) :
    scanFrac (xs ++ c :: tail) = extendRest (c :: tail) (scanFrac xs) := by
  simp only [stopsNumber, Bool.and_eq_true, Bool.not_eq_true', bne_iff_ne, ne_eq] at hc
  obtain ⟨⟨⟨⟨⟨hd, hdot⟩, he⟩, hE⟩, hplus⟩, hminus⟩ := hc
  cases xs with
  | nil => simp [scanFrac, extendRest, hdot]
  | cons x xs =>
    simp only [List.cons_append, scanFrac]
    split_ifs with h1
    · rw [scanDigits_append xs c tail hd]
      rcases hs : scanDigits xs with ⟨ds, r⟩
      cases ds <;> simp [extendRest]
    · simp [extendRest]

theorem scanExp_append (xs : List Nat) (c : Nat) (tail : List Nat)
    (hc : stopsNumber c = true) :
    scanExp (xs ++ c :: tail) = extendRest (c :: tail) (scanExp xs) := by
  simp only [stopsNumber, Bool.and_eq_true, Bool.not_eq_true', bne_iff_ne, ne_eq] at hc
  obtain ⟨⟨⟨⟨⟨hd, hdot⟩, he⟩, hE⟩, hplus⟩, hminus⟩ := hc
  cases xs with
  | nil => simp [scanExp, extendRest, he, hE]
  | cons x xs =>
    simp only [List.cons_append, scanExp]
    split_ifs with h1
    · cases xs with
      | nil =>
        simp only [List.nil_append, hplus, hminus, or_self, ↓reduceIte, extendRest]
        have : scanDigits (c :: tail) = ([], c :: tail) := by simp [scanDigits, hd]
        rw [this]
      | cons y ys =>
        simp only [List.cons_append]
        split_ifs with h2
        · rw [scanDigits_append ys c tail hd]
          rcases hs : scanDigits ys with ⟨ds, r⟩
          cases ds <;> simp [extendRest]
        · have := scanDigits_append (y :: ys) c tail hd
          simp only [List.cons_append] at this
          rw [this]
          rcases hs : scanDigits (y :: ys) with ⟨ds, r⟩
          cases ds <;> simp [extendRest]
    · simp [extendRest]

theorem scanUnsigned_append (xs : List Nat) (c : Nat) (tail : List Nat)
    (hc : stopsNumber c = true) :
    scanUnsigned (xs ++ c :: tail) = extendRest (c :: tail) (scanUnsigned xs) := by
  have hd : isDigit c = false := by
    simp only [stopsNumber, Bool.and_eq_true, Bool.not_eq_true'] at hc
    exact hc.1.1.1.1.1
  unfold scanUnsigned
  rw [scanInt_append xs c tail hd]
  cases scanInt xs with
  | none => rfl
  | some p =>
    obtain ⟨i, r1⟩ := p
    simp only [extendRest]
    rw [scanFrac_append r1 c tail hc]
    cases scanFrac r1 with
    | none => rfl
    | some p2 =>
      obtain ⟨f, r2⟩ := p2
      simp only [extendRest]
      rw [scanExp_append r2 c tail hc]
      cases scanExp r2 with
      | none => rfl
      | some p3 =>
        obtain ⟨e, r3⟩ := p3
        rfl

theorem scanNumber_append (xs : List Nat) (c : Nat) (tail : List Nat)
    (hc : stopsNumber c = true) (hx : xs ≠ []) :
    scanNumber (xs ++ c :: tail) = extendRest (c :: tail) (scanNumber xs) := by
  cases xs with
  | nil => exact absurd rfl hx
  | cons x xs =>
    simp only [List.cons_append, scanNumber]
    split_ifs with h1
    · rw [scanUnsigned_append xs c tail hc]
      cases scanUnsigned xs with
      | none => rfl
      | some p => rfl
    · have := scanUnsigned_append (x :: xs) c tail hc
      simpa using this

/-- The first code unit of a number token: a minus sign or a digit. -/
theorem scanNumber_head (x : Nat) (xs t r : List Nat)
    (h : scanNumber (x :: xs) = some (t, r)) : x = 0x2D ∨ isDigit x = true := by
  by_cases h1 : x = 0x2D
  · exact Or.inl h1
  · right
    simp only [scanNumber, h1, ↓reduceIte, scanUnsigned] at h
    cases hi : scanInt (x :: xs) with
    | none => rw [hi] at h; cases h
    | some p =>
      simp only [scanInt] at hi
      split_ifs at hi with h2 h3
      · subst h2; rfl
      · exact h3

theorem hasOwn_eq_false (k : JSString) (fields : List (JSString × JSValue ν))
    (h : ∀ kv ∈ fields, kv.1 ≠ k) : JSValue.hasOwn k fields = false := by
  simp only [JSValue.hasOwn, List.any_eq_false, beq_iff_eq]
  exact h

theorem insertNew_last (k : JSString) (v : JSValue ν) (fields : List (JSString × JSValue ν))
    (h : ∀ kv ∈ fields, keyBefore kv.1 k) : insertNew k v fields = fields ++ [(k, v)] := by
  induction fields with
  | nil => rfl
  | cons kv rest ih =>
    obtain ⟨k1, v1⟩ := kv
    have h1 : keyBefore k1 k := h (k1, v1) (List.mem_cons_self _ _)
    have hrest := ih (fun kv hkv => h kv (List.mem_cons_of_mem _ hkv))
    simp only [insertNew, List.cons_append]
    cases hk : isArrayIndex k with
    | none => simp [hrest]
    | some i =>
      obtain ⟨j, hj, hlt⟩ := h1.2 i hk
      simp only [hj]
      rw [if_neg (by omega), hrest]

theorem defineProperty_last (k : JSString) (v : JSValue ν)
    (fields : List (JSString × JSValue ν)) (h : ∀ kv ∈ fields, keyBefore kv.1 k) :
    defineProperty fields k v = fields ++ [(k, v)] := by
  unfold defineProperty
  rw [hasOwn_eq_false k fields (fun kv hkv => (h kv hkv).1)]
  simpa using insertNew_last k v fields h

theorem foldl_defineProperty (members acc : List (JSString × JSValue ν))
    (h : enumerationOrder ((acc ++ members).map Prod.fst)) :
    members.foldl (fun o kv => defineProperty o kv.1 kv.2) acc = acc ++ members := by
  induction members generalizing acc with
  | nil => simp
  | cons kv rest ih =>
    obtain ⟨k, v⟩ := kv
    have hk : ∀ kv ∈ acc, keyBefore kv.1 k := by
      intro kv1 hkv1
      unfold enumerationOrder at h
      rw [List.map_append, List.pairwise_append] at h
      exact h.2.2 kv1.1 (List.mem_map_of_mem _ hkv1) k (by simp)
    simp only [List.foldl_cons]
    rw [defineProperty_last k v acc hk, ih (acc ++ [(k, v)]) (by simpa using h)]
    simp

theorem objectOfMembers_enumerated (fields : List (JSString × JSValue ν))
    (h : enumerationOrder (fields.map Prod.fst)) :
    objectOfMembers fields = JSValue.object fields := by
  unfold objectOfMembers
  rw [foldl_defineProperty fields [] (by simpa using h)]
  rfl

theorem isIndent_nil : isIndent [] := by
  intro c hc; cases hc

theorem isIndent_gap (ind : List Nat) (h : isIndent ind) : isIndent (ind ++ gap) := by
  intro c hc
  rcases List.mem_append.1 hc with h1 | h1
  · exact h c h1
  · simp only [gap, List.mem_cons, List.mem_singleton, List.not_mem_nil, or_false, or_self] at h1
    subst h1; rfl

theorem skipWs_indent (ind : List Nat) (h : isIndent ind) (c : Nat) (tail : List Nat)
    (hc : isWs c = false) : skipWs (ind ++ c :: tail) = c :: tail := by
  induction ind with
  | nil => simp [skipWs, hc]
  | cons x xs ih =>
    have hx : isWs x = true := h x (List.mem_cons_self _ _)
    simp only [List.cons_append, skipWs, hx, ↓reduceIte]
    exact ih (fun c hc => h c (List.mem_cons_of_mem _ hc))

theorem skipWs_head (c : Nat) (tail : List Nat) (hc : isWs c = false) :
    skipWs (c :: tail) = c :: tail := by
  simp [skipWs, hc]

theorem utf16_null : utf16 "null" = [0x6E, 0x75, 0x6C, 0x6C] := by decide

theorem utf16_true : utf16 "true" = [0x74, 0x72, 0x75, 0x65] := by decide

theorem utf16_false : utf16 "false" = [0x66, 0x61, 0x6C, 0x73, 0x65] := by decide

theorem utf16_brackets : utf16 "[]" = [0x5B, 0x5D] := by decide

theorem utf16_braces : utf16 "\x7b\x7d" = [0x7B, 0x7D] := by decide

theorem serialize_head [JSNumber ν] (v : JSValue ν) (hv : transportable v) (ind : List Nat) :
    ∃ t, serializeProperty ind v = some t ∧ headIs startsValue t = true := by
  cases v with
  | undefined => simp [transportable] at hv
  | null => exact ⟨utf16 "null", by simp only [serializeProperty], by rw [utf16_null]; rfl⟩
  | bool b =>
    cases b
    · exact ⟨utf16 "false", by simp only [serializeProperty], by rw [utf16_false]; rfl⟩
    · exact ⟨utf16 "true", by simp only [serializeProperty], by rw [utf16_true]; rfl⟩
  | number n =>
    simp only [transportable, numberSurvives] at hv
    refine ⟨JSNumber.toString n, by simp only [serializeProperty, hv.1, ↓reduceIte], ?_⟩
    cases ht : JSNumber.toString n with
    | nil => rw [ht] at hv; simp [scanNumber] at hv
    | cons x xs =>
      have := scanNumber_head x xs _ _ (ht ▸ hv.2.1)
      rcases this with h | h
      · subst h; rfl
      · simp only [isDigit, Bool.and_eq_true, decide_eq_true_eq] at h
        simp only [headIs, startsValue, isWs, Bool.and_eq_true, Bool.not_eq_true',
          Bool.or_eq_false_iff, decide_eq_false_iff_not, bne_iff_ne, ne_eq]
        omega
  | string s => exact ⟨quote s, by simp only [serializeProperty], rfl⟩
  | array items =>
    simp only [serializeProperty]
    split
    · exact ⟨_, rfl, by rw [utf16_brackets]; rfl⟩
    · exact ⟨_, rfl, rfl⟩
  | object fields =>
    simp only [serializeProperty]
    split
    · exact ⟨_, rfl, by rw [utf16_braces]; rfl⟩
    · exact ⟨_, rfl, rfl⟩

theorem parseValue_cons [JSNumber ν] (fuel : Nat) (c : Nat) (rest : List Nat) :
    parseValue (ν := ν) (fuel + 1) (c :: rest)
      = if c = 0x22 then
          match parseStringBody rest with
          | some (s, r) => some (JSValue.string s, r)
          | none => none
        else if c = 0x5B then
          match skipWs rest with
          | [] => none
          | d :: r =>
            if d = 0x5D then some (JSValue.array [], r)
            else
              match parseElements fuel (d :: r) with
              | some (items, r1) => some (JSValue.array items, r1)
              | none => none
        else if c = 0x7B then
          match skipWs rest with
          | [] => none
          | d :: r =>
            if d = 0x7D then some (JSValue.object [], r)
            else
              match parseMembers fuel (d :: r) with
              | some (members, r1) => some (objectOfMembers members, r1)
              | none => none
        else if c = 0x6E then
          match dropLiteral [0x75, 0x6C, 0x6C] rest with
          | some r => some (JSValue.null, r)
          | none => none
        else if c = 0x74 then
          match dropLiteral [0x72, 0x75, 0x65] rest with
          | some r => some (JSValue.bool true, r)
          | none => none
        else if c = 0x66 then
          match dropLiteral [0x61, 0x6C, 0x73, 0x65] rest with
          | some r => some (JSValue.bool false, r)
          | none => none
        else
          match scanNumber (c :: rest) with
          | some (t, r) => some (JSValue.number (JSNumber.ofString t), r)
          | none => none := by
  rw [parseValue]

theorem parseValue_string [JSNumber ν] (fuel : Nat) (r : List Nat) :
    parseValue (ν := ν) (fuel + 1) (0x22 :: r)
      = match parseStringBody r with
        | some (s, r1) => some (JSValue.string s, r1)
        | none => none := by
  rw [parseValue_cons]; simp only [↓reduceIte]

theorem parseValue_null [JSNumber ν] (fuel : Nat) (r : List Nat) :
    parseValue (ν := ν) (fuel + 1) (0x6E :: 0x75 :: 0x6C :: 0x6C :: r) = some (.null, r) := by
  rw [parseValue_cons]; simp [dropLiteral]

theorem parseValue_true [JSNumber ν] (fuel : Nat) (r : List Nat) :
    parseValue (ν := ν) (fuel + 1) (0x74 :: 0x72 :: 0x75 :: 0x65 :: r)
      = some (.bool true, r) := by
  rw [parseValue_cons]; simp [dropLiteral]

theorem parseValue_false [JSNumber ν] (fuel : Nat) (r : List Nat) :
    parseValue (ν := ν) (fuel + 1) (0x66 :: 0x61 :: 0x6C :: 0x73 :: 0x65 :: r)
      = some (.bool false, r) := by
  rw [parseValue_cons]; simp [dropLiteral]

theorem parseValue_array [JSNumber ν] (fuel : Nat) (r : List Nat) :
    parseValue (ν := ν) (fuel + 1) (0x5B :: r)
      = match skipWs r with
        | [] => none
        | d :: r1 =>
          if d = 0x5D then some (JSValue.array [], r1)
          else
            match parseElements fuel (d :: r1) with
            | some (items, r2) => some (JSValue.array items, r2)
            | none => none := by
  rw [parseValue_cons]; simp only [Nat.reduceEqDiff, ↓reduceIte]

theorem parseValue_object [JSNumber ν] (fuel : Nat) (r : List Nat) :
    parseValue (ν := ν) (fuel + 1) (0x7B :: r)
      = match skipWs r with
        | [] => none
        | d :: r1 =>
          if d = 0x7D then some (JSValue.object [], r1)
          else
            match parseMembers fuel (d :: r1) with
            | some (members, r2) => some (objectOfMembers members, r2)
            | none => none := by
  rw [parseValue_cons]; simp only [Nat.reduceEqDiff, ↓reduceIte]

theorem parseValue_number [JSNumber ν] (fuel : Nat) (c : Nat) (r : List Nat)
    (hc : c = 0x2D ∨ isDigit c = true) :
    parseValue (ν := ν) (fuel + 1) (c :: r)
      = match scanNumber (c :: r) with
        | some (t, r1) => some (JSValue.number (JSNumber.ofString t), r1)
        | none => none := by
  have h : c ≠ 0x22 ∧ c ≠ 0x5B ∧ c ≠ 0x7B ∧ c ≠ 0x6E ∧ c ≠ 0x74 ∧ c ≠ 0x66 := by
    rcases hc with hc | hc
    · subst hc; decide
    · simp only [isDigit, Bool.and_eq_true, decide_eq_true_eq] at hc
      omega
  rw [parseValue_cons]
  simp only [h.1, h.2.1, h.2.2.1, h.2.2.2.1, h.2.2.2.2.1, h.2.2.2.2.2, ↓reduceIte]

theorem parseElements_succ [JSNumber ν] (fuel : Nat) (input : List Nat) :
    parseElements (ν := ν) (fuel + 1) input
      = match parseValue fuel input with
        | none => none
        | some (v, r) =>
          match skipWs r with
          | [] => none
          | d :: r1 =>
            if d = 0x2C then
              match parseElements fuel (skipWs r1) with
              | some (vs, r2) => some (v :: vs, r2)
              | none => none
            else if d = 0x5D then some ([v], r1)
            else none := by
  rw [parseElements]

theorem parseMembers_succ [JSNumber ν] (fuel : Nat) (rest : List Nat) :
    parseMembers (ν := ν) (fuel + 1) (0x22 :: rest)
      = match parseStringBody rest with
        | none => none
        | some (k, r) =>
          match skipWs r with
          | [] => none
          | colon :: r1 =>
            if colon = 0x3A then
              match parseValue fuel (skipWs r1) with
              | none => none
              | some (v, r2) =>
                match skipWs r2 with
                | [] => none
                | d :: r3 =>
                  if d = 0x2C then
                    match parseMembers fuel (skipWs r3) with
                    | some (ms, r4) => some ((k, v) :: ms, r4)
                    | none => none
                  else if d = 0x7D then some ([(k, v)], r3)
                  else none
            else none := by
  rw [parseMembers]; simp only [↓reduceIte]

theorem headIs_cons {p : Nat → Bool} {t : List Nat} (h : headIs p t = true) :
    ∃ c r, t = c :: r ∧ p c = true := by
  cases t with
  | nil => cases h
  | cons c r => exact ⟨c, r, rfl, h⟩

theorem startsValue_not_ws {c : Nat} (h : startsValue c = true) :
    isWs c = false ∧ c ≠ 0x5D ∧ c ≠ 0x7D ∧ c ≠ 0x2C := by
  simpa [startsValue, and_assoc] using h

theorem serializeItems_cons [JSNumber ν] (ind : List Nat) (v : JSValue ν)
    (rest : List (JSValue ν)) (t : JSString) (ht : serializeProperty ind v = some t) :
    serializeItems ind (v :: rest) = t :: serializeItems ind rest := by
  simp only [serializeItems, ht]

theorem serializeFields_cons [JSNumber ν] (ind : List Nat) (k : JSString) (v : JSValue ν)
    (rest : List (JSString × JSValue ν)) (t : JSString)
    (ht : serializeProperty ind v = some t) :
    serializeFields ind ((k, v) :: rest)
      = (quote k ++ [0x3A, 0x20] ++ t) :: serializeFields ind rest := by
  simp only [serializeFields, ht]

theorem joinWith_cons_cons (sep s s2 : JSString) (rest : List JSString) :
    JSValue.joinWith sep (s :: s2 :: rest) = s ++ sep ++ JSValue.joinWith sep (s2 :: rest) := by
  simp only [JSValue.joinWith]

theorem joinWith_single (sep s : JSString) : JSValue.joinWith sep [s] = s := rfl

mutual
theorem parseValue_serialize [JSNumber ν] :
    ∀ (v : JSValue ν), transportable v → ∀ (ind : List Nat), isIndent ind →
      ∀ (t : JSString), serializeProperty ind v = some t →
      ∀ (rest : List Nat) (fuel : Nat), restStops rest = true →
        2 * (t ++ rest).length + 1 ≤ fuel → parseValue fuel (t ++ rest) = some (v, rest)
  | .undefined, hv, _, _, _, _, _, _, _, _ => by simp [transportable] at hv
  | .null, _, _, _, t, ht, rest, fuel, _, hfuel => by
    simp only [serializeProperty, Option.some.injEq] at ht
    subst ht
    obtain ⟨f, rfl⟩ : ∃ f, fuel = f + 1 := ⟨fuel - 1, by omega⟩
    rw [utf16_null]
    exact parseValue_null f rest
  | .bool true, _, _, _, t, ht, rest, fuel, _, hfuel => by
    simp only [serializeProperty, Option.some.injEq] at ht
    subst ht
    obtain ⟨f, rfl⟩ : ∃ f, fuel = f + 1 := ⟨fuel - 1, by omega⟩
    rw [utf16_true]
    exact parseValue_true f rest
  | .bool false, _, _, _, t, ht, rest, fuel, _, hfuel => by
    simp only [serializeProperty, Option.some.injEq] at ht
    subst ht
    obtain ⟨f, rfl⟩ : ∃ f, fuel = f + 1 := ⟨fuel - 1, by omega⟩
    rw [utf16_false]
    exact parseValue_false f rest
  | .number n, hv, _, _, t, ht, rest, fuel, hrest, hfuel => by
    simp only [transportable, numberSurvives] at hv
    simp only [serializeProperty, hv.1, ↓reduceIte, Option.some.injEq] at ht
    subst ht
    obtain ⟨f, rfl⟩ : ∃ f, fuel = f + 1 := ⟨fuel - 1, by omega⟩
    cases htok : JSNumber.toString n with
    | nil => rw [htok] at hv; simp [scanNumber] at hv
    | cons x xs =>
      have hscan := hv.2.1
      rw [htok] at hscan
      have hx := scanNumber_head x xs _ _ hscan
      have hwhole : scanNumber ((x :: xs) ++ rest) = some (x :: xs, rest) := by
        cases rest with
        | nil => simpa using hscan
        | cons c tail =>
          rw [scanNumber_append (x :: xs) c tail hrest (by simp), hscan]
          rfl
      rw [List.cons_append, parseValue_number f x (xs ++ rest) hx, ← List.cons_append, hwhole]
      simp only [Option.some.injEq, Prod.mk.injEq, JSValue.number.injEq, and_true]
      rw [← htok]; exact hv.2.2
  | .string s, _, _, _, t, ht, rest, fuel, _, hfuel => by
    simp only [serializeProperty, Option.some.injEq] at ht
    subst ht
    obtain ⟨f, rfl⟩ : ∃ f, fuel = f + 1 := ⟨fuel - 1, by omega⟩
    simp only [quote, List.append_assoc, List.singleton_append, List.cons_append,
      List.nil_append]
    rw [parseValue_string, parseStringBody_quote]
  | .array [], _, _, _, t, ht, rest, fuel, _, hfuel => by
    simp only [serializeProperty, serializeItems, Option.some.injEq] at ht
    subst ht
    obtain ⟨f, rfl⟩ : ∃ f, fuel = f + 1 := ⟨fuel - 1, by omega⟩
    rw [utf16_brackets]
    simp only [List.cons_append, List.nil_append]
    rw [parseValue_array, skipWs_head _ _ (by decide)]
    simp
  | .array (v :: items), hv, ind, hind, t, ht, rest, fuel, _, hfuel => by
    simp only [transportable] at hv
    have hv1 : transportable v := by
      simp only [transportableItems] at hv; exact hv.1
    obtain ⟨t1, ht1, hh1⟩ := serialize_head v hv1 (ind ++ gap)
    obtain ⟨c, r, hc, hsv⟩ := headIs_cons hh1
    have hcs := startsValue_not_ws hsv
    rw [serializeProperty, serializeItems_cons _ _ _ _ ht1] at ht
    simp only [Option.some.injEq] at ht
    subst ht
    obtain ⟨f, rfl⟩ : ∃ f, fuel = f + 1 := ⟨fuel - 1, by omega⟩
    have hitems := parseElements_serialize (v :: items) hv (by simp) (ind ++ gap)
      (isIndent_gap ind hind) ind hind rest f
    rw [serializeItems_cons _ _ _ _ ht1] at hitems
    -- the text after the opening bracket starts with the first element
    have hstart : ∃ tail, JSValue.joinWith ([0x2C, 0x0A] ++ (ind ++ gap))
          (t1 :: serializeItems (ind ++ gap) items) ++ ([0x0A] ++ ind ++ 0x5D :: rest)
        = c :: tail := by
      cases serializeItems (ind ++ gap) items with
      | nil => exact ⟨_, by rw [joinWith_single, hc]; rfl⟩
      | cons t2 more => exact ⟨_, by rw [joinWith_cons_cons, hc]; rfl⟩
    obtain ⟨tail, htail⟩ := hstart
    have heq : ([0x5B, 0x0A] ++ (ind ++ gap)
          ++ JSValue.joinWith ([0x2C, 0x0A] ++ (ind ++ gap))
              (t1 :: serializeItems (ind ++ gap) items)
          ++ [0x0A] ++ ind ++ [0x5D]) ++ rest
        = 0x5B :: 0x0A :: ((ind ++ gap) ++ c :: tail) := by
      rw [← htail]; simp
    rw [heq] at hfuel ⊢
    rw [parseValue_array]
    have hskip : skipWs (0x0A :: ((ind ++ gap) ++ c :: tail)) = c :: tail := by
      rw [skipWs]
      simp only [isWs, decide_True, Bool.or_true, Bool.true_or, Nat.reduceEqDiff, decide_False,
        Bool.or_false, Bool.false_or, ↓reduceIte]
      exact skipWs_indent _ (isIndent_gap ind hind) c tail hcs.1
    rw [hskip]
    simp only [hcs.2.1, ↓reduceIte]
    rw [← htail, hitems]
    rw [htail]
    simp only [List.length_cons, List.length_append] at hfuel ⊢
    omega
  | .object [], _, _, _, t, ht, rest, fuel, _, hfuel => by
    simp only [serializeProperty, serializeFields, Option.some.injEq] at ht
    subst ht
    obtain ⟨f, rfl⟩ : ∃ f, fuel = f + 1 := ⟨fuel - 1, by omega⟩
    rw [utf16_braces]
    simp only [List.cons_append, List.nil_append]
    rw [parseValue_object, skipWs_head _ _ (by decide)]
    simp
  | .object ((k, v) :: fields), hv, ind, hind, t, ht, rest, fuel, _, hfuel => by
    simp only [transportable] at hv
    have hv1 : transportable v := by
      have := hv.2
      simp only [transportableFields] at this; exact this.1
    obtain ⟨t1, ht1, -⟩ := serialize_head v hv1 (ind ++ gap)
    rw [serializeProperty, serializeFields_cons _ _ _ _ _ ht1] at ht
    simp only [Option.some.injEq] at ht
    subst ht
    obtain ⟨f, rfl⟩ : ∃ f, fuel = f + 1 := ⟨fuel - 1, by omega⟩
    have hmembers := parseMembers_serialize ((k, v) :: fields) hv.2 (by simp) (ind ++ gap)
      (isIndent_gap ind hind) ind hind rest f
    rw [serializeFields_cons _ _ _ _ _ ht1] at hmembers
    have hstart : ∃ tail, JSValue.joinWith ([0x2C, 0x0A] ++ (ind ++ gap))
          ((quote k ++ [0x3A, 0x20] ++ t1) :: serializeFields (ind ++ gap) fields)
          ++ ([0x0A] ++ ind ++ 0x7D :: rest)
        = 0x22 :: tail := by
      cases serializeFields (ind ++ gap) fields with
      | nil => exact ⟨_, by rw [joinWith_single]; rfl⟩
      | cons t2 more => exact ⟨_, by rw [joinWith_cons_cons]; rfl⟩
    obtain ⟨tail, htail⟩ := hstart
    have heq : ([0x7B, 0x0A] ++ (ind ++ gap)
          ++ JSValue.joinWith ([0x2C, 0x0A] ++ (ind ++ gap))
              ((quote k ++ [0x3A, 0x20] ++ t1) :: serializeFields (ind ++ gap) fields)
          ++ [0x0A] ++ ind ++ [0x7D]) ++ rest
        = 0x7B :: 0x0A :: ((ind ++ gap) ++ 0x22 :: tail) := by
      rw [← htail]; simp
    rw [heq] at hfuel ⊢
    rw [parseValue_object]
    have hskip : skipWs (0x0A :: ((ind ++ gap) ++ 0x22 :: tail)) = 0x22 :: tail := by
      rw [skipWs]
      simp only [isWs, decide_True, Bool.or_true, Bool.true_or, Nat.reduceEqDiff, decide_False,
        Bool.or_false, Bool.false_or, ↓reduceIte]
      exact skipWs_indent _ (isIndent_gap ind hind) 0x22 tail (by decide)
    rw [hskip]
    simp only [Nat.reduceEqDiff, ↓reduceIte]
    rw [← htail, hmembers]
    · simp only [Option.some.injEq, Prod.mk.injEq, and_true]
      exact objectOfMembers_enumerated _ hv.1
    · rw [htail]
      simp only [List.length_cons, List.length_append] at hfuel ⊢
      omega
theorem parseElements_serialize [JSNumber ν] :
    ∀ (items : List (JSValue ν)), transportableItems items → items ≠ [] →
      ∀ (ind : List Nat), isIndent ind → ∀ (ind0 : List Nat), isIndent ind0 →
      ∀ (rest : List Nat) (fuel : Nat),
        2 * (JSValue.joinWith ([0x2C, 0x0A] ++ ind) (serializeItems ind items)
              ++ ([0x0A] ++ ind0 ++ 0x5D :: rest)).length + 2 ≤ fuel →
        parseElements fuel (JSValue.joinWith ([0x2C, 0x0A] ++ ind) (serializeItems ind items)
              ++ ([0x0A] ++ ind0 ++ 0x5D :: rest)) = some (items, rest)
  | [], _, hne, _, _, _, _, _, _, _ => absurd rfl hne
  | [v], hv, _, ind, hind, ind0, hind0, rest, fuel, hfuel => by
    simp only [transportableItems, and_true] at hv
    obtain ⟨t1, ht1, -⟩ := serialize_head v hv ind
    rw [serializeItems_cons _ _ _ _ ht1] at hfuel ⊢
    simp only [serializeItems, joinWith_single] at hfuel ⊢
    obtain ⟨f, rfl⟩ : ∃ f, fuel = f + 1 := ⟨fuel - 1, by omega⟩
    rw [parseElements_succ,
      parseValue_serialize v hv ind hind t1 ht1 ([0x0A] ++ ind0 ++ 0x5D :: rest) f (by rfl)
        (by omega)]
    have hskip : skipWs ([0x0A] ++ ind0 ++ 0x5D :: rest) = 0x5D :: rest := by
      simp only [List.singleton_append, List.cons_append]
      rw [skipWs]
      simp only [isWs, decide_True, Bool.or_true, Bool.true_or, Nat.reduceEqDiff, decide_False,
        Bool.or_false, Bool.false_or, ↓reduceIte]
      exact skipWs_indent _ hind0 0x5D rest (by decide)
    simp only [hskip, Nat.reduceEqDiff, ↓reduceIte]
  | v :: w :: items, hv, _, ind, hind, ind0, hind0, rest, fuel, hfuel => by
    simp only [transportableItems] at hv
    obtain ⟨t1, ht1, -⟩ := serialize_head v hv.1 ind
    obtain ⟨t2, ht2, hh2⟩ := serialize_head w hv.2.1 ind
    obtain ⟨c, r, hc, hsv⟩ := headIs_cons hh2
    have hcs := startsValue_not_ws hsv
    have hitems := parseElements_serialize (w :: items)
      (by simp only [transportableItems]; exact hv.2) (by simp) ind hind ind0 hind0 rest
    rw [serializeItems_cons _ _ _ _ ht1] at hfuel ⊢
    rw [serializeItems_cons _ _ _ _ ht2] at hfuel hitems ⊢
    rw [joinWith_cons_cons] at hfuel ⊢
    obtain ⟨f, rfl⟩ : ∃ f, fuel = f + 1 := ⟨fuel - 1, by omega⟩
    have hstart : ∃ tail, JSValue.joinWith ([0x2C, 0x0A] ++ ind)
          (t2 :: serializeItems ind items) ++ ([0x0A] ++ ind0 ++ 0x5D :: rest)
        = c :: tail := by
      cases serializeItems ind items with
      | nil => exact ⟨_, by rw [joinWith_single, hc]; rfl⟩
      | cons t3 more => exact ⟨_, by rw [joinWith_cons_cons, hc]; rfl⟩
    obtain ⟨tail, htail⟩ := hstart
    have heq : t1 ++ ([0x2C, 0x0A] ++ ind)
          ++ JSValue.joinWith ([0x2C, 0x0A] ++ ind) (t2 :: serializeItems ind items)
          ++ ([0x0A] ++ ind0 ++ 0x5D :: rest)
        = t1 ++ (0x2C :: 0x0A :: (ind ++ c :: tail)) := by
      rw [← htail]; simp
    rw [heq] at hfuel ⊢
    rw [parseElements_succ,
      parseValue_serialize v hv.1 ind hind t1 ht1 (0x2C :: 0x0A :: (ind ++ c :: tail)) f
        (by rfl) (by omega)]
    have hskip : skipWs (0x0A :: (ind ++ c :: tail)) = c :: tail := by
      rw [skipWs]
      simp only [isWs, decide_True, Bool.or_true, Bool.true_or, Nat.reduceEqDiff, decide_False,
        Bool.or_false, Bool.false_or, ↓reduceIte]
      exact skipWs_indent _ hind c tail hcs.1
    simp only [skipWs_head 0x2C _ (by decide), ↓reduceIte, hskip]
    rw [← htail, hitems f]
    rw [htail]
    simp only [List.length_cons, List.length_append] at hfuel ⊢
    omega
theorem parseMembers_serialize [JSNumber ν] :
    ∀ (fields : List (JSString × JSValue ν)), transportableFields fields → fields ≠ [] →
      ∀ (ind : List Nat), isIndent ind → ∀ (ind0 : List Nat), isIndent ind0 →
      ∀ (rest : List Nat) (fuel : Nat),
        2 * (JSValue.joinWith ([0x2C, 0x0A] ++ ind) (serializeFields ind fields)
              ++ ([0x0A] ++ ind0 ++ 0x7D :: rest)).length + 2 ≤ fuel →
        parseMembers fuel (JSValue.joinWith ([0x2C, 0x0A] ++ ind) (serializeFields ind fields)
              ++ ([0x0A] ++ ind0 ++ 0x7D :: rest)) = some (fields, rest)
  | [], _, hne, _, _, _, _, _, _, _ => absurd rfl hne
  | [(k, v)], hv, _, ind, hind, ind0, hind0, rest, fuel, hfuel => by
    simp only [transportableFields, and_true] at hv
    obtain ⟨t1, ht1, hh1⟩ := serialize_head v hv ind
    obtain ⟨c, r, hc, hsv⟩ := headIs_cons hh1
    have hcs := startsValue_not_ws hsv
    rw [serializeFields_cons _ _ _ _ _ ht1] at hfuel ⊢
    simp only [serializeFields, joinWith_single] at hfuel ⊢
    obtain ⟨f, rfl⟩ : ∃ f, fuel = f + 1 := ⟨fuel - 1, by omega⟩
    have heq : quote k ++ [0x3A, 0x20] ++ t1 ++ ([0x0A] ++ ind0 ++ 0x7D :: rest)
        = 0x22 :: (quoteUnits false k
            ++ 0x22 :: 0x3A :: 0x20 :: (t1 ++ (0x0A :: (ind0 ++ 0x7D :: rest)))) := by
      simp [quote]
    rw [heq] at hfuel ⊢
    rw [parseMembers_succ, parseStringBody_quote]
    simp only [skipWs_head 0x3A _ (by decide), ↓reduceIte]
    have hskip1 : skipWs (0x20 :: (t1 ++ (0x0A :: (ind0 ++ 0x7D :: rest))))
        = t1 ++ (0x0A :: (ind0 ++ 0x7D :: rest)) := by
      rw [skipWs]
      simp only [isWs, decide_True, Bool.or_true, Bool.true_or, Nat.reduceEqDiff, decide_False,
        Bool.or_false, Bool.false_or, ↓reduceIte]
      rw [hc, List.cons_append, skipWs_head c _ hcs.1]
    rw [hskip1,
      parseValue_serialize v hv ind hind t1 ht1 (0x0A :: (ind0 ++ 0x7D :: rest)) f (by rfl)
        (by simp only [List.length_cons, List.length_append] at hfuel ⊢; omega)]
    have hskip : skipWs (0x0A :: (ind0 ++ 0x7D :: rest)) = 0x7D :: rest := by
      rw [skipWs]
      simp only [isWs, decide_True, Bool.or_true, Bool.true_or, Nat.reduceEqDiff, decide_False,
        Bool.or_false, Bool.false_or, ↓reduceIte]
      exact skipWs_indent _ hind0 0x7D rest (by decide)
    simp only [hskip, Nat.reduceEqDiff, ↓reduceIte]
  | (k, v) :: (k2, w) :: fields, hv, _, ind, hind, ind0, hind0, rest, fuel, hfuel => by
    simp only [transportableFields] at hv
    obtain ⟨t1, ht1, hh1⟩ := serialize_head v hv.1 ind
    obtain ⟨c, r, hc, hsv⟩ := headIs_cons hh1
    have hcs := startsValue_not_ws hsv
    obtain ⟨t2, ht2, -⟩ := serialize_head w hv.2.1 ind
    have hmembers := parseMembers_serialize ((k2, w) :: fields)
      (by simp only [transportableFields]; exact hv.2) (by simp) ind hind ind0 hind0 rest
    rw [serializeFields_cons _ _ _ _ _ ht1] at hfuel ⊢
    rw [serializeFields_cons _ _ _ _ _ ht2] at hfuel hmembers ⊢
    rw [joinWith_cons_cons] at hfuel ⊢
    obtain ⟨f, rfl⟩ : ∃ f, fuel = f + 1 := ⟨fuel - 1, by omega⟩
    have hstart : ∃ tail, JSValue.joinWith ([0x2C, 0x0A] ++ ind)
          ((quote k2 ++ [0x3A, 0x20] ++ t2) :: serializeFields ind fields)
          ++ ([0x0A] ++ ind0 ++ 0x7D :: rest)
        = 0x22 :: tail := by
      cases serializeFields ind fields with
      | nil => exact ⟨_, by rw [joinWith_single]; rfl⟩
      | cons t3 more => exact ⟨_, by rw [joinWith_cons_cons]; rfl⟩
    obtain ⟨tail, htail⟩ := hstart
    have heq : quote k ++ [0x3A, 0x20] ++ t1 ++ ([0x2C, 0x0A] ++ ind)
          ++ JSValue.joinWith ([0x2C, 0x0A] ++ ind)
              ((quote k2 ++ [0x3A, 0x20] ++ t2) :: serializeFields ind fields)
          ++ ([0x0A] ++ ind0 ++ 0x7D :: rest)
        = 0x22 :: (quoteUnits false k
            ++ 0x22 :: 0x3A :: 0x20 :: (t1 ++ (0x2C :: 0x0A :: (ind ++ 0x22 :: tail)))) := by
      rw [← htail]; simp [quote]
    rw [heq] at hfuel ⊢
    rw [parseMembers_succ, parseStringBody_quote]
    simp only [skipWs_head 0x3A _ (by decide), ↓reduceIte]
    have hskip1 : skipWs (0x20 :: (t1 ++ (0x2C :: 0x0A :: (ind ++ 0x22 :: tail))))
        = t1 ++ (0x2C :: 0x0A :: (ind ++ 0x22 :: tail)) := by
      rw [skipWs]
      simp only [isWs, decide_True, Bool.or_true, Bool.true_or, Nat.reduceEqDiff, decide_False,
        Bool.or_false, Bool.false_or, ↓reduceIte]
      rw [hc, List.cons_append, skipWs_head c _ hcs.1]
    rw [hskip1,
      parseValue_serialize v hv.1 ind hind t1 ht1 (0x2C :: 0x0A :: (ind ++ 0x22 :: tail)) f
        (by rfl)
        (by simp only [List.length_cons, List.length_append] at hfuel ⊢; omega)]
    have hskip : skipWs (0x0A :: (ind ++ 0x22 :: tail)) = 0x22 :: tail := by
      rw [skipWs]
      simp only [isWs, decide_True, Bool.or_true, Bool.true_or, Nat.reduceEqDiff, decide_False,
        Bool.or_false, Bool.false_or, ↓reduceIte]
      exact skipWs_indent _ hind 0x22 tail (by decide)
    simp only [skipWs_head 0x2C _ (by decide), ↓reduceIte, hskip]
    rw [← htail, hmembers f]
    rw [htail]
    simp only [List.length_cons, List.length_append] at hfuel ⊢
    omega
end

theorem skipWs_length (l : List Nat) : (skipWs l).length ≤ l.length := by
  induction l with
  | nil => simp [skipWs]
  | cons c rest ih =>
    simp only [skipWs]
    split_ifs
    · simp only [List.length_cons]; omega
    · simp

theorem dropLiteral_length (lit l r : List Nat) (h : dropLiteral lit l = some r) :
    r.length ≤ l.length := by
  induction lit generalizing l with
  | nil => simp only [dropLiteral, Option.some.injEq] at h; subst h; exact le_refl _
  | cons x xs ih =>
    cases l with
    | nil => simp [dropLiteral] at h
    | cons c rest =>
      simp only [dropLiteral] at h
      split_ifs at h
      have := ih rest h
      simp only [List.length_cons]; omega

theorem parseStringBody_length_le (n : Nat) :
    ∀ (l : List Nat) (s r : List Nat), l.length ≤ n → parseStringBody l = some (s, r) →
      r.length < l.length := by
  induction n with
  | zero =>
    intro l s r hl h
    cases l with
    | nil => rw [parseStringBody] at h; cases h
    | cons c rest => simp at hl
  | succ n ih =>
    intro l s r hl h
    cases l with
    | nil => rw [parseStringBody] at h; cases h
    | cons c rest =>
      simp only [List.length_cons, Nat.add_le_add_iff_right] at hl
      rw [parseStringBody_cons] at h
      split_ifs at h with h1 h2 h3
      · simp only [Option.some.injEq, Prod.mk.injEq] at h
        rw [← h.2]; simp
      · cases rest with
        | nil => cases h
        | cons e rest1 =>
          simp only [List.length_cons] at hl
          simp only at h
          split_ifs at h with h4
          · match rest1, hl, h with
            | h1 :: h2 :: h3 :: h4 :: rest2, hl, h =>
              simp only [List.length_cons] at hl
              simp only at h
              cases hh : hex4 h1 h2 h3 h4 with
              | none => rw [hh] at h; cases h
              | some u =>
                rw [hh] at h
                simp only at h
                cases hp : parseStringBody rest2 with
                | none => rw [hp] at h; cases h
                | some p =>
                  obtain ⟨s1, r1⟩ := p
                  rw [hp] at h
                  simp only [Option.some.injEq, Prod.mk.injEq] at h
                  have := ih rest2 s1 r1 (by omega) hp
                  rw [← h.2]
                  simp only [List.length_cons]; omega
            | [], _, h => cases h
            | [_], _, h => cases h
            | [_, _], _, h => cases h
            | [_, _, _], _, h => cases h
          · cases he : simpleEscape e with
            | none => rw [he] at h; cases h
            | some u =>
              rw [he] at h
              simp only at h
              cases hp : parseStringBody rest1 with
              | none => rw [hp] at h; cases h
              | some p =>
                obtain ⟨s1, r1⟩ := p
                rw [hp] at h
                simp only [Option.some.injEq, Prod.mk.injEq] at h
                have := ih rest1 s1 r1 (by omega) hp
                rw [← h.2]
                simp only [List.length_cons]; omega
      · cases hp : parseStringBody rest with
        | none => rw [hp] at h; cases h
        | some p =>
          obtain ⟨s1, r1⟩ := p
          rw [hp] at h
          simp only [Option.some.injEq, Prod.mk.injEq] at h
          have := ih rest s1 r1 hl hp
          rw [← h.2]
          simp only [List.length_cons]; omega

theorem parseStringBody_length (l s r : List Nat) (h : parseStringBody l = some (s, r)) :
    r.length < l.length :=
  parseStringBody_length_le l.length l s r (le_refl _) h

theorem scanDigits_length (l : List Nat) : (scanDigits l).2.length ≤ l.length := by
  induction l with
  | nil => simp [scanDigits]
  | cons c rest ih =>
    simp only [scanDigits]
    split_ifs
    · simp only [List.length_cons]; omega
    · simp

theorem scanInt_length (l a b : List Nat) (h : scanInt l = some (a, b)) :
    b.length < l.length := by
  cases l with
  | nil => simp [scanInt] at h
  | cons c rest =>
    simp only [scanInt] at h
    split_ifs at h
    · simp only [Option.some.injEq, Prod.mk.injEq] at h
      rw [← h.2]; simp
    · simp only [Option.some.injEq, Prod.mk.injEq] at h
      have := scanDigits_length rest
      rw [← h.2]; simp only [List.length_cons]; omega

theorem scanFrac_length (l a b : List Nat) (h : scanFrac l = some (a, b)) :
    b.length ≤ l.length := by
  cases l with
  | nil => simp only [scanFrac, Option.some.injEq, Prod.mk.injEq] at h; rw [← h.2]
  | cons c rest =>
    simp only [scanFrac] at h
    split_ifs at h
    · have := scanDigits_length rest
      rcases hs : scanDigits rest with ⟨ds, r⟩
      rw [hs] at h this
      cases ds with
      | nil => simp at h
      | cons d ds =>
        simp only [Option.some.injEq, Prod.mk.injEq] at h
        rw [← h.2]; simp only [List.length_cons]
        simp only at this; omega
    · simp only [Option.some.injEq, Prod.mk.injEq] at h
      rw [← h.2]

theorem scanExp_length (l a b : List Nat) (h : scanExp l = some (a, b)) :
    b.length ≤ l.length := by
  cases l with
  | nil => simp only [scanExp, Option.some.injEq, Prod.mk.injEq] at h; rw [← h.2]
  | cons c rest =>
    simp only [scanExp] at h
    split_ifs at h
    · cases rest with
      | nil => simp at h
      | cons sgn rest1 =>
        simp only at h
        split_ifs at h
        · have := scanDigits_length rest1
          rcases hs : scanDigits rest1 with ⟨ds, r⟩
          rw [hs] at h this
          cases ds with
          | nil => simp at h
          | cons d ds =>
            simp only [Option.some.injEq, Prod.mk.injEq] at h
            rw [← h.2]; simp only [List.length_cons]
            simp only at this; omega
        · have := scanDigits_length (sgn :: rest1)
          rcases hs : scanDigits (sgn :: rest1) with ⟨ds, r⟩
          rw [hs] at h this
          cases ds with
          | nil => simp at h
          | cons d ds =>
            simp only [Option.some.injEq, Prod.mk.injEq] at h
            rw [← h.2]; simp only [List.length_cons] at this ⊢
            omega
    · simp only [Option.some.injEq, Prod.mk.injEq] at h
      rw [← h.2]

theorem scanUnsigned_length (l a b : List Nat) (h : scanUnsigned l = some (a, b)) :
    b.length < l.length := by
  unfold scanUnsigned at h
  cases h1 : scanInt l with
  | none => rw [h1] at h; cases h
  | some p1 =>
    obtain ⟨i, r1⟩ := p1
    rw [h1] at h
    simp only at h
    cases h2 : scanFrac r1 with
    | none => rw [h2] at h; cases h
    | some p2 =>
      obtain ⟨f, r2⟩ := p2
      rw [h2] at h
      simp only at h
      cases h3 : scanExp r2 with
      | none => rw [h3] at h; cases h
      | some p3 =>
        obtain ⟨e, r3⟩ := p3
        rw [h3] at h
        simp only [Option.some.injEq, Prod.mk.injEq] at h
        have := scanInt_length l i r1 h1
        have := scanFrac_length r1 f r2 h2
        have := scanExp_length r2 e r3 h3
        rw [← h.2]; omega

theorem scanNumber_length (l a b : List Nat) (h : scanNumber l = some (a, b)) :
    b.length < l.length := by
  cases l with
  | nil => simp [scanNumber] at h
  | cons c rest =>
    simp only [scanNumber] at h
    split_ifs at h
    · cases hu : scanUnsigned rest with
      | none => rw [hu] at h; cases h
      | some p =>
        obtain ⟨t, r⟩ := p
        rw [hu] at h
        simp only [Option.some.injEq, Prod.mk.injEq] at h
        have := scanUnsigned_length rest t r hu
        rw [← h.2]; simp only [List.length_cons]; omega
    · exact scanUnsigned_length _ a b h

theorem parseValue_zero [JSNumber ν] (input : List Nat) :
    parseValue (ν := ν) 0 input = none := by
  rw [parseValue]

theorem parseValue_nil [JSNumber ν] (fuel : Nat) :
    parseValue (ν := ν) (fuel + 1) [] = none := by
  rw [parseValue]

theorem parseElements_zero [JSNumber ν] (input : List Nat) :
    parseElements (ν := ν) 0 input = none := by
  rw [parseElements]

theorem parseMembers_zero [JSNumber ν] (input : List Nat) :
    parseMembers (ν := ν) 0 input = none := by
  rw [parseMembers]

theorem parseMembers_nil [JSNumber ν] (fuel : Nat) :
    parseMembers (ν := ν) (fuel + 1) [] = none := by
  rw [parseMembers]

theorem parseMembers_other [JSNumber ν] (fuel : Nat) (q : Nat) (rest : List Nat)
    (hq : q ≠ 0x22) : parseMembers (ν := ν) (fuel + 1) (q :: rest) = none := by
  rw [parseMembers]; simp only [hq, ↓reduceIte]

/-- A successful read consumes input, and every larger amount of fuel, from
twice the length of the input on, gives the same result. -/
theorem fuel_adequate [JSNumber ν] (fuel : Nat) :
    (∀ (input : List Nat) (v : JSValue ν) (r : List Nat),
        parseValue fuel input = some (v, r) →
        r.length < input.length
          ∧ ∀ f, 2 * input.length + 1 ≤ f → parseValue f input = some (v, r))
    ∧ (∀ (input : List Nat) (vs : List (JSValue ν)) (r : List Nat),
        parseElements fuel input = some (vs, r) →
        r.length < input.length
          ∧ ∀ f, 2 * input.length + 2 ≤ f → parseElements f input = some (vs, r))
    ∧ (∀ (input : List Nat) (ms : List (JSString × JSValue ν)) (r : List Nat),
        parseMembers fuel input = some (ms, r) →
        r.length < input.length
          ∧ ∀ f, 2 * input.length + 2 ≤ f → parseMembers f input = some (ms, r)) := by
  induction fuel with
  | zero =>
    refine ⟨?_, ?_, ?_⟩
    · intro input v r h; rw [parseValue_zero] at h; cases h
    · intro input vs r h; rw [parseElements_zero] at h; cases h
    · intro input ms r h; rw [parseMembers_zero] at h; cases h
  | succ fuel ih =>
    obtain ⟨ihV, ihE, ihM⟩ := ih
    refine ⟨?_, ?_, ?_⟩
    · -- values
      intro input v r h
      cases input with
      | nil => rw [parseValue_nil] at h; cases h
      | cons c rest =>
        by_cases hA : c = 0x5B
        · subst hA
          rw [parseValue_array] at h
          have hlen := skipWs_length rest
          cases hsk : skipWs rest with
          | nil => rw [hsk] at h; cases h
          | cons d r1 =>
            rw [hsk] at h hlen
            simp only [List.length_cons] at hlen
            simp only at h
            split_ifs at h with hd
            · simp only [Option.some.injEq, Prod.mk.injEq] at h
              obtain ⟨hv, hr⟩ := h
              subst hv hr
              refine ⟨by simp only [List.length_cons]; omega, fun f hf => ?_⟩
              obtain ⟨g, rfl⟩ : ∃ g, f = g + 1 := ⟨f - 1, by omega⟩
              rw [parseValue_array (ν := ν), hsk]
              simp only [hd, ↓reduceIte]
            · cases hpe : parseElements (ν := ν) fuel (d :: r1) with
              | none => rw [hpe] at h; cases h
              | some p =>
                obtain ⟨items, r2⟩ := p
                rw [hpe] at h
                simp only [Option.some.injEq, Prod.mk.injEq] at h
                obtain ⟨hv, hr⟩ := h
                subst hv hr
                obtain ⟨hl, hst⟩ := ihE (d :: r1) items r2 hpe
                simp only [List.length_cons] at hl hst
                refine ⟨by simp only [List.length_cons]; omega, fun f hf => ?_⟩
                simp only [List.length_cons] at hf
                obtain ⟨g, rfl⟩ : ∃ g, f = g + 1 := ⟨f - 1, by omega⟩
                rw [parseValue_array (ν := ν), hsk]
                simp only [hd, ↓reduceIte, hst g (by omega)]
        · by_cases hO : c = 0x7B
          · subst hO
            rw [parseValue_object] at h
            have hlen := skipWs_length rest
            cases hsk : skipWs rest with
            | nil => rw [hsk] at h; cases h
            | cons d r1 =>
              rw [hsk] at h hlen
              simp only [List.length_cons] at hlen
              simp only at h
              split_ifs at h with hd
              · simp only [Option.some.injEq, Prod.mk.injEq] at h
                obtain ⟨hv, hr⟩ := h
                subst hv hr
                refine ⟨by simp only [List.length_cons]; omega, fun f hf => ?_⟩
                obtain ⟨g, rfl⟩ : ∃ g, f = g + 1 := ⟨f - 1, by omega⟩
                rw [parseValue_object (ν := ν), hsk]
                simp only [hd, ↓reduceIte]
              · cases hpe : parseMembers (ν := ν) fuel (d :: r1) with
                | none => rw [hpe] at h; cases h
                | some p =>
                  obtain ⟨ms, r2⟩ := p
                  rw [hpe] at h
                  simp only [Option.some.injEq, Prod.mk.injEq] at h
                  obtain ⟨hv, hr⟩ := h
                  subst hv hr
                  obtain ⟨hl, hst⟩ := ihM (d :: r1) ms r2 hpe
                  simp only [List.length_cons] at hl hst
                  refine ⟨by simp only [List.length_cons]; omega, fun f hf => ?_⟩
                  simp only [List.length_cons] at hf
                  obtain ⟨g, rfl⟩ : ∃ g, f = g + 1 := ⟨f - 1, by omega⟩
                  rw [parseValue_object (ν := ν), hsk]
                  simp only [hd, ↓reduceIte, hst g (by omega)]
          · have hsame : ∀ g, parseValue (ν := ν) (g + 1) (c :: rest)
                = parseValue (fuel + 1) (c :: rest) := by
              intro g
              rw [parseValue_cons, parseValue_cons]
              simp only [hA, hO, ↓reduceIte]
            refine ⟨?_, fun f hf => ?_⟩
            · rw [parseValue_cons] at h
              simp only [hA, hO, ↓reduceIte] at h
              split_ifs at h
              · cases hp : parseStringBody rest with
                | none => rw [hp] at h; cases h
                | some p =>
                  obtain ⟨s1, r1⟩ := p
                  rw [hp] at h
                  simp only [Option.some.injEq, Prod.mk.injEq] at h
                  have := parseStringBody_length rest s1 r1 hp
                  rw [← h.2]; simp only [List.length_cons]; omega
              · cases hp : dropLiteral [0x75, 0x6C, 0x6C] rest with
                | none => rw [hp] at h; cases h
                | some r1 =>
                  rw [hp] at h
                  simp only [Option.some.injEq, Prod.mk.injEq] at h
                  have := dropLiteral_length _ rest r1 hp
                  rw [← h.2]; simp only [List.length_cons]; omega
              · cases hp : dropLiteral [0x72, 0x75, 0x65] rest with
                | none => rw [hp] at h; cases h
                | some r1 =>
                  rw [hp] at h
                  simp only [Option.some.injEq, Prod.mk.injEq] at h
                  have := dropLiteral_length _ rest r1 hp
                  rw [← h.2]; simp only [List.length_cons]; omega
              · cases hp : dropLiteral [0x61, 0x6C, 0x73, 0x65] rest with
                | none => rw [hp] at h; cases h
                | some r1 =>
                  rw [hp] at h
                  simp only [Option.some.injEq, Prod.mk.injEq] at h
                  have := dropLiteral_length _ rest r1 hp
                  rw [← h.2]; simp only [List.length_cons]; omega
              · cases hp : scanNumber (c :: rest) with
                | none => rw [hp] at h; cases h
                | some p =>
                  obtain ⟨t, r1⟩ := p
                  rw [hp] at h
                  simp only [Option.some.injEq, Prod.mk.injEq] at h
                  have := scanNumber_length _ t r1 hp
                  rw [← h.2]; exact this
            · obtain ⟨g, rfl⟩ : ∃ g, f = g + 1 := ⟨f - 1, by omega⟩
              rw [hsame g]; exact h
    · -- array elements
      intro input vs r h
      rw [parseElements_succ] at h
      cases hv : parseValue (ν := ν) fuel input with
      | none => rw [hv] at h; cases h
      | some p =>
        obtain ⟨v, r0⟩ := p
        rw [hv] at h
        simp only at h
        obtain ⟨hl0, hst0⟩ := ihV input v r0 hv
        cases hsk : skipWs r0 with
        | nil => rw [hsk] at h; cases h
        | cons d r1 =>
          have hlen := skipWs_length r0
          rw [hsk] at h hlen
          simp only [List.length_cons] at hlen
          simp only at h
          split_ifs at h with h1 h2
          · cases hpe : parseElements (ν := ν) fuel (skipWs r1) with
            | none => rw [hpe] at h; cases h
            | some p =>
              obtain ⟨vs1, r2⟩ := p
              rw [hpe] at h
              simp only [Option.some.injEq, Prod.mk.injEq] at h
              obtain ⟨hvs, hr⟩ := h
              subst hvs hr
              obtain ⟨hl, hst⟩ := ihE (skipWs r1) vs1 r2 hpe
              have hlen1 := skipWs_length r1
              refine ⟨by omega, fun f hf => ?_⟩
              obtain ⟨g, rfl⟩ : ∃ g, f = g + 1 := ⟨f - 1, by omega⟩
              rw [parseElements_succ, hst0 g (by omega)]
              simp only [hsk, h1, ↓reduceIte, hst g (by omega)]
          · simp only [Option.some.injEq, Prod.mk.injEq] at h
            obtain ⟨hvs, hr⟩ := h
            subst hvs hr
            refine ⟨by omega, fun f hf => ?_⟩
            obtain ⟨g, rfl⟩ : ∃ g, f = g + 1 := ⟨f - 1, by omega⟩
            rw [parseElements_succ, hst0 g (by omega)]
            subst h2
            simp [hsk]
    · -- object members
      intro input ms r h
      cases input with
      | nil => rw [parseMembers_nil] at h; cases h
      | cons q rest =>
        by_cases hq : q = 0x22
        · subst hq
          rw [parseMembers_succ] at h
          cases hk : parseStringBody rest with
          | none => rw [hk] at h; cases h
          | some p =>
            obtain ⟨k, r0⟩ := p
            rw [hk] at h
            simp only at h
            have hl0 := parseStringBody_length rest k r0 hk
            cases hsk : skipWs r0 with
            | nil => rw [hsk] at h; cases h
            | cons colon r1 =>
              have hlen := skipWs_length r0
              rw [hsk] at h hlen
              simp only [List.length_cons] at hlen
              simp only at h
              split_ifs at h with hc
              have hlen1 := skipWs_length r1
              cases hv : parseValue (ν := ν) fuel (skipWs r1) with
              | none => rw [hv] at h; cases h
              | some p =>
                obtain ⟨v, r2⟩ := p
                rw [hv] at h
                simp only at h
                obtain ⟨hl2, hst2⟩ := ihV (skipWs r1) v r2 hv
                cases hsk2 : skipWs r2 with
                | nil => rw [hsk2] at h; cases h
                | cons d r3 =>
                  have hlen2 := skipWs_length r2
                  rw [hsk2] at h hlen2
                  simp only [List.length_cons] at hlen2
                  simp only at h
                  split_ifs at h with h1 h2
                  · cases hpm : parseMembers (ν := ν) fuel (skipWs r3) with
                    | none => rw [hpm] at h; cases h
                    | some p =>
                      obtain ⟨ms1, r4⟩ := p
                      rw [hpm] at h
                      simp only [Option.some.injEq, Prod.mk.injEq] at h
                      obtain ⟨hms, hr⟩ := h
                      subst hms hr
                      obtain ⟨hl4, hst4⟩ := ihM (skipWs r3) ms1 r4 hpm
                      have hlen3 := skipWs_length r3
                      refine ⟨by simp only [List.length_cons]; omega, fun f hf => ?_⟩
                      simp only [List.length_cons] at hf
                      obtain ⟨g, rfl⟩ : ∃ g, f = g + 1 := ⟨f - 1, by omega⟩
                      rw [parseMembers_succ, hk]
                      simp only [hsk, hc, ↓reduceIte, hst2 g (by omega), hsk2, h1,
                        hst4 g (by omega)]
                  · simp only [Option.some.injEq, Prod.mk.injEq] at h
                    obtain ⟨hms, hr⟩ := h
                    subst hms hr
                    refine ⟨by simp only [List.length_cons]; omega, fun f hf => ?_⟩
                    simp only [List.length_cons] at hf
                    obtain ⟨g, rfl⟩ : ∃ g, f = g + 1 := ⟨f - 1, by omega⟩
                    rw [parseMembers_succ, hk]
                    subst h2
                    simp [hsk, hc, hst2 g (by omega), hsk2]
        · rw [parseMembers_other fuel q rest hq] at h; cases h

/-- If the reader accepts a text with any amount of fuel, `JSON.parse` accepts
it with the same value: the fuel that `JSON.parse` provides is enough. -/
theorem parse_of_fuel [JSNumber ν] (text : JSString) (fuel : Nat) (v : JSValue ν)
    (r : List Nat) (h : parseValue fuel (skipWs text) = some (v, r)) (hr : skipWs r = []) :
    parse text = some v := by
  obtain ⟨-, hst⟩ := (fuel_adequate fuel).1 (skipWs text) v r h
  have hlen := skipWs_length text
  unfold parse
  rw [hst (2 * text.length + 2) (by omega)]
  simp only [hr, ↓reduceIte]

theorem compact_head [JSNumber ν] (v : JSValue ν) (hv : transportable v) :
    ∃ t, compactProperty v = some t ∧ headIs startsValue t = true := by
  cases v with
  | undefined => simp [transportable] at hv
  | null => exact ⟨utf16 "null", by simp only [compactProperty], by rw [utf16_null]; rfl⟩
  | bool b =>
    cases b
    · exact ⟨utf16 "false", by simp only [compactProperty], by rw [utf16_false]; rfl⟩
    · exact ⟨utf16 "true", by simp only [compactProperty], by rw [utf16_true]; rfl⟩
  | number n =>
    simp only [transportable, numberSurvives] at hv
    refine ⟨JSNumber.toString n, by simp only [compactProperty, hv.1, ↓reduceIte], ?_⟩
    cases ht : JSNumber.toString n with
    | nil => rw [ht] at hv; simp [scanNumber] at hv
    | cons x xs =>
      have := scanNumber_head x xs _ _ (ht ▸ hv.2.1)
      rcases this with h | h
      · subst h; rfl
      · simp only [isDigit, Bool.and_eq_true, decide_eq_true_eq] at h
        simp only [headIs, startsValue, isWs, Bool.and_eq_true, Bool.not_eq_true',
          Bool.or_eq_false_iff, decide_eq_false_iff_not, bne_iff_ne, ne_eq]
        omega
  | string s => exact ⟨quote s, by simp only [compactProperty], rfl⟩
  | array items =>
    exact ⟨[0x5B] ++ JSValue.joinWith [0x2C] (compactItems items) ++ [0x5D],
      by simp only [compactProperty],
      by simp only [List.singleton_append, List.cons_append]; rfl⟩
  | object fields =>
    exact ⟨[0x7B] ++ JSValue.joinWith [0x2C] (compactFields fields) ++ [0x7D],
      by simp only [compactProperty],
      by simp only [List.singleton_append, List.cons_append]; rfl⟩

theorem compactItems_cons [JSNumber ν] (v : JSValue ν) (rest : List (JSValue ν))
    (t : JSString) (ht : compactProperty v = some t) :
    compactItems (v :: rest) = t :: compactItems rest := by
  simp only [compactItems, ht]

theorem compactFields_cons [JSNumber ν] (k : JSString) (v : JSValue ν)
    (rest : List (JSString × JSValue ν)) (t : JSString) (ht : compactProperty v = some t) :
    compactFields ((k, v) :: rest) = (quote k ++ [0x3A] ++ t) :: compactFields rest := by
  simp only [compactFields, ht]

mutual
theorem parseValue_compact [JSNumber ν] :
    ∀ (v : JSValue ν), transportable v →
      ∀ (t : JSString), compactProperty v = some t →
      ∀ (rest : List Nat) (fuel : Nat), restStops rest = true →
        2 * (t ++ rest).length + 1 ≤ fuel → parseValue fuel (t ++ rest) = some (v, rest)
  | .undefined, hv, _, _, _, _, _, _ => by simp [transportable] at hv
  | .null, _, t, ht, rest, fuel, _, hfuel => by
    simp only [compactProperty, Option.some.injEq] at ht
    subst ht
    obtain ⟨f, rfl⟩ : ∃ f, fuel = f + 1 := ⟨fuel - 1, by omega⟩
    rw [utf16_null]
    exact parseValue_null f rest
  | .bool true, _, t, ht, rest, fuel, _, hfuel => by
    simp only [compactProperty, Option.some.injEq] at ht
    subst ht
    obtain ⟨f, rfl⟩ : ∃ f, fuel = f + 1 := ⟨fuel - 1, by omega⟩
    rw [utf16_true]
    exact parseValue_true f rest
  | .bool false, _, t, ht, rest, fuel, _, hfuel => by
    simp only [compactProperty, Option.some.injEq] at ht
    subst ht
    obtain ⟨f, rfl⟩ : ∃ f, fuel = f + 1 := ⟨fuel - 1, by omega⟩
    rw [utf16_false]
    exact parseValue_false f rest
  | .number n, hv, t, ht, rest, fuel, hrest, hfuel => by
    simp only [transportable, numberSurvives] at hv
    simp only [compactProperty, hv.1, ↓reduceIte, Option.some.injEq] at ht
    subst ht
    obtain ⟨f, rfl⟩ : ∃ f, fuel = f + 1 := ⟨fuel - 1, by omega⟩
    cases htok : JSNumber.toString n with
    | nil => rw [htok] at hv; simp [scanNumber] at hv
    | cons x xs =>
      have hscan := hv.2.1
      rw [htok] at hscan
      have hx := scanNumber_head x xs _ _ hscan
      have hwhole : scanNumber ((x :: xs) ++ rest) = some (x :: xs, rest) := by
        cases rest with
        | nil => simpa using hscan
        | cons c tail =>
          rw [scanNumber_append (x :: xs) c tail hrest (by simp), hscan]
          rfl
      rw [List.cons_append, parseValue_number f x (xs ++ rest) hx, ← List.cons_append, hwhole]
      simp only [Option.some.injEq, Prod.mk.injEq, JSValue.number.injEq, and_true]
      rw [← htok]; exact hv.2.2
  | .string s, _, t, ht, rest, fuel, _, hfuel => by
    simp only [compactProperty, Option.some.injEq] at ht
    subst ht
    obtain ⟨f, rfl⟩ : ∃ f, fuel = f + 1 := ⟨fuel - 1, by omega⟩
    simp only [quote, List.append_assoc, List.singleton_append, List.cons_append,
      List.nil_append]
    rw [parseValue_string, parseStringBody_quote]
  | .array [], _, t, ht, rest, fuel, _, hfuel => by
    simp only [compactProperty, compactItems, JSValue.joinWith, Option.some.injEq] at ht
    subst ht
    obtain ⟨f, rfl⟩ : ∃ f, fuel = f + 1 := ⟨fuel - 1, by omega⟩
    simp only [List.cons_append, List.nil_append, List.append_nil]
    rw [parseValue_array, skipWs_head _ _ (by decide)]
    simp
  | .array (v :: items), hv, t, ht, rest, fuel, _, hfuel => by
    simp only [transportable] at hv
    have hv1 : transportable v := by
      simp only [transportableItems] at hv; exact hv.1
    obtain ⟨t1, ht1, hh1⟩ := compact_head v hv1
    obtain ⟨c, r, hc, hsv⟩ := headIs_cons hh1
    have hcs := startsValue_not_ws hsv
    rw [compactProperty, compactItems_cons _ _ _ ht1] at ht
    simp only [Option.some.injEq] at ht
    subst ht
    obtain ⟨f, rfl⟩ : ∃ f, fuel = f + 1 := ⟨fuel - 1, by omega⟩
    have hitems := parseElements_compact (v :: items) hv (by simp) rest f
    rw [compactItems_cons _ _ _ ht1] at hitems
    have hstart : ∃ tail, JSValue.joinWith [0x2C] (t1 :: compactItems items) ++ (0x5D :: rest)
        = c :: tail := by
      cases compactItems items with
      | nil => exact ⟨_, by rw [joinWith_single, hc]; rfl⟩
      | cons t2 more => exact ⟨_, by rw [joinWith_cons_cons, hc]; rfl⟩
    obtain ⟨tail, htail⟩ := hstart
    have heq : ([0x5B] ++ JSValue.joinWith [0x2C] (t1 :: compactItems items) ++ [0x5D]) ++ rest
        = 0x5B :: (c :: tail) := by
      rw [← htail]; simp
    rw [heq] at hfuel ⊢
    rw [parseValue_array, skipWs_head c tail hcs.1]
    simp only [hcs.2.1, ↓reduceIte]
    rw [← htail, hitems]
    rw [htail]
    simp only [List.length_cons, List.length_append] at hfuel ⊢
    omega
  | .object [], _, t, ht, rest, fuel, _, hfuel => by
    simp only [compactProperty, compactFields, JSValue.joinWith, Option.some.injEq] at ht
    subst ht
    obtain ⟨f, rfl⟩ : ∃ f, fuel = f + 1 := ⟨fuel - 1, by omega⟩
    simp only [List.cons_append, List.nil_append, List.append_nil]
    rw [parseValue_object, skipWs_head _ _ (by decide)]
    simp
  | .object ((k, v) :: fields), hv, t, ht, rest, fuel, _, hfuel => by
    simp only [transportable] at hv
    have hv1 : transportable v := by
      have := hv.2
      simp only [transportableFields] at this; exact this.1
    obtain ⟨t1, ht1, -⟩ := compact_head v hv1
    rw [compactProperty, compactFields_cons _ _ _ _ ht1] at ht
    simp only [Option.some.injEq] at ht
    subst ht
    obtain ⟨f, rfl⟩ : ∃ f, fuel = f + 1 := ⟨fuel - 1, by omega⟩
    have hmembers := parseMembers_compact ((k, v) :: fields) hv.2 (by simp) rest f
    rw [compactFields_cons _ _ _ _ ht1] at hmembers
    have hstart : ∃ tail, JSValue.joinWith [0x2C]
          ((quote k ++ [0x3A] ++ t1) :: compactFields fields) ++ (0x7D :: rest)
        = 0x22 :: tail := by
      cases compactFields fields with
      | nil => exact ⟨_, by rw [joinWith_single]; rfl⟩
      | cons t2 more => exact ⟨_, by rw [joinWith_cons_cons]; rfl⟩
    obtain ⟨tail, htail⟩ := hstart
    have heq : ([0x7B] ++ JSValue.joinWith [0x2C]
            ((quote k ++ [0x3A] ++ t1) :: compactFields fields) ++ [0x7D]) ++ rest
        = 0x7B :: (0x22 :: tail) := by
      rw [← htail]; simp
    rw [heq] at hfuel ⊢
    rw [parseValue_object, skipWs_head 0x22 tail (by decide)]
    simp only [Nat.reduceEqDiff, ↓reduceIte]
    rw [← htail, hmembers]
    · simp only [Option.some.injEq, Prod.mk.injEq, and_true]
      exact objectOfMembers_enumerated _ hv.1
    · rw [htail]
      simp only [List.length_cons, List.length_append] at hfuel ⊢
      omega
theorem parseElements_compact [JSNumber ν] :
    ∀ (items : List (JSValue ν)), transportableItems items → items ≠ [] →
      ∀ (rest : List Nat) (fuel : Nat),
        2 * (JSValue.joinWith [0x2C] (compactItems items) ++ (0x5D :: rest)).length + 2 ≤ fuel →
        parseElements fuel (JSValue.joinWith [0x2C] (compactItems items) ++ (0x5D :: rest))
          = some (items, rest)
  | [], _, hne, _, _, _ => absurd rfl hne
  | [v], hv, _, rest, fuel, hfuel => by
    simp only [transportableItems, and_true] at hv
    obtain ⟨t1, ht1, -⟩ := compact_head v hv
    rw [compactItems_cons _ _ _ ht1] at hfuel ⊢
    simp only [compactItems, joinWith_single] at hfuel ⊢
    obtain ⟨f, rfl⟩ : ∃ f, fuel = f + 1 := ⟨fuel - 1, by omega⟩
    rw [parseElements_succ,
      parseValue_compact v hv t1 ht1 (0x5D :: rest) f (by rfl) (by omega)]
    simp only [skipWs_head 0x5D rest (by decide), Nat.reduceEqDiff, ↓reduceIte]
  | v :: w :: items, hv, _, rest, fuel, hfuel => by
    simp only [transportableItems] at hv
    obtain ⟨t1, ht1, -⟩ := compact_head v hv.1
    obtain ⟨t2, ht2, hh2⟩ := compact_head w hv.2.1
    obtain ⟨c, r, hc, hsv⟩ := headIs_cons hh2
    have hcs := startsValue_not_ws hsv
    have hitems := parseElements_compact (w :: items)
      (by simp only [transportableItems]; exact hv.2) (by simp) rest
    rw [compactItems_cons _ _ _ ht1] at hfuel ⊢
    rw [compactItems_cons _ _ _ ht2] at hfuel hitems ⊢
    rw [joinWith_cons_cons] at hfuel ⊢
    obtain ⟨f, rfl⟩ : ∃ f, fuel = f + 1 := ⟨fuel - 1, by omega⟩
    have hstart : ∃ tail, JSValue.joinWith [0x2C] (t2 :: compactItems items) ++ (0x5D :: rest)
        = c :: tail := by
      cases compactItems items with
      | nil => exact ⟨_, by rw [joinWith_single, hc]; rfl⟩
      | cons t3 more => exact ⟨_, by rw [joinWith_cons_cons, hc]; rfl⟩
    obtain ⟨tail, htail⟩ := hstart
    have heq : t1 ++ [0x2C] ++ JSValue.joinWith [0x2C] (t2 :: compactItems items)
          ++ (0x5D :: rest)
        = t1 ++ (0x2C :: (c :: tail)) := by
      rw [← htail]; simp
    rw [heq] at hfuel ⊢
    rw [parseElements_succ,
      parseValue_compact v hv.1 t1 ht1 (0x2C :: (c :: tail)) f (by rfl) (by omega)]
    simp only [skipWs_head 0x2C _ (by decide), ↓reduceIte, skipWs_head c tail hcs.1]
    rw [← htail, hitems f]
    rw [htail]
    simp only [List.length_cons, List.length_append] at hfuel ⊢
    omega
theorem parseMembers_compact [JSNumber ν] :
    ∀ (fields : List (JSString × JSValue ν)), transportableFields fields → fields ≠ [] →
      ∀ (rest : List Nat) (fuel : Nat),
        2 * (JSValue.joinWith [0x2C] (compactFields fields) ++ (0x7D :: rest)).length + 2 ≤ fuel →
        parseMembers fuel (JSValue.joinWith [0x2C] (compactFields fields) ++ (0x7D :: rest))
          = some (fields, rest)
  | [], _, hne, _, _, _ => absurd rfl hne
  | [(k, v)], hv, _, rest, fuel, hfuel => by
    simp only [transportableFields, and_true] at hv
    obtain ⟨t1, ht1, hh1⟩ := compact_head v hv
    obtain ⟨c, r, hc, hsv⟩ := headIs_cons hh1
    have hcs := startsValue_not_ws hsv
    rw [compactFields_cons _ _ _ _ ht1] at hfuel ⊢
    simp only [compactFields, joinWith_single] at hfuel ⊢
    obtain ⟨f, rfl⟩ : ∃ f, fuel = f + 1 := ⟨fuel - 1, by omega⟩
    have heq : quote k ++ [0x3A] ++ t1 ++ (0x7D :: rest)
        = 0x22 :: (quoteUnits false k ++ 0x22 :: 0x3A :: (t1 ++ (0x7D :: rest))) := by
      simp [quote]
    rw [heq] at hfuel ⊢
    rw [parseMembers_succ, parseStringBody_quote]
    simp only [skipWs_head 0x3A _ (by decide), ↓reduceIte]
    have hskip1 : skipWs (t1 ++ (0x7D :: rest)) = t1 ++ (0x7D :: rest) := by
      rw [hc, List.cons_append, skipWs_head c _ hcs.1]
    rw [hskip1,
      parseValue_compact v hv t1 ht1 (0x7D :: rest) f (by rfl)
        (by simp only [List.length_cons, List.length_append] at hfuel ⊢; omega)]
    simp only [skipWs_head 0x7D rest (by decide), Nat.reduceEqDiff, ↓reduceIte]
  | (k, v) :: (k2, w) :: fields, hv, _, rest, fuel, hfuel => by
    simp only [transportableFields] at hv
    obtain ⟨t1, ht1, hh1⟩ := compact_head v hv.1
    obtain ⟨c, r, hc, hsv⟩ := headIs_cons hh1
    have hcs := startsValue_not_ws hsv
    obtain ⟨t2, ht2, -⟩ := compact_head w hv.2.1
    have hmembers := parseMembers_compact ((k2, w) :: fields)
      (by simp only [transportableFields]; exact hv.2) (by simp) rest
    rw [compactFields_cons _ _ _ _ ht1] at hfuel ⊢
    rw [compactFields_cons _ _ _ _ ht2] at hfuel hmembers ⊢
    rw [joinWith_cons_cons] at hfuel ⊢
    obtain ⟨f, rfl⟩ : ∃ f, fuel = f + 1 := ⟨fuel - 1, by omega⟩
    have hstart : ∃ tail, JSValue.joinWith [0x2C]
          ((quote k2 ++ [0x3A] ++ t2) :: compactFields fields) ++ (0x7D :: rest)
        = 0x22 :: tail := by
      cases compactFields fields with
      | nil => exact ⟨_, by rw [joinWith_single]; rfl⟩
      | cons t3 more => exact ⟨_, by rw [joinWith_cons_cons]; rfl⟩
    obtain ⟨tail, htail⟩ := hstart
    have heq : quote k ++ [0x3A] ++ t1 ++ [0x2C]
          ++ JSValue.joinWith [0x2C] ((quote k2 ++ [0x3A] ++ t2) :: compactFields fields)
          ++ (0x7D :: rest)
        = 0x22 :: (quoteUnits false k ++ 0x22 :: 0x3A :: (t1 ++ (0x2C :: (0x22 :: tail)))) := by
      rw [← htail]; simp [quote]
    rw [heq] at hfuel ⊢
    rw [parseMembers_succ, parseStringBody_quote]
    simp only [skipWs_head 0x3A _ (by decide), ↓reduceIte]
    have hskip1 : skipWs (t1 ++ (0x2C :: (0x22 :: tail))) = t1 ++ (0x2C :: (0x22 :: tail)) := by
      rw [hc, List.cons_append, skipWs_head c _ hcs.1]
    rw [hskip1,
      parseValue_compact v hv.1 t1 ht1 (0x2C :: (0x22 :: tail)) f (by rfl)
        (by simp only [List.length_cons, List.length_append] at hfuel ⊢; omega)]
    simp only [skipWs_head 0x2C _ (by decide), ↓reduceIte, skipWs_head 0x22 tail (by decide)]
    rw [← htail, hmembers f]
    rw [htail]
    simp only [List.length_cons, List.length_append] at hfuel ⊢
    omega
end

/-- `JSON.parse(JSON.stringify(v))` is `v` for every transportable value `v`. -/
theorem parse_stringifyCompact [JSNumber ν] (v : JSValue ν) (hv : transportable v) :
    ∃ t, stringifyCompact v = some t ∧ parse t = some v := by
  obtain ⟨t, ht, hh⟩ := compact_head v hv
  obtain ⟨c, r, hc, hsv⟩ := headIs_cons hh
  have hcs := startsValue_not_ws hsv
  refine ⟨t, ht, ?_⟩
  have hp := parseValue_compact v hv t ht [] (2 * t.length + 2) rfl (by simp)
  rw [List.append_nil] at hp
  unfold parse
  have hskip : skipWs t = t := by
    rw [hc]; exact skipWs_head c r hcs.1
  rw [hskip, hp]
  simp [skipWs]

end JSON

variable {ν : Type}

/-! ## The handlers -/

theorem toBoolean_of_isMissing [JSNumber ν] {v : JSValue ν} (h : isMissing v) :
    v.toBoolean = false := by
  rcases h with h | h | h <;> subst h <;> rfl

theorem or_of_isMissing [JSNumber ν] {v w : JSValue ν} (h : isMissing v) : v.or w = w := by
  simp [JSValue.or, toBoolean_of_isMissing h]

theorem toBoolean_str_empty [JSNumber ν] : (JSValue.str "" : JSValue ν).toBoolean = false := rfl

theorem handle_bodyless [JSNumber ν] [StackLimit] (ep : Endpoint) (ai : GenAI ν)
    (req : Request ν) (h : req.body = none) :
    handle ep ai req = serverError ep (bodyUndefined ep) [] [] := by
  cases ep <;> simp only [handle, parseHandler, planHandler, questionsHandler, trackerHandler, h]

theorem field_bodyless (req : Request ν) (key : String) (h : req.body = none) :
    req.field key = .undefined := by
  simp only [Request.field, h]

theorem body_of_truthy [JSNumber ν] (req : Request ν) (key : String)
    (h : (req.field key).toBoolean = true) : ∃ fields, req.body = some fields := by
  cases hb : req.body with
  | none => rw [field_bodyless req key hb] at h; cases h
  | some fields => exact ⟨fields, rfl⟩

theorem guard_rejects [JSNumber ν] [StackLimit] (ep : Endpoint) (ai : GenAI ν)
    (req : Request ν) (fields : List (JSString × JSValue ν)) (hbody : req.body = some fields)
    (h : missingRequired ep req) :
    (handle ep ai req).response.status = 400 ∧ (handle ep ai req).calls = [] := by
  cases ep
  · obtain ⟨ht, hf⟩ := h
    simp [handle, parseHandler, hbody, hf, readUpload, or_of_isMissing ht, toBoolean_str_empty,
      pdfPresent, badRequest]
  · have hb : (!(req.field "syllabus").toBoolean || !(req.field "startDate").toBoolean
        || !(req.field "examDate").toBoolean || !(req.field "hoursPerWeek").toBoolean)
        = true := by
      rcases h with h | h | h | h <;> simp [toBoolean_of_isMissing h]
    simp only [handle, planHandler, hbody, hb]
    simp [badRequest]
  · simp [handle, questionsHandler, hbody, toBoolean_of_isMissing h, badRequest]
  · simp [handle, trackerHandler, hbody, toBoolean_of_isMissing h, badRequest]

theorem handle_cases [JSNumber ν] [StackLimit] (ep : Endpoint) (ai : GenAI ν) (req : Request ν) :
    handle ep ai req = badRequest ep
      ∨ (∃ err, handle ep ai req = serverError ep err [] [])
      ∨ (∃ contents schema, handle ep ai req = callAndRespond ep ai contents schema) := by
  cases hbody : req.body with
  | none => exact Or.inr (Or.inl ⟨_, handle_bodyless ep ai req hbody⟩)
  | some fields =>
    cases ep
    · simp only [handle, parseHandler, hbody]
      cases readUpload req.file with
      | error err => exact Or.inr (Or.inl ⟨err, rfl⟩)
      | ok pdf =>
        dsimp only
        split
        · exact Or.inl rfl
        · exact Or.inr (Or.inr ⟨_, _, rfl⟩)
    · simp only [handle, planHandler, hbody]
      split
      · exact Or.inl rfl
      · split
        · exact Or.inr (Or.inl ⟨_, rfl⟩)
        · exact Or.inr (Or.inr ⟨_, _, rfl⟩)
    · simp only [handle, questionsHandler, hbody]
      split
      · exact Or.inl rfl
      · split
        · exact Or.inr (Or.inl ⟨_, rfl⟩)
        · exact Or.inr (Or.inr ⟨_, _, rfl⟩)
    · simp only [handle, trackerHandler, hbody]
      split
      · exact Or.inl rfl
      · split
        · exact Or.inr (Or.inl ⟨_, rfl⟩)
        · exact Or.inr (Or.inr ⟨_, _, rfl⟩)

theorem body_of_passes [JSNumber ν] (ep : Endpoint) (req : Request ν)
    (hv : passesValidation ep req = true) : ∃ fields, req.body = some fields := by
  cases hb : req.body with
  | none => cases ep <;> simp [passesValidation, hb] at hv
  | some fields => exact ⟨fields, rfl⟩

theorem handle_of_builds [JSNumber ν] [StackLimit] (ep : Endpoint) (ai : GenAI ν) (req : Request ν)
    (hv : passesValidation ep req = true) (hb : promptBuilds ep req = true) :
    ∃ contents schema, handle ep ai req = callAndRespond ep ai contents schema := by
  obtain ⟨fields, hbody⟩ := body_of_passes ep req hv
  cases ep
  · simp only [passesValidation, hbody, Option.isSome_some, Bool.true_and] at hv
    simp only [handle, parseHandler, hbody]
    cases hr : readUpload req.file with
    | error err => simp [hr] at hv
    | ok pdf =>
      simp only [hr, Bool.or_eq_true] at hv
      dsimp only
      split
      · rename_i hc
        simp only [Bool.and_eq_true, Bool.not_eq_true', ] at hc
        rcases hv with hv | hv
        · rw [hc.1] at hv; cases hv
        · rw [hc.2] at hv; cases hv
      · exact ⟨_, _, rfl⟩
  · simp only [passesValidation, hbody, Option.isSome_some, Bool.true_and,
      Bool.and_eq_true] at hv
    simp only [promptBuilds] at hb
    simp only [handle, planHandler, hbody, hv.1.1.1, hv.1.1.2, hv.1.2, hv.2]
    simp only [Bool.not_true, Bool.or_self, Bool.false_eq_true, ↓reduceIte]
    split
    · rename_i h; rw [h] at hb; cases hb
    · exact ⟨_, _, rfl⟩
  · simp only [passesValidation, hbody, Option.isSome_some, Bool.true_and] at hv
    simp only [promptBuilds] at hb
    simp only [handle, questionsHandler, hbody, hv, Bool.not_true, Bool.false_eq_true,
      ↓reduceIte]
    split
    · rename_i h; rw [h] at hb; cases hb
    · exact ⟨_, _, rfl⟩
  · simp only [passesValidation, hbody, Option.isSome_some, Bool.true_and] at hv
    simp only [promptBuilds] at hb
    simp only [handle, trackerHandler, hbody, hv, Bool.not_true, Bool.false_eq_true,
      ↓reduceIte]
    split
    · rename_i h; rw [h] at hb; cases hb
    · exact ⟨_, _, rfl⟩

theorem callAndRespond_calls [JSNumber ν] [StackLimit] (ep : Endpoint) (ai : GenAI ν)
    (contents schema : JSValue ν) :
    (callAndRespond ep ai contents schema).calls = [generateRequest contents schema] := by
  unfold callAndRespond generateJsonFromGemini
  cases ai (generateRequest contents schema) with
  | threw err => rfl
  | responded text =>
    dsimp only
    cases JSON.parse (ν := ν) (responseText text) with
    | none => rfl
    | some v =>
      dsimp only
      cases resJson v <;> rfl

theorem callAndRespond_ok [JSNumber ν] [StackLimit] (ep : Endpoint) (ai : GenAI ν)
    (contents schema : JSValue ν) (text : Option JSString) (v : JSValue ν)
    (h : ai (generateRequest contents schema) = .responded text)
    (hp : JSON.parse (responseText text) = some v)
    (hd : v.depth ≤ StackLimit.depth) :
    callAndRespond ep ai contents schema = ⟨⟨200, v⟩, [generateRequest contents schema], []⟩ := by
  simp [callAndRespond, generateJsonFromGemini, h, hp, resJson, Nat.not_lt.2 hd]

theorem callAndRespond_deep [JSNumber ν] [StackLimit] (ep : Endpoint) (ai : GenAI ν)
    (contents schema : JSValue ν) (text : Option JSString) (v : JSValue ν)
    (h : ai (generateRequest contents schema) = .responded text)
    (hp : JSON.parse (responseText text) = some v)
    (hd : StackLimit.depth < v.depth) :
    callAndRespond ep ai contents schema
      = serverError ep stackOverflow [generateRequest contents schema] [] := by
  simp [callAndRespond, generateJsonFromGemini, h, hp, resJson, hd]

theorem callAndRespond_failed [JSNumber ν] [StackLimit] (ep : Endpoint) (ai : GenAI ν)
    (contents schema : JSValue ν) (h : gatewayFailed (ν := ν) (ai (generateRequest contents schema))) :
    callAndRespond ep ai contents schema
      = serverError ep ⟨failureDetails (ai (generateRequest contents schema))⟩
          [generateRequest contents schema]
          (match ai (generateRequest contents schema) with
           | .threw _ => []
           | .responded text => [LogEntry.parseFailure text]) := by
  unfold callAndRespond generateJsonFromGemini
  cases hq : ai (generateRequest contents schema) with
  | threw err => rfl
  | responded text =>
    rw [hq] at h
    simp only [gatewayFailed] at h
    simp [h, failureDetails]

/-- When the handler made the call `q`, its run is the tail `callAndRespond`
on contents and schema with `q` as the argument of the call. -/
theorem handle_of_call [JSNumber ν] [StackLimit] (ep : Endpoint) (ai : GenAI ν) (req : Request ν)
    (q : JSValue ν) (h : (handle ep ai req).calls = [q]) :
    ∃ contents schema, q = generateRequest contents schema
      ∧ handle ep ai req = callAndRespond ep ai contents schema := by
  rcases handle_cases ep ai req with h1 | ⟨err, h1⟩ | ⟨c, s, h1⟩
  · rw [h1] at h; simp [badRequest] at h
  · rw [h1] at h; simp [serverError] at h
  · refine ⟨c, s, ?_, h1⟩
    rw [h1, callAndRespond_calls] at h
    simpa using h.symm

theorem practiceSet_transportable : JSON.transportable practiceSet := by
  simp only [practiceSet, JSON.transportable, JSON.transportableFields,
    JSON.transportableItems, JSValue.obj, JSValue.str, List.map, and_true, true_and]
  refine ⟨by decide, by decide, by decide⟩

set_option maxRecDepth 100000 in
/-- The claim C2 fails: a questions request whose `topic` is an object with an
own `toString` property passes validation, the stub returns the valid JSON text
of the PracticeSet, and the response is status 500, without the stub having been
called. -/
theorem validated_request_not_relayed :
    passesValidation .questions
        (⟨some (JSValue.props [("topic", .obj [("toString", .null)])]), none⟩
          : Request IntNumber) = true
      ∧ JSON.parse (utf16 practiceSetText) = some practiceSet
      ∧ (handle .questions (stubText practiceSetText)
          ⟨some (JSValue.props [("topic", .obj [("toString", .null)])]), none⟩).response.status
          = 500
      ∧ (handle .questions (stubText practiceSetText)
          ⟨some (JSValue.props [("topic", .obj [("toString", .null)])]), none⟩).calls = [] := by
  refine ⟨by rfl, by rfl, by rfl, by rfl⟩

/-- C2, amended: on each endpoint, when a request passes validation, its prompt
segments are built without a conversion throwing, and the call the handler
makes returns a text that is valid JSON for the value `v`: if `v` is nested no
deeper than `JSON.stringify` can go, the response is status 200, the value given
to `res.json` is `v`, unchanged, and the body text sent, `JSON.stringify(v)`,
parses back to `v` when `v` is transportable; if `v` is nested deeper, `res.json` throws and the response
is status 500 with the message of the RangeError as `details`. -/
theorem valid_json_relayed [JSNumber ν] [StackLimit] (ep : Endpoint) (ai : GenAI ν)
    (req : Request ν) (text : JSString) (v : JSValue ν)
    (hvalid : passesValidation ep req = true)
    (hbuilds : promptBuilds ep req = true)
    (htext : ∀ q, (handle ep ai req).calls = [q] → ai q = .responded (some text))
    (hjson : JSON.parse text = some v) :
    (v.depth ≤ StackLimit.depth →
        (handle ep ai req).response.status = 200
          ∧ (handle ep ai req).response.body = v
          ∧ (JSON.transportable v → JSON.parse (handle ep ai req).response.text = some v))
      ∧ (StackLimit.depth < v.depth →
        (handle ep ai req).response.status = 500
          ∧ (handle ep ai req).response.body
              = .obj [("error", .str (failureMessage ep)),
                      ("details", .str "Maximum call stack size exceeded")]) := by
  obtain ⟨c, s, hrun⟩ := handle_of_builds ep ai req hvalid hbuilds
  have hq : ai (generateRequest c s) = .responded (some text) :=
    htext _ (by rw [hrun, callAndRespond_calls])
  constructor
  · intro hd
    rw [hrun, callAndRespond_ok ep ai c s (some text) v hq hjson hd]
    refine ⟨rfl, rfl, fun hv => ?_⟩
    obtain ⟨sent, hsent, hback⟩ := JSON.parse_stringifyCompact v hv
    simp only [Response.text, hsent, Option.getD_some]
    exact hback
  · intro hd
    rw [hrun, callAndRespond_deep ep ai c s (some text) v hq hjson hd]
    exact ⟨rfl, rfl⟩

set_option maxRecDepth 1000000 in
/-- Scenario of C2: topic "recursion" and a stub returning the PracticeSet; and
the same request with a stub returning an array nested 101 deep, beyond the
bound of the concrete runs. -/
theorem valid_json_relayed_witness :
    ((handle .questions (stubText practiceSetText) recursionRequest).response.status = 200
      ∧ (handle .questions (stubText practiceSetText) recursionRequest).response.body
          = practiceSet
      ∧ JSON.parse (handle .questions (stubText practiceSetText) recursionRequest).response.text
          = some practiceSet)
      ∧ (JSON.parse (nestedText 100) = some (nested 100)
        ∧ (handle .questions stubNested recursionRequest).response.status = 500
        ∧ (handle .questions stubNested recursionRequest).response.body
            = .obj [("error", .str "Failed to generate questions"),
                    ("details", .str "Maximum call stack size exceeded")]) := by
  have t := (valid_json_relayed .questions (stubText practiceSetText) recursionRequest
    (utf16 practiceSetText) practiceSet (by decide) (by rfl) (fun _ _ => rfl) (by rfl)).1
    (by decide)
  have hdeep : JSON.parse (nestedText 100) = some (nested 100) := by rfl
  have u := (valid_json_relayed .questions stubNested recursionRequest
    (nestedText 100) (nested 100) (by decide) (by rfl) (fun _ _ => rfl) hdeep).2
    (by decide)
  exact ⟨⟨t.1, t.2.1, t.2.2 practiceSet_transportable⟩, hdeep, u.1, u.2⟩

/-- C3: on each endpoint, when a request passes validation and the call the
handler makes to the external service throws or returns a text that is no
JSON, the response is status 500 and its body is the object with exactly the
fields `error`, the fixed failure message of the endpoint, and `details`, the
message of the error raised: the upstream error's own message, or the decoder's
fixed message. -/
theorem failed_call_answered_500 [JSNumber ν] [StackLimit] (ep : Endpoint) (ai : GenAI ν)
    (req : Request ν) (q : JSValue ν)
    (_hvalid : passesValidation ep req = true)
    (hcall : (handle ep ai req).calls = [q])
    (hfail : gatewayFailed (ν := ν) (ai q)) :
    (handle ep ai req).response.status = 500
      ∧ (handle ep ai req).response.body
          = .obj [("error", .str (failureMessage ep)),
                  ("details", .string (failureDetails (ai q)))] := by
  obtain ⟨c, s, hq, hrun⟩ := handle_of_call ep ai req q hcall
  subst hq
  rw [hrun, callAndRespond_failed ep ai c s hfail]
  exact ⟨rfl, rfl⟩

set_option maxRecDepth 100000 in
/-- An upstream failure on the questions endpoint: the message "quota exceeded"
arrives unmodified in `details`. -/
theorem failed_call_answered_500_witness :
    (handle .questions (stubThrow "quota exceeded") recursionRequest).response.status = 500
      ∧ (handle .questions (stubThrow "quota exceeded") recursionRequest).response.body
          = .obj [("error", .str "Failed to generate questions"),
                  ("details", .str "quota exceeded")] :=
  failed_call_answered_500 .questions (stubThrow "quota exceeded") recursionRequest
    (firstCall (handle .questions (stubThrow "quota exceeded") recursionRequest))
    (by decide) (by rfl) trivial

/-- The claim C4 fails: for the text `not json` the 500 body is the fixed
message and does not contain the text. -/
theorem decode_error_body_lacks_text :
    (handle .questions (stubText "not json") recursionRequest).response.status = 500
      ∧ (handle .questions (stubText "not json") recursionRequest).response.body
          = .obj [("error", .str "Failed to generate questions"),
                  ("details", .str "Gemini did not return valid JSON.")]
      ∧ ¬ (utf16 "not json" <:+: utf16 "Failed to generate questions")
      ∧ ¬ (utf16 "not json" <:+: utf16 "Gemini did not return valid JSON.") := by
  refine ⟨by rfl, by rfl, by decide, by decide⟩

/-- C4, amended: when the text returned to the handler's call is no JSON, the
decoder writes the text to the error log and raises an error with the fixed
message; the 500 body has that fixed message as `details`, whatever the text. -/
theorem decode_error_logs_text [JSNumber ν] [StackLimit] (ep : Endpoint) (ai : GenAI ν)
    (req : Request ν) (q : JSValue ν) (text : Option JSString)
    (hcall : (handle ep ai req).calls = [q])
    (htext : ai q = .responded text)
    (hbad : JSON.parse (ν := ν) (responseText text) = none) :
    (handle ep ai req).response.status = 500
      ∧ (handle ep ai req).response.body
          = .obj [("error", .str (failureMessage ep)),
                  ("details", .str "Gemini did not return valid JSON.")]
      ∧ (handle ep ai req).log
          = [LogEntry.parseFailure text, LogEntry.caught ⟨invalidJsonMessage⟩] := by
  obtain ⟨c, s, hq, hrun⟩ := handle_of_call ep ai req q hcall
  subst hq
  have hfail : gatewayFailed (ν := ν) (ai (generateRequest c s)) := by
    rw [htext]; exact hbad
  rw [hrun, callAndRespond_failed ep ai c s hfail, htext]
  exact ⟨rfl, rfl, rfl⟩

set_option maxRecDepth 100000 in
/-- The amended C4 on the text `not json`. -/
theorem decode_error_logs_text_witness :
    (handle .tracker (stubText "not json")
        ⟨some (JSValue.props [("rawText", .str "Lab 1 due Friday")]), none⟩).response.status = 500
      ∧ (handle .tracker (stubText "not json")
          ⟨some (JSValue.props [("rawText", .str "Lab 1 due Friday")]), none⟩).response.body
          = .obj [("error", .str "Failed to analyze assignments"),
                  ("details", .str "Gemini did not return valid JSON.")]
      ∧ (handle .tracker (stubText "not json")
          ⟨some (JSValue.props [("rawText", .str "Lab 1 due Friday")]), none⟩).log
          = [LogEntry.parseFailure (some (utf16 "not json")),
             LogEntry.caught ⟨invalidJsonMessage⟩] :=
  decode_error_logs_text .tracker (stubText "not json")
    ⟨some (JSValue.props [("rawText", .str "Lab 1 due Friday")]), none⟩
    (firstCall (handle .tracker (stubText "not json")
      ⟨some (JSValue.props [("rawText", .str "Lab 1 due Friday")]), none⟩))
    (some (utf16 "not json")) (by rfl) (by rfl) (by rfl)

/-- The claim C5 fails: the 400 response of the tracker endpoint has no
`details` field. -/
theorem validation_error_has_no_details :
    (handle .tracker (stubText "null")
        ⟨some (JSValue.props [("rawText", .str "")]), none⟩).response.status = 400
      ∧ (handle .tracker (stubText "null")
          ⟨some (JSValue.props [("rawText", .str "")]), none⟩).response.body.get "details" = .undefined
      ∧ (handle .tracker (stubText "null")
          ⟨some (JSValue.props [("rawText", .str "")]), none⟩).response.body
          = .obj [("error", .str "Missing rawText with your assignment list / grade info.")] := by
  refine ⟨by rfl, by rfl, by rfl⟩

/-- C5, amended: every response of every endpoint is the relayed value with
status 200, or status 400 with a body holding the single field `error`, or
status 500 with a body holding exactly the fields `error` and `details`. -/
theorem error_body_shapes [JSNumber ν] [StackLimit] (ep : Endpoint) (ai : GenAI ν) (req : Request ν) :
    (handle ep ai req).response.status = 200
      ∨ ((handle ep ai req).response.status = 400
          ∧ (handle ep ai req).response.body = .obj [("error", .str (missingMessage ep))])
      ∨ ((handle ep ai req).response.status = 500
          ∧ ∃ details, (handle ep ai req).response.body
              = .obj [("error", .str (failureMessage ep)), ("details", .string details)]) := by
  rcases handle_cases ep ai req with h | ⟨err, h⟩ | ⟨c, s, h⟩
  · rw [h]; exact Or.inr (Or.inl ⟨rfl, rfl⟩)
  · rw [h]; exact Or.inr (Or.inr ⟨rfl, err.message, rfl⟩)
  · rw [h]
    unfold callAndRespond generateJsonFromGemini
    cases ai (generateRequest c s) with
    | threw err => exact Or.inr (Or.inr ⟨rfl, err.message, rfl⟩)
    | responded text =>
      dsimp only
      cases JSON.parse (ν := ν) (responseText text) with
      | none => exact Or.inr (Or.inr ⟨rfl, invalidJsonMessage, rfl⟩)
      | some v =>
        dsimp only
        cases resJson v with
        | ok sent => exact Or.inl rfl
        | error err => exact Or.inr (Or.inr ⟨rfl, err.message, rfl⟩)

/-- C8: a request to the tracker endpoint whose `rawText` is the empty string
is answered with status 400 and the body that holds the single field `error`
with the text of the scenario, whatever else the request holds. -/
theorem tracker_empty_rawText [JSNumber ν] [StackLimit] (ai : GenAI ν) (req : Request ν)
    (h : req.field "rawText" = .string []) :
    (handle .tracker ai req).response.status = 400
      ∧ (handle .tracker ai req).response.body
          = .obj [("error", .str "Missing rawText with your assignment list / grade info.")] := by
  obtain ⟨fields, hbody⟩ : ∃ fields, req.body = some fields := by
    cases hb : req.body with
    | none => rw [field_bodyless req "rawText" hb] at h; cases h
    | some fields => exact ⟨fields, rfl⟩
  simp only [handle, trackerHandler, hbody, h]
  exact ⟨rfl, rfl⟩

/-- The scenario of C8, with an `hoursToday` next to the empty `rawText`. -/
theorem tracker_empty_rawText_witness :
    (handle .tracker (stubText "null")
        ⟨some (JSValue.props [("rawText", .str ""), ("hoursToday", .number (.int 5))]), none⟩).response.status
        = 400
      ∧ (handle .tracker (stubText "null")
          ⟨some (JSValue.props [("rawText", .str ""), ("hoursToday", .number (.int 5))]), none⟩).response.body
          = .obj [("error", .str "Missing rawText with your assignment list / grade info.")] :=
  tracker_empty_rawText (stubText "null")
    ⟨some (JSValue.props [("rawText", .str ""), ("hoursToday", .number (.int 5))]), none⟩ (by rfl)

/-- The claim C9 fails: a request to the plan endpoint on which no body parser
ran has no `examDate`, and it is answered with status 500 and the message of the
catch block, which does not mention `examDate`. -/
theorem bodyless_plan_request_answered_500 :
    isMissing ((⟨none, none⟩ : Request IntNumber).field "examDate")
      ∧ (handle .plan (stubText "null") ⟨none, none⟩).response.status = 500
      ∧ (handle .plan (stubText "null") ⟨none, none⟩).response.body
          = .obj [("error", .str "Failed to generate plan"),
                  ("details", .str
                    "Cannot destructure property \x27syllabus\x27 of \x27req.body\x27 as it is undefined.")]
      ∧ ¬ (utf16 "examDate" <:+: utf16 "Failed to generate plan") := by
  refine ⟨Or.inl (by rfl), by rfl, by rfl, by decide⟩

/-- C9, amended: a request to the plan endpoint whose `examDate` is missing is
answered, when `req.body` is an object, with status 400 and an `error` message
that names `examDate`, and, when `req.body` is undefined, with status 500 and
the body of the catch block. -/
theorem plan_missing_examDate [JSNumber ν] [StackLimit] (ai : GenAI ν) (req : Request ν)
    (h : isMissing (req.field "examDate")) :
    (req.body ≠ none →
        (handle .plan ai req).response.status = 400
          ∧ ∃ message, (handle .plan ai req).response.body = .obj [("error", .string message)]
              ∧ utf16 "examDate" <:+: message)
      ∧ (req.body = none →
        (handle .plan ai req).response.status = 500
          ∧ (handle .plan ai req).response.body
              = .obj [("error", .str "Failed to generate plan"),
                      ("details", .string (bodyUndefined .plan).message)]) := by
  cases hbody : req.body with
  | none =>
    rw [handle_bodyless .plan ai req hbody]
    exact ⟨fun hne => absurd rfl hne, fun _ => ⟨rfl, rfl⟩⟩
  | some fields =>
    refine ⟨fun _ => ?_, fun hn => by cases hn⟩
    have hb : (!(req.field "syllabus").toBoolean || !(req.field "startDate").toBoolean
        || !(req.field "examDate").toBoolean || !(req.field "hoursPerWeek").toBoolean)
        = true := by
      simp [toBoolean_of_isMissing h]
    simp only [handle, planHandler, hbody, hb]
    refine ⟨rfl, utf16 (missingMessage .plan), rfl, ?_⟩
    decide

/-- A plan request without `examDate`, and a plan request without a body. -/
theorem plan_missing_examDate_witness :
    ((handle .plan (stubText "null")
        ⟨some (JSValue.props [("syllabus", .obj [("course_title", .str "Algorithms")]),
               ("startDate", .str "2025-09-01"),
               ("hoursPerWeek", .number (.int 6))]), none⟩).response.status = 400
      ∧ ∃ message,
          (handle .plan (stubText "null")
            ⟨some (JSValue.props [("syllabus", .obj [("course_title", .str "Algorithms")]),
                   ("startDate", .str "2025-09-01"),
                   ("hoursPerWeek", .number (.int 6))]), none⟩).response.body
            = .obj [("error", .string message)]
          ∧ utf16 "examDate" <:+: message)
      ∧ (handle .plan (stubText "null") ⟨none, none⟩).response.status = 500 :=
  ⟨(plan_missing_examDate (stubText "null")
      ⟨some (JSValue.props [("syllabus", .obj [("course_title", .str "Algorithms")]),
             ("startDate", .str "2025-09-01"),
             ("hoursPerWeek", .number (.int 6))]), none⟩ (Or.inl (by rfl))).1
      (Option.some_ne_none _),
    ((plan_missing_examDate (stubText "null") ⟨none, none⟩ (Or.inl (by rfl))).2 rfl).1⟩

/-- The claim C1 fails: a request to the questions endpoint on which no body
parser ran has no `topic`, and it is answered with status 500, not 400. -/
theorem bodyless_request_answered_500 :
    missingRequired .questions (⟨none, none⟩ : Request IntNumber)
      ∧ (handle .questions (stubText "null") ⟨none, none⟩).response.status = 500
      ∧ (handle .questions (stubText "null") ⟨none, none⟩).response.body
          = .obj [("error", .str "Failed to generate questions"),
                  ("details", .str
                    "Cannot destructure property \x27topic\x27 of \x27req.body\x27 as it is undefined.")] := by
  refine ⟨Or.inl (by rfl), by rfl, by rfl⟩

/-- C1, amended: on each of the four endpoints, for a request with a required
input missing or empty the external service is not called; the request is
answered with status 400 when `req.body` is an object, and with status 500 when
`req.body` is undefined. -/
theorem missing_input_never_calls [JSNumber ν] [StackLimit] (ep : Endpoint) (ai : GenAI ν)
    (req : Request ν) (h : missingRequired ep req) :
    (handle ep ai req).calls = []
      ∧ (req.body ≠ none → (handle ep ai req).response.status = 400)
      ∧ (req.body = none → (handle ep ai req).response.status = 500) := by
  cases hbody : req.body with
  | none =>
    rw [handle_bodyless ep ai req hbody]
    exact ⟨rfl, fun hne => absurd rfl hne, fun _ => rfl⟩
  | some fields =>
    have key := guard_rejects ep ai req fields hbody h
    exact ⟨key.2, fun _ => key.1, fun hn => by cases hn⟩

/-- Instances of the amended C1: four requests with a body, one per endpoint,
each lacking a required input, and a request without a body. -/
theorem missing_input_never_calls_witness :
    ((handle .parse (stubText "null")
          ⟨some (JSValue.props [("text", .str "")]), none⟩).calls = []
        ∧ (handle .parse (stubText "null")
          ⟨some (JSValue.props [("text", .str "")]), none⟩).response.status = 400)
      ∧ ((handle .plan (stubText "null")
            ⟨some (JSValue.props [("syllabus", .obj []), ("startDate", .str "2025-09-01"),
                   ("examDate", .str "2025-12-10"), ("hoursPerWeek", .null)]), none⟩).calls = []
        ∧ (handle .plan (stubText "null")
            ⟨some (JSValue.props [("syllabus", .obj []), ("startDate", .str "2025-09-01"),
                   ("examDate", .str "2025-12-10"), ("hoursPerWeek", .null)]), none⟩
            ).response.status = 400)
      ∧ ((handle .questions (stubText "null") ⟨some (JSValue.props []), none⟩).calls = []
        ∧ (handle .questions (stubText "null") ⟨some (JSValue.props []), none⟩).response.status
            = 400)
      ∧ ((handle .tracker (stubText "null")
            ⟨some (JSValue.props [("rawText", .null)]), none⟩).calls = []
        ∧ (handle .tracker (stubText "null")
            ⟨some (JSValue.props [("rawText", .null)]), none⟩).response.status = 400)
      ∧ ((handle .tracker (stubText "null") ⟨none, none⟩).calls = []
        ∧ (handle .tracker (stubText "null") ⟨none, none⟩).response.status = 500) := by
  have t1 := missing_input_never_calls .parse (stubText "null")
    ⟨some (JSValue.props [("text", .str "")]), none⟩ ⟨Or.inr (Or.inr (by rfl)), rfl⟩
  have t2 := missing_input_never_calls .plan (stubText "null")
    ⟨some (JSValue.props [("syllabus", .obj []), ("startDate", .str "2025-09-01"),
           ("examDate", .str "2025-12-10"), ("hoursPerWeek", .null)]), none⟩
    (Or.inr (Or.inr (Or.inr (Or.inr (Or.inl (by rfl))))))
  have t3 := missing_input_never_calls .questions (stubText "null")
    ⟨some (JSValue.props []), none⟩ (Or.inl (by rfl))
  have t4 := missing_input_never_calls .tracker (stubText "null")
    ⟨some (JSValue.props [("rawText", .null)]), none⟩ (Or.inr (Or.inl (by rfl)))
  have t5 := missing_input_never_calls .tracker (stubText "null") ⟨none, none⟩
    (Or.inl (by rfl))
  exact ⟨⟨t1.1, t1.2.1 (Option.some_ne_none _)⟩, ⟨t2.1, t2.2.1 (Option.some_ne_none _)⟩,
    ⟨t3.1, t3.2.1 (Option.some_ne_none _)⟩, ⟨t4.1, t4.2.1 (Option.some_ne_none _)⟩,
    ⟨t5.1, t5.2.2 rfl⟩⟩

/-- The claim C10 fails: a tracker request whose `rawText` is an object with an
own `toString` property passes validation, and the handler answers 500 without
calling the external service. -/
theorem validated_request_without_call :
    passesValidation .tracker
        (⟨some (JSValue.props [("rawText", .obj [("toString", .null)])]), none⟩ : Request IntNumber) = true
      ∧ (handle .tracker (stubText "null")
          ⟨some (JSValue.props [("rawText", .obj [("toString", .null)])]), none⟩).calls = []
      ∧ (handle .tracker (stubText "null")
          ⟨some (JSValue.props [("rawText", .obj [("toString", .null)])]), none⟩).response.status = 500 := by
  refine ⟨by rfl, by rfl, by rfl⟩

/-- C10, amended: no handler calls the external service more than once; it is
called exactly once when the request passes validation and the prompt segments
are built without a conversion throwing, whatever the call then does (no
retry), and not at all otherwise. -/
theorem single_call [JSNumber ν] [StackLimit] (ep : Endpoint) (ai : GenAI ν) (req : Request ν) :
    (handle ep ai req).calls.length
      = if passesValidation ep req && promptBuilds ep req then 1 else 0 := by
  cases hv : passesValidation ep req
  · -- no body, rejected, or the upload could not be read
    have : (handle ep ai req).calls = [] := by
      cases hbody : req.body with
      | none => rw [handle_bodyless ep ai req hbody]; rfl
      | some fields =>
        cases ep
        · simp only [passesValidation, hbody, Option.isSome_some, Bool.true_and] at hv
          simp only [handle, parseHandler, hbody]
          cases hr : readUpload req.file with
          | error err => rfl
          | ok pdf =>
            simp only [hr, Bool.or_eq_false_iff] at hv
            simp [hv.1, hv.2, badRequest]
        · simp only [passesValidation, hbody, Option.isSome_some, Bool.true_and,
            Bool.and_eq_false_iff] at hv
          have hb : (!(req.field "syllabus").toBoolean || !(req.field "startDate").toBoolean
              || !(req.field "examDate").toBoolean || !(req.field "hoursPerWeek").toBoolean)
              = true := by
            rcases hv with ((h | h) | h) | h <;> simp [h]
          simp only [handle, planHandler, hbody, hb]
          rfl
        · simp only [passesValidation, hbody, Option.isSome_some, Bool.true_and] at hv
          simp [handle, questionsHandler, hbody, hv, badRequest]
        · simp only [passesValidation, hbody, Option.isSome_some, Bool.true_and] at hv
          simp [handle, trackerHandler, hbody, hv, badRequest]
    simp [this]
  · cases hb : promptBuilds ep req
    · have : (handle ep ai req).calls = [] := by
        obtain ⟨fields, hbody⟩ := body_of_passes ep req hv
        cases ep
        · simp [promptBuilds] at hb
        · simp only [passesValidation, hbody, Option.isSome_some, Bool.true_and,
            Bool.and_eq_true] at hv
          simp only [promptBuilds] at hb
          simp only [handle, planHandler, hbody, hv.1.1.1, hv.1.1.2, hv.1.2, hv.2]
          simp only [Bool.not_true, Bool.or_self, Bool.false_eq_true, ↓reduceIte]
          split
          · rfl
          · rename_i h; rw [h] at hb; cases hb
        · simp only [passesValidation, hbody, Option.isSome_some, Bool.true_and] at hv
          simp only [promptBuilds] at hb
          simp only [handle, questionsHandler, hbody, hv, Bool.not_true, Bool.false_eq_true,
            ↓reduceIte]
          split
          · rfl
          · rename_i h; rw [h] at hb; cases hb
        · simp only [passesValidation, hbody, Option.isSome_some, Bool.true_and] at hv
          simp only [promptBuilds] at hb
          simp only [handle, trackerHandler, hbody, hv, Bool.not_true, Bool.false_eq_true,
            ↓reduceIte]
          split
          · rfl
          · rename_i h; rw [h] at hb; cases hb
      simp [this]
    · obtain ⟨c, s, h⟩ := handle_of_builds ep ai req hv hb
      rw [h, callAndRespond_calls]
      rfl

theorem lookup_append_other (key k : JSString) (v : JSValue ν)
    (fields : List (JSString × JSValue ν)) (h : k ≠ key) :
    JSValue.lookup key (fields ++ [(k, v)]) = JSValue.lookup key fields := by
  induction fields with
  | nil => simp [JSValue.lookup, h]
  | cons kv rest ih =>
    obtain ⟨k1, v1⟩ := kv
    show (if k1 = key then v1 else JSValue.lookup key (rest ++ [(k, v)]))
      = if k1 = key then v1 else JSValue.lookup key rest
    rw [ih]

theorem lookup_append_absent (k : JSString) (v : JSValue ν)
    (fields : List (JSString × JSValue ν)) (h : JSValue.hasOwn k fields = false) :
    JSValue.lookup k fields = .undefined ∧ JSValue.lookup k (fields ++ [(k, v)]) = v := by
  induction fields with
  | nil => simp [JSValue.lookup]
  | cons kv rest ih =>
    obtain ⟨k1, v1⟩ := kv
    simp only [JSValue.hasOwn, List.any_cons, Bool.or_eq_false_iff, beq_eq_false_iff_ne] at h
    have hrest : JSValue.hasOwn k rest = false := h.2
    simp only [List.cons_append, JSValue.lookup, h.1, ↓reduceIte]
    exact ih hrest

theorem or_self_default [JSNumber ν] (d : JSValue ν) : d.or d = d := by
  simp [JSValue.or]

theorem undefined_or [JSNumber ν] (d : JSValue ν) : (JSValue.undefined).or d = d := rfl

/-- C7: the prompt segments built when an optional field is absent are those
built when the field carries its default: `difficulty` absent or `"normal"` on
the plan and questions endpoints, `hoursToday` absent or `3` on the tracker
endpoint; and so the whole run of the handler is the same. -/
theorem optional_defaults [JSNumber ν] [StackLimit] (ai : GenAI ν) (fields : List (JSString × JSValue ν))
    (file : Option (Except JSError (List Nat)))
    (hd : JSValue.hasOwn (utf16 "difficulty") fields = false)
    (hh : JSValue.hasOwn (utf16 "hoursToday") fields = false) :
    (∀ syllabus startDate examDate hoursPerWeek : JSValue ν,
        planContents syllabus startDate examDate hoursPerWeek
            ((⟨some fields, file⟩ : Request ν).field "difficulty")
          = planContents syllabus startDate examDate hoursPerWeek (.str "normal"))
      ∧ (∀ topic : JSValue ν,
        questionsPrompt topic ((⟨some fields, file⟩ : Request ν).field "difficulty")
          = questionsPrompt topic (.str "normal"))
      ∧ (∀ rawText : JSValue ν,
        trackerContents rawText ((⟨some fields, file⟩ : Request ν).field "hoursToday")
          = trackerContents rawText (.number (JSNumber.ofNat 3)))
      ∧ handle .plan ai ⟨some fields, file⟩
          = handle .plan ai ⟨some (fields ++ [(utf16 "difficulty", .str "normal")]), file⟩
      ∧ handle .questions ai ⟨some fields, file⟩
          = handle .questions ai ⟨some (fields ++ [(utf16 "difficulty", .str "normal")]), file⟩
      ∧ handle .tracker ai ⟨some fields, file⟩
          = handle .tracker ai
              ⟨some (fields ++ [(utf16 "hoursToday", .number (JSNumber.ofNat 3))]), file⟩ := by
  have hdu := (lookup_append_absent (utf16 "difficulty") (.str "normal") fields hd)
  have hhu := (lookup_append_absent (utf16 "hoursToday") (.number (JSNumber.ofNat 3)) fields hh)
  have e1 : ∀ syllabus startDate examDate hoursPerWeek : JSValue ν,
      planContents syllabus startDate examDate hoursPerWeek .undefined
        = planContents syllabus startDate examDate hoursPerWeek (.str "normal") := by
    intro s sd ed h
    simp only [planContents, undefined_or, or_self_default]
  have e2 : ∀ topic : JSValue ν,
      questionsPrompt topic .undefined = questionsPrompt topic (.str "normal") := by
    intro t
    simp only [questionsPrompt, undefined_or, or_self_default]
  have e3 : ∀ rawText : JSValue ν,
      trackerContents rawText .undefined
        = trackerContents rawText (.number (JSNumber.ofNat 3)) := by
    intro r
    simp only [trackerContents, trackerPrompt, undefined_or, or_self_default]
  refine ⟨?_, ?_, ?_, ?_, ?_, ?_⟩
  · intro s sd ed h
    simp only [Request.field, hdu.1]; exact e1 s sd ed h
  · intro t
    simp only [Request.field, hdu.1]; exact e2 t
  · intro r
    simp only [Request.field, hhu.1]; exact e3 r
  · simp only [handle, planHandler, Request.field, hdu.1, hdu.2, e1]
    rw [lookup_append_other _ _ _ _ (by decide), lookup_append_other _ _ _ _ (by decide),
      lookup_append_other _ _ _ _ (by decide), lookup_append_other _ _ _ _ (by decide)]
  · simp only [handle, questionsHandler, Request.field, hdu.1, hdu.2, e2]
    rw [lookup_append_other _ _ _ _ (by decide)]
  · simp only [handle, trackerHandler, Request.field, hhu.1, hhu.2, e3]
    rw [lookup_append_other _ _ _ _ (by decide)]

/-- `JSON.parse(JSON.stringify(v, null, 2))` is `v` for every transportable
value `v`. -/
theorem parse_stringify [JSNumber ν] (v : JSValue ν) (hv : JSON.transportable v) :
    ∃ t, JSON.stringify v = some t ∧ JSON.parse t = some v := by
  obtain ⟨t, ht, hh⟩ := JSON.serialize_head v hv []
  obtain ⟨c, r, hc, hsv⟩ := JSON.headIs_cons hh
  have hcs := JSON.startsValue_not_ws hsv
  refine ⟨t, ht, ?_⟩
  have hp := JSON.parseValue_serialize v hv [] JSON.isIndent_nil t ht [] (2 * t.length + 2) rfl
    (by simp)
  rw [List.append_nil] at hp
  unfold JSON.parse
  have hskip : JSON.skipWs t = t := by
    rw [hc]; exact JSON.skipWs_head c r hcs.1
  rw [hskip, hp]
  simp [JSON.skipWs]

theorem callAndRespond_status [JSNumber ν] [StackLimit] (ep : Endpoint) (ai : GenAI ν)
    (contents schema : JSValue ν) :
    (callAndRespond ep ai contents schema).response.status ≠ 400 := by
  unfold callAndRespond generateJsonFromGemini
  cases ai (generateRequest contents schema) with
  | threw err => simp [serverError]
  | responded text =>
    dsimp only
    cases JSON.parse (ν := ν) (responseText text) with
    | none => simp [serverError]
    | some v =>
      dsimp only
      cases resJson v <;> simp [serverError]

/-- The claim C6 fails as stated: a plan request whose `hoursPerWeek` is the
number `0`, which is neither absent nor `null` nor the empty string, is
answered with status 400. -/
theorem zero_hours_rejected :
    zeroHoursRequest.field "hoursPerWeek" = .number (.int 0)
      ∧ ¬ isMissing (zeroHoursRequest.field "hoursPerWeek")
      ∧ ¬ isMissing (zeroHoursRequest.field "startDate")
      ∧ ¬ isMissing (zeroHoursRequest.field "examDate")
      ∧ (handle .plan (stubText "null") zeroHoursRequest).response.status = 400 := by
  have e1 : zeroHoursRequest.field "hoursPerWeek" = .number (.int 0) := by rfl
  have e2 : zeroHoursRequest.field "startDate" = .string (utf16 "2025-09-01") := by rfl
  have e3 : zeroHoursRequest.field "examDate" = .string (utf16 "2025-12-10") := by rfl
  refine ⟨e1, ?_, ?_, ?_, by rfl⟩
  · rw [e1]; rintro (h | h | h) <;> cases h
  · rw [e2]; rintro (h | h | h) <;> cases h
  · rw [e3]; rintro (h | h | h) <;> cases h

/-- C6, amended: for a plan request whose syllabus is a transportable JSON
object and whose `startDate`, `examDate` and `hoursPerWeek` are truthy, with
`Number(hoursPerWeek)` not throwing, the request is not answered with 400 and
the handler makes one call whose contents are the instruction, then the segment
made of the label `Course syllabus JSON:` and a line feed followed by a text
that `JSON.parse` reads back as the syllabus, then the student profile. -/
theorem syllabus_round_trip [JSNumber ν] [StackLimit] (ai : GenAI ν) (req : Request ν)
    (fields : List (JSString × JSValue ν)) (hours : ν)
    (hs : req.field "syllabus" = .object fields)
    (hsafe : JSON.transportable (JSValue.object fields))
    (h1 : (req.field "startDate").toBoolean = true)
    (h2 : (req.field "examDate").toBoolean = true)
    (h3 : (req.field "hoursPerWeek").toBoolean = true)
    (h4 : (req.field "hoursPerWeek").toNumber = .ok hours) :
    (handle .plan ai req).response.status ≠ 400
      ∧ ∃ text profile, JSON.stringify (JSValue.object fields) = some text
          ∧ JSON.parse text = some (JSValue.object fields)
          ∧ (handle .plan ai req).calls
              = [generateRequest
                  (.array
                    [.obj [("text", .string planPrompt)],
                     .obj [("text", .string (utf16 "Course syllabus JSON:\n" ++ text))],
                     .obj [("text", .string profile)]])
                  planSchema] := by
  obtain ⟨text, htext, hparse⟩ := parse_stringify (JSValue.object fields) hsafe
  have hrun : handle .plan ai req
      = callAndRespond .plan ai
          (.array
            [.obj [("text", .string planPrompt)],
             .obj [("text", .string (utf16 "Course syllabus JSON:\n" ++ text))],
             .obj [("text", .string (withJson "Student profile:\n"
                (.obj
                  [("start_date", req.field "startDate"),
                   ("exam_date", req.field "examDate"),
                   ("hours_per_week", .number hours),
                   ("difficulty", (req.field "difficulty").or (.str "normal"))])))]])
          planSchema := by
    have hobj : (JSValue.object fields).toBoolean = true := rfl
    obtain ⟨body, hbody⟩ := body_of_truthy req "startDate" h1
    simp only [handle, planHandler, hbody, hs, hobj, h1, h2, h3, Bool.not_true,
      Bool.or_self, Bool.false_eq_true, ↓reduceIte, planContents, h4, withJson, htext,
      responseText]
  rw [hrun]
  exact ⟨callAndRespond_status _ _ _ _, text, _, htext, hparse, callAndRespond_calls _ _ _ _⟩

theorem planSyllabus_transportable : JSON.transportable (JSValue.object planSyllabus) := by
  simp only [planSyllabus, JSON.transportable, JSON.transportableFields,
    JSON.transportableItems, JSON.numberSurvives, JSValue.str, and_true, true_and]
  refine ⟨by decide, by decide, by rfl, by rfl, by rfl⟩

set_option maxRecDepth 100000 in
/-- The amended C6 on a syllabus record with a nested assessment, a quoted
name and a number. -/
theorem syllabus_round_trip_witness :
    (handle .plan (stubText "null") planRequest).response.status ≠ 400
      ∧ ∃ text profile, JSON.stringify (JSValue.object planSyllabus) = some text
          ∧ JSON.parse text = some (JSValue.object planSyllabus)
          ∧ (handle .plan (stubText "null") planRequest).calls
              = [generateRequest
                  (.array
                    [.obj [("text", .string planPrompt)],
                     .obj [("text", .string (utf16 "Course syllabus JSON:\n" ++ text))],
                     .obj [("text", .string profile)]])
                  planSchema] :=
  syllabus_round_trip (stubText "null") planRequest planSyllabus (.int 6) (by rfl)
    planSyllabus_transportable (by rfl) (by rfl) (by rfl) (by rfl)

set_option maxRecDepth 100000 in
/-- C7 on a request body that has neither `difficulty` nor `hoursToday`. -/
theorem optional_defaults_witness :
    (∀ syllabus startDate examDate hoursPerWeek : JSValue IntNumber,
        planContents syllabus startDate examDate hoursPerWeek
            ((⟨some defaultsFields, none⟩ : Request IntNumber).field "difficulty")
          = planContents syllabus startDate examDate hoursPerWeek (.str "normal"))
      ∧ (∀ topic : JSValue IntNumber,
        questionsPrompt topic ((⟨some defaultsFields, none⟩ : Request IntNumber).field "difficulty")
          = questionsPrompt topic (.str "normal"))
      ∧ (∀ rawText : JSValue IntNumber,
        trackerContents rawText ((⟨some defaultsFields, none⟩ : Request IntNumber).field "hoursToday")
          = trackerContents rawText (.number (JSNumber.ofNat 3)))
      ∧ handle .plan (stubText "null") ⟨some defaultsFields, none⟩
          = handle .plan (stubText "null")
              ⟨some (defaultsFields ++ [(utf16 "difficulty", .str "normal")]), none⟩
      ∧ handle .questions (stubText "null") ⟨some defaultsFields, none⟩
          = handle .questions (stubText "null")
              ⟨some (defaultsFields ++ [(utf16 "difficulty", .str "normal")]), none⟩
      ∧ handle .tracker (stubText "null") ⟨some defaultsFields, none⟩
          = handle .tracker (stubText "null")
              ⟨some (defaultsFields ++ [(utf16 "hoursToday", .number (JSNumber.ofNat 3))]), none⟩ :=
  optional_defaults (stubText "null") defaultsFields none (by decide) (by decide)

theorem toJSString_primitive [JSNumber ν] (v : JSValue ν) (h : isPrimitive v = true) :
    ∃ s, v.toJSString = .ok s := by
  cases v with
  | undefined => exact ⟨_, by rw [JSValue.toJSString]⟩
  | null => exact ⟨_, by rw [JSValue.toJSString]⟩
  | bool b => cases b <;> exact ⟨_, by rw [JSValue.toJSString]⟩
  | number n => exact ⟨_, by rw [JSValue.toJSString]⟩
  | string s => exact ⟨_, by rw [JSValue.toJSString]⟩
  | array items => cases h
  | object fields => cases h

theorem toNumber_primitive [JSNumber ν] (v : JSValue ν) (h : isPrimitive v = true) :
    ∃ n, v.toNumber = .ok n := by
  cases v with
  | undefined => exact ⟨_, rfl⟩
  | null => exact ⟨_, rfl⟩
  | bool b => cases b <;> exact ⟨_, rfl⟩
  | number n => exact ⟨_, rfl⟩
  | string s => exact ⟨_, rfl⟩
  | array items => cases h
  | object fields => cases h

theorem isPrimitive_or [JSNumber ν] (a b : JSValue ν) (ha : isPrimitive a = true)
    (hb : isPrimitive b = true) : isPrimitive (a.or b) = true := by
  unfold JSValue.or; split <;> assumption

/-- The prompt segments of every endpoint are built without a throw when the
fields that enter a conversion are primitive values. -/
theorem promptBuilds_of_primitive [JSNumber ν] (ep : Endpoint) (req : Request ν)
    (h1 : isPrimitive (req.field "hoursPerWeek") = true)
    (h2 : isPrimitive (req.field "topic") = true)
    (h3 : isPrimitive (req.field "difficulty") = true)
    (h4 : isPrimitive (req.field "rawText") = true)
    (h5 : isPrimitive (req.field "hoursToday") = true) :
    promptBuilds ep req = true := by
  cases ep
  · rfl
  · obtain ⟨n, hn⟩ := toNumber_primitive _ h1
    simp [promptBuilds, planContents, hn, Except.isOk, Except.toBool]
  · obtain ⟨s, hs⟩ := toJSString_primitive _ h2
    obtain ⟨d, hd⟩ := toJSString_primitive _ (isPrimitive_or _ (.str "normal") h3 rfl)
    simp [promptBuilds, questionsPrompt, hs, hd, Except.isOk, Except.toBool]
  · obtain ⟨s, hs⟩ := toJSString_primitive _ h4
    obtain ⟨d, hd⟩ :=
      toJSString_primitive _ (isPrimitive_or _ (.number (JSNumber.ofNat 3)) h5 rfl)
    simp [promptBuilds, trackerContents, trackerPrompt, hs, hd, Except.isOk, Except.toBool]

theorem base64_ne_nil (bytes : List Nat) (h : bytes ≠ []) : (base64 bytes).isEmpty = false := by
  match bytes, h with
  | [_], _ => rfl
  | [_, _], _ => rfl
  | _ :: _ :: _ :: _, _ => rw [base64]; rfl

/-- C12: on the parse endpoint, for a request body whose text field is a
non-empty string and a non-empty uploaded file, the contents passed to the
gateway are exactly the fixed instruction followed by one inline-data segment
of type `application/pdf` holding the base64 text of the file, the text field
being dropped; for the same body without a file they are exactly the fixed
instruction followed by one text segment equal to the text field. -/
theorem pdf_takes_precedence [JSNumber ν] [StackLimit] (ai : GenAI ν)
    (body : List (JSString × JSValue ν)) (bytes : List Nat) (text : JSString)
    (hbytes : bytes ≠ [])
    (htext : JSValue.lookup (utf16 "text") body = .string text) (hne : text ≠ []) :
    (handle .parse ai ⟨some body, some (.ok bytes)⟩).calls
        = [generateRequest
            (.array
              [.obj [("text", .string parsePrompt)],
               .obj [("inlineData",
                  .obj [("mimeType", .str "application/pdf"),
                        ("data", .string (base64 bytes))])]])
            syllabusSchema]
      ∧ (handle .parse ai ⟨some body, none⟩).calls
        = [generateRequest
            (.array [.obj [("text", .string parsePrompt)], .obj [("text", .string text)]])
            syllabusSchema] := by
  have htrue : (JSValue.string text : JSValue ν).toBoolean = true := by
    cases text with
    | nil => exact absurd rfl hne
    | cons c r => rfl
  have hor : (JSValue.string text : JSValue ν).or (.str "") = .string text := by
    simp [JSValue.or, htrue]
  have hb := base64_ne_nil bytes hbytes
  constructor
  · simp only [handle, parseHandler, Request.field, htext, hor, htrue, readUpload, pdfPresent,
      hb, Bool.not_true, Bool.not_false, Bool.and_false, Bool.false_and, Bool.false_eq_true,
      ↓reduceIte, parseContents, Option.getD_some]
    exact callAndRespond_calls _ _ _ _
  · simp only [handle, parseHandler, Request.field, htext, hor, htrue, readUpload, pdfPresent,
      Bool.not_true, Bool.not_false, Bool.and_true, Bool.false_and, Bool.false_eq_true,
      ↓reduceIte, parseContents]
    exact callAndRespond_calls _ _ _ _

set_option maxRecDepth 100000 in
/-- C12 on a body with pasted text and the four bytes `%PDF`. -/
theorem pdf_takes_precedence_witness :
    (handle .parse (stubText "null") ⟨some textAndFileBody, some (.ok [0x25, 0x50, 0x44, 0x46])⟩).calls
        = [generateRequest
            (.array
              [.obj [("text", .string parsePrompt)],
               .obj [("inlineData",
                  .obj [("mimeType", .str "application/pdf"),
                        ("data", .string (base64 [0x25, 0x50, 0x44, 0x46]))])]])
            syllabusSchema]
      ∧ (handle .parse (stubText "null") ⟨some textAndFileBody, none⟩).calls
        = [generateRequest
            (.array
              [.obj [("text", .string parsePrompt)],
               .obj [("text", .string (utf16 "Week 1: recursion"))]])
            syllabusSchema] :=
  pdf_takes_precedence (stubText "null") textAndFileBody [0x25, 0x50, 0x44, 0x46]
    (utf16 "Week 1: recursion") (by decide) (by rfl) (by decide)

/-- The guards that the client has: the planner sends nothing when file and
trimmed text are both empty or a date is empty, the questions handler when the
trimmed topic is empty, the tracker handler when the trimmed text is empty; in
each case the only effects are `preventDefault` and status lines. -/
theorem client_guards :
    (∀ form : PlannerForm,
        (form.file = none ∧ trim form.syllabusText = []) ∨ form.startDate = []
          ∨ form.examDate = [] →
        noFetch (plannerSubmit form) = true)
      ∧ (∀ form : QuestionsForm, trim form.topicInput = [] →
        questionsClick form
          = [ClientEffect.setStatus .questionsStatus (utf16 "Please enter a topic.")])
      ∧ (∀ form : TrackerForm, trim form.trackerRawText = [] →
        trackerSubmit form
          = [ClientEffect.preventDefault,
             ClientEffect.setStatus .trackerStatus
               (utf16 "Please paste some LMS / grade text.")]) := by
  refine ⟨?_, ?_, ?_⟩
  · intro form h
    unfold plannerSubmit
    by_cases h1 : (form.file.isNone && (trim form.syllabusText).isEmpty) = true
    · simp only [h1, ↓reduceIte]; rfl
    · simp only [h1, Bool.false_eq_true, ↓reduceIte]
      have h2 : (form.startDate.isEmpty || form.examDate.isEmpty) = true := by
        rcases h with ⟨hf, ht⟩ | hs | he
        · exact absurd (by simp [hf, ht]) h1
        · simp [hs]
        · simp [he]
      simp only [h2, ↓reduceIte]; rfl
  · intro form h
    simp [questionsClick, h]
  · intro form h
    simp [trackerSubmit, h]

/-- The planner handler never reads `hoursPerWeek` before sending: with a file
or pasted text and both dates it calls `fetch` on `/api/syllabus/parse`,
whatever `hoursPerWeek` holds. -/
theorem planner_sends_whatever_hours (form : PlannerForm)
    (h1 : (form.file.isNone && (trim form.syllabusText).isEmpty) = false)
    (h2 : form.startDate ≠ []) (h3 : form.examDate ≠ []) :
    plannerSubmit form
      = [ClientEffect.preventDefault,
         ClientEffect.setStatus .plannerStatus
           (utf16 "Calling Gemini\u2026 extracting syllabus and building plan\u2026"),
         ClientEffect.fetch
           ⟨utf16 "/api/syllabus/parse", utf16 "POST", [],
             FetchBody.formData (plannerFormData form)⟩] := by
  have h2b : form.startDate.isEmpty = false := by
    cases hs : form.startDate with
    | nil => exact absurd hs h2
    | cons _ _ => rfl
  have h3b : form.examDate.isEmpty = false := by
    cases hs : form.examDate with
    | nil => exact absurd hs h3
    | cons _ _ => rfl
  simp [plannerSubmit, h1, h2b, h3b]

/-- C11 fails on the code: with pasted syllabus text, both dates and an empty
`hoursPerWeek`, a field that `/api/syllabus/plan` requires, the submit handler
of the planner form does not stop at a status message: it calls `fetch` on
`/api/syllabus/parse`. -/
theorem planner_sends_with_empty_hours :
    emptyHoursForm.hoursPerWeek = []
      ∧ noFetch (plannerSubmit emptyHoursForm) = false
      ∧ plannerSubmit emptyHoursForm
        = [ClientEffect.preventDefault,
           ClientEffect.setStatus .plannerStatus
             (utf16 "Calling Gemini\u2026 extracting syllabus and building plan\u2026"),
           ClientEffect.fetch
             ⟨utf16 "/api/syllabus/parse", utf16 "POST", [],
               FetchBody.formData
                 [FormEntry.text (utf16 "text") (utf16 "CS 101, week 1: recursion")]⟩] := by
  refine ⟨rfl, by decide, by decide⟩

end StudyPlanner
